import Mathlib

/-!
# cloudproof: SigV4 identity and organization proofs

A shallow embedding of the Go packages `aws`, `aws/stsproof`, `aws/orgproof` and
`cptest` of `common-fate/cloudproof`, together with models of the library
functions they call (Go `time`, `strconv`, `net/url`, `net/http`, `crypto/sha256`,
`encoding/hex`, `encoding/xml`, `encoding/json` and the SigV4 signer of the AWS SDK).

Go strings are modelled by Lean strings and their bytes by the UTF-8 encoding;
`(*T, error)` results are modelled by `Except Error T`.
-/

namespace Cloudproof

/-- A Go `error`, identified by its message. -/
abbrev Error := String

deriving instance DecidableEq for Except

/-! ## Bytes, decimal and hexadecimal text -/

/-- UTF-8 encoding of one character, as a list of bytes. -/
def utf8Char (c : Char) : List Nat :=
  let n := c.toNat
  if n < 128 then [n]
  else if n < 2048 then [192 + n / 64, 128 + n % 64]
  else if n < 65536 then [224 + n / 4096, 128 + n / 64 % 64, 128 + n % 64]
  else [240 + n / 262144, 128 + n / 4096 % 64, 128 + n / 64 % 64, 128 + n % 64]

/-- The bytes of a Go string. -/
def bytesOf (s : String) : List Nat := s.toList.flatMap utf8Char

/-- Go `len(s)` for a string: the number of bytes. -/
def byteLen (s : String) : Nat := (bytesOf s).length

/-- The decimal digit character of `n % 10`. -/
def digitChar (n : Nat) : Char := Char.ofNat (48 + n % 10)

/-- Decimal digits of `n`, most significant first; `fuel` bounds the number of digits. -/
def decimalDigits : Nat → Nat → List Char
  | 0, n => [digitChar n]
  | fuel + 1, n => if n < 10 then [digitChar n] else decimalDigits fuel (n / 10) ++ [digitChar n]

/-- Decimal text of a natural number. -/
def natToDecimal (n : Nat) : List Char := decimalDigits n n

namespace strconv

/-- Go `strconv.Itoa` (and `FormatInt(_, 10)`, and the `%d` verb of `fmt`). -/
def Itoa (i : Int) : String :=
  match i with
  | Int.ofNat n => String.mk (natToDecimal n)
  | Int.negSucc n => String.mk ('-' :: natToDecimal (n + 1))

end strconv

namespace hex

/-- Lower-case hexadecimal digit of `n % 16`. -/
def digit (n : Nat) : Char :=
  let d := n % 16
  if d < 10 then Char.ofNat (48 + d) else Char.ofNat (87 + d)

/-- The characters `0`-`9` and `a`-`f`. -/
def isLowerHex (c : Char) : Bool := c.isDigit || (97 ≤ c.toNat && c.toNat ≤ 102)

/-- Go `hex.EncodeToString`: two lower-case digits per byte. -/
def EncodeToString (bs : List Nat) : String :=
  String.mk (bs.flatMap fun b => [digit (b / 16), digit b])

end hex

/-! ## Go `time` -/

namespace gotime

/-- A Go `time.Time`: an instant (seconds since the Unix epoch and nanoseconds within the
second) together with the offset of its location east of UTC, in seconds. -/
structure Time where
  unix : Int
  nsec : Nat
  offset : Int
deriving DecidableEq, Repr

/-- Unix seconds of Go's zero time, January 1, year 1, 00:00:00 UTC. -/
def zeroUnix : Int := -62135596800

/-- The zero value of `time.Time`. -/
def Time.zero : Time := ⟨zeroUnix, 0, 0⟩

/-- Go `Time.IsZero`: the instant is the zero instant, whatever the location. -/
def Time.IsZero (t : Time) : Bool := t.unix == zeroUnix && t.nsec == 0

/-- Go `Time.UTC`: the same instant with the location set to UTC. -/
def Time.UTC (t : Time) : Time := { t with offset := 0 }

/-- Go `time.Unix(sec, nsec)` for `0 ≤ nsec < 1e9`, in a location of offset `off`. -/
def Unix (sec : Int) (nsec : Nat) (off : Int) : Time := ⟨sec, nsec, off⟩

/-- Seconds since the epoch as read on the clock of the location. -/
def Time.localSeconds (t : Time) : Int := t.unix + t.offset

/-- Days since 1970-01-01 of the local date (floor division). -/
def Time.days (t : Time) : Int := t.localSeconds / 86400

/-- Second of the local day, in `[0, 86400)`. -/
def Time.secondOfDay (t : Time) : Nat := (t.localSeconds % 86400).toNat

/-- Proleptic Gregorian date `(year, month, day)` of a day number counted from 1970-01-01. -/
def civil (days : Int) : Int × Nat × Nat :=
  let z := days + 719468
  let era := z / 146097
  let doe := (z % 146097).toNat
  let yoe := (doe - doe / 1460 + doe / 36524 - doe / 146096) / 365
  let doy := doe - (365 * yoe + yoe / 4 - yoe / 100)
  let mp := (5 * doy + 2) / 153
  let d := doy - (153 * mp + 2) / 5 + 1
  let m := if mp < 10 then mp + 3 else mp - 9
  let y := (yoe : Int) + era * 400
  (if m ≤ 2 then y + 1 else y, m, d)

def Time.Year (t : Time) : Int := (civil t.days).1
def Time.Month (t : Time) : Nat := (civil t.days).2.1
def Time.Day (t : Time) : Nat := (civil t.days).2.2
def Time.Hour (t : Time) : Nat := t.secondOfDay / 3600
def Time.Minute (t : Time) : Nat := t.secondOfDay % 3600 / 60
def Time.Second (t : Time) : Nat := t.secondOfDay % 60

/-- Go `appendInt`: decimal text of `x`, zero-padded to at least `width` digits, with a
leading minus sign for a negative number. -/
def appendInt (x : Int) (width : Nat) : List Char :=
  let u := x.natAbs
  let sign := if x < 0 then ['-'] else []
  if width = 2 ∧ u < 100 then
    sign ++ [digitChar (u / 10), digitChar u]
  else if width = 4 ∧ u < 10000 then
    sign ++ [digitChar (u / 1000), digitChar (u / 100), digitChar (u / 10), digitChar u]
  else
    let ds := natToDecimal u
    sign ++ (List.replicate (width - ds.length) '0' ++ ds)

/-- The layout interpreter of Go `Time.Format`, for the layout elements the repository
and the signer use: `2006` (year), `01` (month), `02` (day), `15` (hour), `04` (minute),
`05` (second); every other character is copied. -/
def formatLayout (t : Time) : List Char → List Char
  | [] => []
  | '2' :: '0' :: '0' :: '6' :: rest => appendInt t.Year 4 ++ formatLayout t rest
  | '0' :: '1' :: rest => appendInt t.Month 2 ++ formatLayout t rest
  | '0' :: '2' :: rest => appendInt t.Day 2 ++ formatLayout t rest
  | '1' :: '5' :: rest => appendInt t.Hour 2 ++ formatLayout t rest
  | '0' :: '4' :: rest => appendInt t.Minute 2 ++ formatLayout t rest
  | '0' :: '5' :: rest => appendInt t.Second 2 ++ formatLayout t rest
  | c :: rest => c :: formatLayout t rest

/-- Go `Time.Format`. -/
def Time.Format (t : Time) (layout : String) : String :=
  String.mk (formatLayout t layout.toList)

/-- The fraction of a second in RFC 3339 texts (layout `.999999999`): nothing for zero
nanoseconds, else a point and the nine digits without their trailing zeros. -/
def fracText (nsec : Nat) : List Char :=
  if nsec = 0 then []
  else
    let digits := [digitChar (nsec / 100000000), digitChar (nsec / 10000000),
      digitChar (nsec / 1000000), digitChar (nsec / 100000), digitChar (nsec / 10000),
      digitChar (nsec / 1000), digitChar (nsec / 100), digitChar (nsec / 10), digitChar nsec]
    '.' :: (digits.reverse.dropWhile fun c => c == '0').reverse

/-- The zone in RFC 3339 texts (layout `Z07:00`): `Z` for the offset zero, else the sign, the
hours and the minutes of the offset. -/
def zoneText (offset : Int) : List Char :=
  if offset = 0 then ['Z']
  else
    let zone := Int.tdiv offset 60
    (if zone < 0 then '-' else '+') ::
      (appendInt ((zone.natAbs / 60 : Nat) : Int) 2 ++ ':' :: appendInt ((zone.natAbs % 60 : Nat) : Int) 2)

/-- Go `Time.MarshalJSON`, without the quotes: the time in RFC 3339 with nanoseconds, or an
error for a year outside 0 to 9999 or a zone of 24 hours or more. -/
def Time.MarshalJSON (t : Time) : Except Error String :=
  if t.Year < 0 ∨ t.Year > 9999 then .error "Time.MarshalJSON: year outside of range [0,9999]"
  else if (Int.tdiv t.offset 60).natAbs / 60 ≥ 24 then
    .error "Time.MarshalJSON: timezone hour outside of range [0,23]"
  else
    .ok (String.mk (appendInt t.Year 4 ++ '-' :: appendInt t.Month 2 ++ '-' :: appendInt t.Day 2 ++
      'T' :: appendInt t.Hour 2 ++ ':' :: appendInt t.Minute 2 ++ ':' :: appendInt t.Second 2 ++
      fracText t.nsec ++ zoneText t.offset))

def isLeap (y : Int) : Bool := y % 4 == 0 && (y % 100 != 0 || y % 400 == 0)

/-- Go `daysIn`: the number of days of a month. -/
def daysIn (m : Nat) (y : Int) : Nat :=
  if m == 2 then (if isLeap y then 29 else 28)
  else if m == 4 || m == 6 || m == 9 || m == 11 then 30 else 31

/-- Day number, counted from 1970-01-01, of a proleptic Gregorian date. -/
def daysFromCivil (y : Int) (m d : Nat) : Int :=
  let y1 := if m ≤ 2 then y - 1 else y
  let era := y1 / 400
  let yoe := (y1 - era * 400).toNat
  let mp := if m > 2 then m - 3 else m + 9
  let doy := (153 * mp + 2) / 5 + d - 1
  let doe := yoe * 365 + yoe / 4 - yoe / 100 + doy
  era * 146097 + (doe : Int) - 719468

/-- Value of a run of decimal digits; `none` when a character is no digit. -/
def digitsValue (cs : List Char) : Option Nat :=
  cs.foldl (fun acc c => match acc with
    | some n => if c.isDigit then some (n * 10 + (c.toNat - 48)) else none
    | none => none) (some 0)

/-- The zone of an RFC 3339 text: `Z`, or a sign, two digits of hours (at most 23), a colon and
two digits of minutes (at most 59). The result is the offset in seconds. -/
def parseZone : List Char → Option Int
  | ['Z'] => some 0
  | [sign, h1, h2, ':', m1, m2] =>
    match digitsValue [h1, h2], digitsValue [m1, m2] with
    | some hh, some mm =>
      if hh ≤ 23 ∧ mm ≤ 59 ∧ (sign == '+' || sign == '-') then
        some (if sign == '-' then -((hh * 3600 + mm * 60 : Nat) : Int) else ((hh * 3600 + mm * 60 : Nat) : Int))
      else none
    | _, _ => none
  | _ => none

/-- The fraction and the zone that end an RFC 3339 text: the nanoseconds (of the first nine
digits of the fraction) and the offset. -/
def parseFracZone (rest : List Char) : Option (Nat × Int) :=
  match rest with
  | '.' :: d :: more =>
    if d.isDigit then
      let ds := (d :: more).takeWhile Char.isDigit
      let nine := (ds ++ List.replicate 9 '0').take 9
      match digitsValue nine, parseZone ((d :: more).drop ds.length) with
      | some ns, some off => some (ns, off)
      | _, _ => none
    else none
  | _ => (parseZone rest).map fun off => (0, off)

/-- Go `Time.UnmarshalJSON` on the text of a JSON string: the strict RFC 3339 parser. -/
def Time.UnmarshalJSON (text : String) : Except Error Time :=
  match text.toList with
  | y1 :: y2 :: y3 :: y4 :: '-' :: m1 :: m2 :: '-' :: d1 :: d2 :: 'T' :: h1 :: h2 :: ':' ::
      mi1 :: mi2 :: ':' :: s1 :: s2 :: rest =>
    match digitsValue [y1, y2, y3, y4], digitsValue [m1, m2], digitsValue [d1, d2],
        digitsValue [h1, h2], digitsValue [mi1, mi2], digitsValue [s1, s2], parseFracZone rest with
    | some y, some m, some d, some h, some mi, some sec, some (ns, off) =>
      if 1 ≤ m ∧ m ≤ 12 ∧ 1 ≤ d ∧ d ≤ daysIn m y ∧ h ≤ 23 ∧ mi ≤ 59 ∧ sec ≤ 59 then
        .ok ⟨daysFromCivil y m d * 86400 + ((h * 3600 + mi * 60 + sec : Nat) : Int) - off, ns, off⟩
      else .error "Time.UnmarshalJSON: value out of range"
    | _, _, _, _, _, _, _ => .error "Time.UnmarshalJSON: cannot parse as RFC 3339"
  | _ => .error "Time.UnmarshalJSON: cannot parse as RFC 3339"

end gotime

/-! ## `crypto/sha256` and HMAC -/

namespace sha256

/-- Reduction of a sum to a 32-bit word. -/
def mask32 (x : Nat) : Nat := x % 4294967296

/-- Rotation of a 32-bit word to the right by `n` bits. -/
def rotr (x n : Nat) : Nat := mask32 ((x >>> n) ||| (x <<< (32 - n)))

/-- The round constants. -/
def K : List Nat := [
  0x428a2f98, 0x71374491, 0xb5c0fbcf, 0xe9b5dba5, 0x3956c25b, 0x59f111f1, 0x923f82a4, 0xab1c5ed5,
  0xd807aa98, 0x12835b01, 0x243185be, 0x550c7dc3, 0x72be5d74, 0x80deb1fe, 0x9bdc06a7, 0xc19bf174,
  0xe49b69c1, 0xefbe4786, 0x0fc19dc6, 0x240ca1cc, 0x2de92c6f, 0x4a7484aa, 0x5cb0a9dc, 0x76f988da,
  0x983e5152, 0xa831c66d, 0xb00327c8, 0xbf597fc7, 0xc6e00bf3, 0xd5a79147, 0x06ca6351, 0x14292967,
  0x27b70a85, 0x2e1b2138, 0x4d2c6dfc, 0x53380d13, 0x650a7354, 0x766a0abb, 0x81c2c92e, 0x92722c85,
  0xa2bfe8a1, 0xa81a664b, 0xc24b8b70, 0xc76c51a3, 0xd192e819, 0xd6990624, 0xf40e3585, 0x106aa070,
  0x19a4c116, 0x1e376c08, 0x2748774c, 0x34b0bcb5, 0x391c0cb3, 0x4ed8aa4a, 0x5b9cca4f, 0x682e6ff3,
  0x748f82ee, 0x78a5636f, 0x84c87814, 0x8cc70208, 0x90befffa, 0xa4506ceb, 0xbef9a3f7, 0xc67178f2]

/-- The eight working words of the hash. -/
structure Digest where
  h0 : Nat
  h1 : Nat
  h2 : Nat
  h3 : Nat
  h4 : Nat
  h5 : Nat
  h6 : Nat
  h7 : Nat
deriving DecidableEq, Repr

/-- The initial hash value. -/
def init : Digest :=
  ⟨0x6a09e667, 0xbb67ae85, 0x3c6ef372, 0xa54ff53a, 0x510e527f, 0x9b05688c, 0x1f83d9ab, 0x5be0cd19⟩

/-- Padding: a `0x80` byte, zero bytes up to 56 modulo 64, and the bit length on 8 bytes. -/
def pad (msg : List Nat) : List Nat :=
  let l := msg.length
  let z := (119 - l % 64) % 64
  let bits := l * 8
  msg ++ 128 :: (List.replicate z 0 ++
    [bits >>> 56 % 256, bits >>> 48 % 256, bits >>> 40 % 256, bits >>> 32 % 256,
     bits >>> 24 % 256, bits >>> 16 % 256, bits >>> 8 % 256, bits % 256])

/-- Big-endian 32-bit words of a byte string. -/
def words : List Nat → List Nat
  | a :: b :: c :: d :: rest => (a * 16777216 + b * 65536 + c * 256 + d) :: words rest
  | _ => []

/-- Message schedule: `w` holds the words computed so far, most recent first; `n` more words
are added. -/
def schedule : Nat → List Nat → List Nat
  | 0, w => w
  | n + 1, w =>
    match w with
    | _ :: w2 :: _ :: _ :: _ :: _ :: w7 :: _ :: _ :: _ :: _ :: _ :: _ :: _ :: w15 :: w16 :: _ =>
      let s0 := rotr w15 7 ^^^ rotr w15 18 ^^^ (w15 >>> 3)
      let s1 := rotr w2 17 ^^^ rotr w2 19 ^^^ (w2 >>> 10)
      schedule n (mask32 (w16 + s0 + w7 + s1) :: w)
    | _ => w

/-- One round of the compression function, on a round constant and a schedule word. -/
def round (s : Digest) (kw : Nat × Nat) : Digest :=
  match s with
  | ⟨a, b, c, d, e, f, g, h⟩ =>
    let S1 := rotr e 6 ^^^ rotr e 11 ^^^ rotr e 25
    let ch := (e &&& f) ^^^ ((4294967295 - e) &&& g)
    let t1 := h + S1 + ch + kw.1 + kw.2
    let S0 := rotr a 2 ^^^ rotr a 13 ^^^ rotr a 22
    let maj := (a &&& b) ^^^ (a &&& c) ^^^ (b &&& c)
    let t2 := S0 + maj
    ⟨mask32 (t1 + t2), a, b, c, mask32 (d + t1), e, f, g⟩

/-- Compression of one block of sixteen words. -/
def block (s : Digest) (ws : List Nat) : Digest :=
  let w := (schedule 48 ws.reverse).reverse
  let t := (K.zip w).foldl round s
  ⟨mask32 (s.h0 + t.h0), mask32 (s.h1 + t.h1), mask32 (s.h2 + t.h2), mask32 (s.h3 + t.h3),
   mask32 (s.h4 + t.h4), mask32 (s.h5 + t.h5), mask32 (s.h6 + t.h6), mask32 (s.h7 + t.h7)⟩

/-- Compression of all the blocks; `n` bounds their number. -/
def blocks : Nat → Digest → List Nat → Digest
  | 0, s, _ => s
  | n + 1, s, ws => if ws.length < 16 then s else blocks n (block s (ws.take 16)) (ws.drop 16)

/-- The four bytes of a 32-bit word, big-endian. -/
def wordBytes (w : Nat) : List Nat := [w >>> 24 % 256, w >>> 16 % 256, w >>> 8 % 256, w % 256]

/-- SHA-256 of a byte string: 32 bytes. -/
def Sum256 (msg : List Nat) : List Nat :=
  let ws := words (pad msg)
  let d := blocks ws.length init ws
  wordBytes d.h0 ++ wordBytes d.h1 ++ wordBytes d.h2 ++ wordBytes d.h3 ++
  wordBytes d.h4 ++ wordBytes d.h5 ++ wordBytes d.h6 ++ wordBytes d.h7

end sha256

namespace hmac

/-- The 64-byte block key of HMAC: a longer key is hashed, a shorter one zero-padded. -/
def blockKey (key : List Nat) : List Nat :=
  let k := if 64 < key.length then sha256.Sum256 key else key
  k ++ List.replicate (64 - k.length) 0

/-- HMAC-SHA256 of `data` under `key`. -/
def SHA256 (key data : List Nat) : List Nat :=
  let k := blockKey key
  sha256.Sum256 (k.map (fun b => b ^^^ 92) ++ sha256.Sum256 (k.map (fun b => b ^^^ 54) ++ data))

end hmac

/-! ## Go `strings` and `sort` -/

namespace strings

/-- Byte-wise lexicographic order on strings (the order of Go's `<` on strings). -/
def ltChars : List Char → List Char → Bool
  | _, [] => false
  | [], _ :: _ => true
  | a :: as, b :: bs => if a.toNat < b.toNat then true else if b.toNat < a.toNat then false else ltChars as bs

def lt (a b : String) : Bool := ltChars a.toList b.toList

/-- Insertion of a string into a sorted list, after the entries that are not greater. -/
def insertSorted (x : String) : List String → List String
  | [] => [x]
  | y :: ys => if lt x y then x :: y :: ys else y :: insertSorted x ys

/-- Go `sort.Strings`. -/
def sortStrings : List String → List String
  | [] => []
  | x :: xs => insertSorted x (sortStrings xs)

/-- Go `strings.Join`. -/
def Join : List String → String → String
  | [], _ => ""
  | [x], _ => x
  | x :: y :: rest, sep => x ++ sep ++ Join (y :: rest) sep

/-- Go `strings.ToLower`, on the ASCII letters. -/
def ToLower (s : String) : String := String.mk (s.toList.map Char.toLower)

/-- Go `unicode.IsSpace`. -/
def isSpace (c : Char) : Bool :=
  let n := c.toNat
  (9 ≤ n && n ≤ 13) || n == 32 || n == 133 || n == 160 || n == 5760 ||
  (8192 ≤ n && n ≤ 8202) || n == 8232 || n == 8233 || n == 8239 || n == 8287 || n == 12288

/-- Removal of the leading and trailing characters that satisfy `p`. -/
def trimChars (p : Char → Bool) (cs : List Char) : List Char :=
  ((cs.dropWhile p).reverse.dropWhile p).reverse

/-- Go `strings.TrimSpace`. -/
def TrimSpace (s : String) : String := String.mk (trimChars isSpace s.toList)

end strings

/-! ## Go `net/url` -/

namespace url

/-- Characters that `QueryEscape` and the SigV4 path escaping leave alone. -/
def unreserved (c : Char) : Bool := c.isAlphanum || c == '-' || c == '_' || c == '.' || c == '~'

/-- Upper-case hexadecimal digit of `n % 16`. -/
def upperHex (n : Nat) : Char :=
  let d := n % 16
  if d < 10 then Char.ofNat (48 + d) else Char.ofNat (55 + d)

/-- Percent-encoding of every byte of a character. -/
def percent (c : Char) : List Char :=
  (utf8Char c).flatMap fun b => ['%', upperHex (b / 16), upperHex b]

/-- Go `url.QueryEscape`. -/
def QueryEscape (s : String) : String :=
  String.mk (s.toList.flatMap fun c =>
    if unreserved c then [c] else if c == ' ' then ['+'] else percent c)

/-- Go `url.Values`: the values of each key. -/
structure Values where
  entries : List (String × List String)
deriving DecidableEq, Repr

/-- Go `url.Values{}`. -/
def Values.empty : Values := ⟨[]⟩

/-- Go `Values.Set`: the key gets the single value. -/
def Values.Set (v : Values) (key value : String) : Values :=
  if v.entries.any (fun kv => kv.1 == key) then
    ⟨v.entries.map (fun kv => if kv.1 == key then (key, [value]) else kv)⟩
  else ⟨v.entries ++ [(key, [value])]⟩

/-- The values stored under a key. -/
def Values.lookup (v : Values) (key : String) : List String :=
  match v.entries.find? (fun kv => kv.1 == key) with
  | some kv => kv.2
  | none => []

/-- Go `Values.Encode`: `key=value` pairs joined by `&`, sorted by key. -/
def Values.Encode (v : Values) : String :=
  strings.Join
    ((strings.sortStrings (v.entries.map Prod.fst)).flatMap fun k =>
      (v.lookup k).map fun x => QueryEscape k ++ "=" ++ QueryEscape x)
    "&"

/-- The parts of a Go `url.URL` that the code reads. -/
structure URL where
  Scheme : String
  Host : String
  Path : String
  RawQuery : String
deriving DecidableEq, Repr

/-- Splits at the first occurrence of `://`: the scheme, and what follows. -/
def splitScheme : List Char → List Char → Option (List Char × List Char)
  | _, [] => none
  | acc, ':' :: '/' :: '/' :: rest => some (acc.reverse, rest)
  | acc, c :: rest => splitScheme (c :: acc) rest

/-- Go `url.Parse` on URLs of the shape `scheme://host/path?query#fragment`; the validation
that `url.Parse` does of each part is not modelled. -/
def Parse (raw : String) : URL :=
  let (scheme, rest) := (splitScheme [] raw.toList).getD ([], raw.toList)
  let authority := if scheme.isEmpty then [] else rest.takeWhile fun c => c != '/' && c != '?' && c != '#'
  let afterHost := rest.drop authority.length
  let path := afterHost.takeWhile fun c => c != '?' && c != '#'
  let afterPath := afterHost.drop path.length
  let query := match afterPath with
    | '?' :: q => q.takeWhile fun c => c != '#'
    | _ => []
  ⟨String.mk scheme, String.mk authority, String.mk path, String.mk query⟩

end url

/-! ## Go `net/http` -/

namespace http

/-- The punctuation allowed in a header field name, the apostrophe and the grave accent apart. -/
def tokenPunct : List Char := "!#$%&*+-.^_|~".toList

/-- Go `httpguts` token characters. -/
def isTokenChar (c : Char) : Bool :=
  c.isAlphanum || tokenPunct.contains c || c.toNat == 39 || c.toNat == 96

/-- The capitalisation loop of `CanonicalMIMEHeaderKey`; `upper` tells whether the next letter
starts a word. -/
def canonicalChars : Bool → List Char → List Char
  | _, [] => []
  | upper, c :: cs =>
    let c1 := if upper then c.toUpper else c.toLower
    c1 :: canonicalChars (c1 == '-') cs

/-- Go `textproto.CanonicalMIMEHeaderKey`: a key with a character that is no token character is
left as it is. -/
def CanonicalMIMEHeaderKey (s : String) : String :=
  if s.toList.all isTokenChar then String.mk (canonicalChars true s.toList) else s

/-- Go `http.Header`, a map from keys to their values. -/
structure Header where
  entries : List (String × List String)
deriving DecidableEq, Repr

/-- The empty header map. -/
def Header.empty : Header := ⟨[]⟩

/-- Go `h[key] = values` on the map. -/
def Header.assign (h : Header) (key : String) (values : List String) : Header :=
  if h.entries.any (fun kv => kv.1 == key) then
    ⟨h.entries.map (fun kv => if kv.1 == key then (key, values) else kv)⟩
  else ⟨h.entries ++ [(key, values)]⟩

/-- Go `h[key]`: `none` when the key is absent. -/
def Header.values (h : Header) (key : String) : Option (List String) :=
  (h.entries.find? (fun kv => kv.1 == key)).map Prod.snd

/-- Go `Header.Set`. -/
def Header.Set (h : Header) (key value : String) : Header :=
  h.assign (CanonicalMIMEHeaderKey key) [value]

/-- Go `Header.Get`: the first value of the key, or the empty string. -/
def Header.Get (h : Header) (key : String) : String :=
  match h.values (CanonicalMIMEHeaderKey key) with
  | some (v :: _) => v
  | _ => ""

/-- Go `Header.Del`. -/
def Header.Del (h : Header) (key : String) : Header :=
  ⟨h.entries.filter fun kv => kv.1 != CanonicalMIMEHeaderKey key⟩

/-- The fields of a Go `http.Request` that the code and the signer read. A `nil` body is the
empty body. -/
structure Request where
  Method : String
  URL : url.URL
  Host : String
  Header : Header
  Body : String
  ContentLength : Int
deriving DecidableEq, Repr

/-- The values that a request carries for a lower-case header name, read the way the signer
reads them: the host of the request for `host`, its content length (when it is positive) for
`content-length`, and the values of the header of that name for any other name. -/
def Request.headerValues (r : Request) (name : String) : Option (List String) :=
  if name == "host" then some [if r.Host != "" then r.Host else r.URL.Host]
  else if name == "content-length" then
    if r.ContentLength > 0 then some [strconv.Itoa r.ContentLength] else none
  else (r.Header.entries.find? fun kv => strings.ToLower kv.1 == name).map Prod.snd

/-- Go `http.NewRequest`: the body is `none` for `nil` and `some s` for `strings.NewReader(s)`,
whose length becomes the content length. -/
def NewRequest (method rawurl : String) (body : Option String) : Request :=
  let u := url.Parse rawurl
  { Method := method, URL := u, Host := u.Host, Header := Header.empty,
    Body := body.getD "", ContentLength := ((body.map byteLen).getD 0 : Nat) }

/-- The status and the body of a Go `http.Response`; the body is the outcome of reading it to
the end, an error or the bytes. -/
structure Response where
  StatusCode : Int
  Body : Except Error String

/-- Go `http.Client`: what `Do` answers to a request, a response or a transport error. -/
structure Client where
  Do : Request → Except Error Response

def StatusOK : Int := 200

/-- A stub transport: a client that answers every request with the given status and body. -/
def stubClient (code : Int) (body : String) : Client :=
  ⟨fun _ => .ok { StatusCode := code, Body := .ok body }⟩

end http

/-! ## The SigV4 signer of the AWS SDK (`aws/signer/v4`)

Modelled from the algorithm of §4.2 of the specification and from `SignHTTP` of the SDK,
for header signing (no presigning). -/

namespace signer

open gotime http

/-- AWS credentials, as returned by a credentials provider. -/
structure Credentials where
  AccessKeyID : String
  SecretAccessKey : String
  SessionToken : String
deriving DecidableEq, Repr

def TimeFormat : String := "20060102T150405Z"
def ShortTimeFormat : String := "20060102"
def signingAlgorithm : String := "AWS4-HMAC-SHA256"
def AmzDateKey : String := "X-Amz-Date"
def AmzSecurityTokenKey : String := "X-Amz-Security-Token"
def authorizationHeader : String := "Authorization"

/-- SDK `IgnoredHeaders`: the headers that are never signed (later versions of the SDK add
`Expect` and `Transfer-Encoding`, which no request of the repository carries when it is
signed). -/
def IgnoredHeaders : List String := ["Authorization", "User-Agent", "X-Amzn-Trace-Id"]

/-- Collapses every run of spaces to one space. -/
def collapseSpaces : List Char → List Char
  | ' ' :: ' ' :: rest => collapseSpaces (' ' :: rest)
  | c :: rest => c :: collapseSpaces rest
  | [] => []

/-- SDK `StripExcessSpaces`: no leading or trailing space, and single spaces inside. -/
def StripExcessSpaces (s : String) : String :=
  String.mk (collapseSpaces (strings.trimChars (fun c => c == ' ') s.toList))

/-- SDK `portOnly`, for hosts that are not bracketed IPv6 literals. -/
def portOnly (hostport : String) : String :=
  String.mk ((hostport.toList.dropWhile fun c => c != ':').drop 1)

/-- SDK `stripPort`, for hosts that are not bracketed IPv6 literals. -/
def stripPort (hostport : String) : String :=
  String.mk (hostport.toList.takeWhile fun c => c != ':')

/-- SDK `isDefaultPort`. -/
def isDefaultPort (scheme port : String) : Bool :=
  port == "" || (strings.ToLower scheme == "http" && port == "80") ||
    (strings.ToLower scheme == "https" && port == "443")

/-- SDK `SanitizeHostForHeader`: the default port of the scheme is removed from the host. -/
def SanitizeHostForHeader (r : Request) : Request :=
  let host := if r.Host != "" then r.Host else r.URL.Host
  let port := portOnly host
  if port != "" && isDefaultPort r.URL.Scheme port then { r with Host := stripPort host } else r

/-- SDK `httpbinding.EscapePath` without encoding of the separator. -/
def EscapePath (path : String) : String :=
  String.mk (path.toList.flatMap fun c =>
    if url.unreserved c || c == '/' then [c] else url.percent c)

/-- SDK `GetURIPath`: the path of the URL, `/` when it is empty. -/
def GetURIPath (u : url.URL) : String := if u.Path == "" then "/" else u.Path

/-- Splits a list at every occurrence of a separator. -/
def splitOn (sep : Char) : List Char → List (List Char)
  | [] => [[]]
  | c :: rest =>
    match splitOn sep rest with
    | [] => [[c]]
    | w :: ws => if c == sep then [] :: w :: ws else (c :: w) :: ws

/-- Go `URL.Query`, for a raw query without percent-escapes: the values of every key, in the
order of the query. -/
def parseQuery (raw : String) : url.Values :=
  ((splitOn '&' raw.toList).filter fun kv => !kv.isEmpty).foldl
    (fun (v : url.Values) kv =>
      let k := String.mk (kv.takeWhile fun c => c != '=')
      let x := String.mk ((kv.dropWhile fun c => c != '=').drop 1)
      if v.entries.any (fun e => e.1 == k) then
        ⟨v.entries.map fun e => if e.1 == k then (k, e.2 ++ [x]) else e⟩
      else ⟨v.entries ++ [(k, [x])]⟩)
    url.Values.empty

/-- The canonical query string: every key's values sorted, the query encoded, `+` replaced
by `%20`. -/
def canonicalQuery (raw : String) : String :=
  let q : url.Values := ⟨(parseQuery raw).entries.map fun e => (e.1, strings.sortStrings e.2)⟩
  String.mk (q.Encode.toList.flatMap fun c => if c == '+' then "%20".toList else [c])

/-- The loop of `buildCanonicalHeaders` over the header map: the lower-case names to sign and
their values. -/
def collectHeaders (names : List String) (signed : Header) :
    List (String × List String) → List String × Header
  | [] => (names, signed)
  | (k, v) :: rest =>
    if IgnoredHeaders.contains k then collectHeaders names signed rest
    else if strings.ToLower k == "content-length" then collectHeaders names signed rest
    else
      let lowerCaseKey := strings.ToLower k
      match signed.values lowerCaseKey with
      | some vs => collectHeaders names (signed.assign lowerCaseKey (vs ++ v)) rest
      | none => collectHeaders (names ++ [lowerCaseKey]) (signed.assign lowerCaseKey v) rest

/-- One line of the canonical headers. -/
def canonicalHeaderLine (host : String) (signed : Header) (name : String) : String :=
  if name == "host" then "host:" ++ StripExcessSpaces host ++ "\n"
  else
    name ++ ":" ++
      strings.Join (((signed.values name).getD []).map fun v =>
        strings.TrimSpace (StripExcessSpaces v)) "," ++ "\n"

/-- SDK `buildCanonicalHeaders`: the signed header map, the signed-header list and the
canonical headers. -/
def buildCanonicalHeaders (host : String) (header : Header) (length : Int) :
    Header × String × String :=
  let names0 := ["host"]
  let signed0 := Header.empty.assign "host" [host]
  let (names1, signed1) :=
    if length > 0 then (names0 ++ ["content-length"], signed0.assign "content-length" [strconv.Itoa length])
    else (names0, signed0)
  let (names2, signed2) := collectHeaders names1 signed1 header.entries
  let sorted := strings.sortStrings names2
  (signed2, strings.Join sorted ";",
    String.join (sorted.map (canonicalHeaderLine host signed2)))

/-- SDK `buildCredentialScope`. -/
def buildCredentialScope (t : Time) (region service : String) : String :=
  strings.Join [t.Format ShortTimeFormat, region, service, "aws4_request"] "/"

/-- SDK `buildCanonicalString`. -/
def buildCanonicalString (method uri query signedHeaders canonicalHeaders payloadHash : String) :
    String :=
  strings.Join [method, uri, query, canonicalHeaders, signedHeaders, payloadHash] "\n"

/-- SDK `buildStringToSign`. -/
def buildStringToSign (t : Time) (credentialScope canonicalRequestString : String) : String :=
  strings.Join
    [signingAlgorithm, t.Format TimeFormat, credentialScope,
     hex.EncodeToString (sha256.Sum256 (bytesOf canonicalRequestString))] "\n"

/-- SDK `deriveKey`: the HMAC chain seeded with `"AWS4" + secret`. -/
def deriveKey (secret service region : String) (t : Time) : List Nat :=
  let hmacDate := hmac.SHA256 (bytesOf ("AWS4" ++ secret)) (bytesOf (t.Format ShortTimeFormat))
  let hmacRegion := hmac.SHA256 hmacDate (bytesOf region)
  let hmacService := hmac.SHA256 hmacRegion (bytesOf service)
  hmac.SHA256 hmacService (bytesOf "aws4_request")

/-- SDK `buildSignature`. -/
def buildSignature (creds : Credentials) (service region : String) (t : Time)
    (strToSign : String) : String :=
  hex.EncodeToString (hmac.SHA256 (deriveKey creds.SecretAccessKey service region t) (bytesOf strToSign))

/-- SDK `buildAuthorizationHeader`. -/
def buildAuthorizationHeader (credentialStr signedHeadersStr signingSignature : String) : String :=
  signingAlgorithm ++ " " ++ "Credential=" ++ credentialStr ++ ", " ++
    "SignedHeaders=" ++ signedHeadersStr ++ ", " ++ "Signature=" ++ signingSignature

/-- SDK `setRequiredSigningFields`: the date header, and the token header for a non-empty
session token. -/
def setRequiredSigningFields (creds : Credentials) (t : Time) (headers : Header) : Header :=
  let h := headers.assign AmzDateKey [t.Format TimeFormat]
  if creds.SessionToken.length > 0 then h.assign AmzSecurityTokenKey [creds.SessionToken] else h

/-- SDK `signedRequest`: the request with its signature, and what was signed. -/
structure signedRequest where
  Request : Request
  SignedHeaders : Header
  CanonicalString : String
  StringToSign : String
deriving DecidableEq, Repr

/-- SDK `httpSigner.Build`, with the signing time already converted to UTC. -/
def Build (creds : Credentials) (r : Request) (payloadHash service region : String)
    (t : Time) : signedRequest :=
  let headers := setRequiredSigningFields creds t r.Header
  let req := SanitizeHostForHeader { r with Header := headers }
  let credentialScope := buildCredentialScope t region service
  let credentialStr := creds.AccessKeyID ++ "/" ++ credentialScope
  let host := if req.Host.length > 0 then req.Host else req.URL.Host
  let (signedHeaders, signedHeadersStr, canonicalHeaderStr) :=
    buildCanonicalHeaders host headers req.ContentLength
  let rawQuery := canonicalQuery req.URL.RawQuery
  let canonicalURI := EscapePath (GetURIPath req.URL)
  let canonicalString := buildCanonicalString req.Method canonicalURI rawQuery signedHeadersStr
    canonicalHeaderStr payloadHash
  let strToSign := buildStringToSign t credentialScope canonicalString
  let signingSignature := buildSignature creds service region t strToSign
  let headers1 := headers.assign authorizationHeader
    [buildAuthorizationHeader credentialStr signedHeadersStr signingSignature]
  { Request := { req with Header := headers1, URL := { req.URL with RawQuery := rawQuery } },
    SignedHeaders := signedHeaders,
    CanonicalString := canonicalString,
    StringToSign := strToSign }

/-- SDK `Signer.SignHTTP`: signs the request in place; the result is the request as it is
left, or an error (there is none on this path: `Build` has no failure). -/
def SignHTTP (creds : Credentials) (r : Request) (payloadHash service region : String)
    (signingTime : Time) : Except Error Request :=
  .ok (Build creds r payloadHash service region signingTime.UTC).Request

end signer

/-! ## Go `encoding/xml`

A model of `xml.Unmarshal` (a decoder in its default, strict mode). The tokenizer of `xml.go`
(`rawToken`, `text`, `name`, `nsname`, `space`) reads the input byte by byte; `step` below is
its control flow as a state machine that is fed character by character, with the line count
that the syntax errors report. `root` and `build` are `Token` with its check of the nesting
and the loop of `unmarshal` that looks for the root element and reads its content.

Two parts of the library are not modelled. A name with a character outside ASCII is reported
as an invalid name, where Go consults the tables of letters of XML 1.0. Namespaces are kept as
the prefixes that the document writes: the struct of the verifiers names no namespace, so a
field matches an element by its local name. -/

namespace xml

/-- The tokens of the decoder. An end tag comes with the line on which it ends, for the
errors of the nesting check. `other` is a comment, a processing instruction or a directive;
`malformed` is the error that ends the stream, `eof` the end of the input. -/
inductive Token where
  | StartElement (space : String) (name : String)
  | EndElement (space : String) (name : String) (line : Nat)
  | CharData (text : String)
  | other
  | malformed (msg : Error)
  | eof (line : Nat)
deriving DecidableEq, Repr

/-- The text of a `SyntaxError`. -/
def syntaxError (line : Nat) (msg : String) : Error :=
  "XML syntax error on line " ++ strconv.Itoa line ++ ": " ++ msg

/-- What `text` reads: character data, a quoted attribute value of the start tag of an
element, or a CDATA section. -/
inductive TextKind where
  | plain
  | attr (quote : Char) (space : String) (name : String)
  | cdata

/-- Where the tokenizer is. Characters that are collected are kept in reverse. -/
inductive Mode where
  | top
  | text (k : TextKind) (acc : List Char) (b0 : Char) (b1 : Char)
  | entAmp (k : TextKind) (acc : List Char)
  | entName (k : TextKind) (acc : List Char) (name : List Char)
  | entHash (k : TextKind) (acc : List Char)
  | entNum (k : TextKind) (acc : List Char) (hexadecimal : Bool) (digits : List Char)
  | lt
  | endStart
  | endName (name : List Char)
  | endSpace (space : String) (name : String)
  | piStart
  | piTarget (name : List Char)
  | piSpace (target : String)
  | piBody (target : String) (acc : List Char) (b0 : Char)
  | bang
  | bangDash
  | comment (b0 : Char) (b1 : Char)
  | cdataOpen (todo : List Char)
  | directive (inquote : Option Char) (depth : Nat)
  | dirLt (todo : List Char) (depth : Nat)
  | dirComment (b0 : Char) (b1 : Char) (depth : Nat)
  | startName (name : List Char)
  | attrs (space : String) (name : String)
  | slash (space : String) (name : String)
  | attrName (space : String) (name : String) (attr : List Char)
  | attrEq (space : String) (name : String)
  | attrVal (space : String) (name : String)

/-- What a character does to the tokenizer: the next mode with the tokens that are complete,
or the error that ends the stream. -/
inductive Outcome where
  | next (m : Mode) (out : List Token)
  | fail (msg : Error)

/-- The white space that `space` skips. -/
def isSpace (c : Char) : Bool := c == ' ' || c == '\r' || c == '\n' || c == '\t'

/-- Go `isNameByte`, and every byte of a character outside ASCII: what `readName` takes into
a name. -/
def isNameByte (c : Char) : Bool :=
  c.isAlpha || c.isDigit || c == '_' || c == ':' || c == '.' || c == '-' || c.toNat ≥ 128

/-- Go `isName` for a name of ASCII characters: a letter, `_` or `:`, then letters, digits,
`_`, `:`, `.` and `-`. A name with any other character is not accepted. -/
def isName : List Char → Bool
  | [] => false
  | c :: cs =>
    (c.isAlpha || c == '_' || c == ':') &&
      cs.all fun x => x.isAlpha || x.isDigit || x == '_' || x == ':' || x == '.' || x == '-'

/-- Go `nsname` on a name: the prefix and the local part, or nothing for a name with more
than one colon. A name without a colon, or with nothing before or behind it, has no prefix. -/
def nsname (n : List Char) : Option (String × String) :=
  if n.count ':' > 1 then none
  else
    let before := n.takeWhile fun c => c != ':'
    let after := (n.dropWhile fun c => c != ':').drop 1
    if !n.contains ':' || before.isEmpty || after.isEmpty then some ("", String.mk n)
    else some (String.mk before, String.mk after)

/-- Go `isInCharacterRange`: the characters that XML allows. -/
def inCharacterRange (c : Char) : Bool :=
  let n := c.toNat
  n == 9 || n == 10 || n == 13 || (32 ≤ n && n ≤ 55295) || (57344 ≤ n && n ≤ 65533) ||
    (65536 ≤ n && n ≤ 1114111)

/-- Upper-case hexadecimal digits of a number, most significant first; `fuel` bounds their
number. -/
def upperHex : Nat → Nat → List Char
  | 0, _ => []
  | fuel + 1, n =>
    let d := n % 16
    let c := if d < 10 then Char.ofNat (48 + d) else Char.ofNat (55 + d)
    if n < 16 then [c] else upperHex fuel (n / 16) ++ [c]

/-- The verb `%U` of `fmt`: `U+` and at least four upper-case hexadecimal digits. -/
def formatU (c : Char) : String :=
  let ds := upperHex 8 c.toNat
  "U+" ++ String.mk (List.replicate (4 - ds.length) '0' ++ ds)

/-- The end of `text`: the data, when every character of it is one that XML allows. -/
def checkText (line : Nat) (acc : List Char) : Except Error String :=
  match acc.reverse.find? fun c => !inCharacterRange c with
  | some c => .error (syntaxError line ("illegal character code " ++ formatU c))
  | none => .ok (String.mk acc.reverse)

/-- The text of a predefined entity. -/
def entity (name : String) : Option Char :=
  if name == "lt" then some '<' else if name == "gt" then some '>'
  else if name == "amp" then some '&' else if name == "apos" then some (Char.ofNat 39)
  else if name == "quot" then some '"' else none

/-- Value of a digit of a character reference. -/
def digitVal (c : Char) : Nat :=
  if c.isDigit then c.toNat - 48
  else if 'a' ≤ c ∧ c ≤ 'f' then c.toNat - 87
  else c.toNat - 55

/-- The number that digits denote in the given base. -/
def digitsToNat (base : Nat) (digits : List Char) : Nat :=
  digits.foldl (fun n c => n * base + digitVal c) 0

/-- The text of a character reference with the given digits: Go `string(rune(n))`, which is
the replacement character for a surrogate; nothing when there is no digit or the number is
above `unicode.MaxRune`. -/
def charRef (hexadecimal : Bool) (digits : List Char) : Option Char :=
  let n := digitsToNat (if hexadecimal then 16 else 10) digits
  if digits.isEmpty then none
  else if n > 0x10FFFF then none
  else if 0xD800 ≤ n ∧ n ≤ 0xDFFF then some (Char.ofNat 0xFFFD)
  else some (Char.ofNat n)

/-- Whether a character is a digit of a character reference in the given base. -/
def isRefDigit (hexadecimal : Bool) (c : Char) : Bool :=
  c.isDigit || (hexadecimal && (('a' ≤ c ∧ c ≤ 'f') || ('A' ≤ c ∧ c ≤ 'F')))

/-- The rest of a text behind the first occurrence of `param` in it. -/
def afterParam (param : List Char) : List Char → Option (List Char)
  | [] => if param.isEmpty then some [] else none
  | c :: rest =>
    if param.isPrefixOf (c :: rest) then some ((c :: rest).drop param.length)
    else afterParam param rest

/-- Go `procInst`: the value of `param="..."` or `param='...'` in the content of a processing
instruction, or the empty string. After an occurrence of `param=` that no quote follows, the
search goes on behind the character that follows it (`skip` counts the characters that are
passed over). -/
def procInstFrom (param : List Char) : Nat → List Char → String
  | _, [] => ""
  | skip + 1, _ :: rest => procInstFrom param skip rest
  | 0, c :: rest =>
    if param.isPrefixOf (c :: rest) then
      match (c :: rest).drop param.length with
      | [] => ""
      | q :: value =>
        if q == '"' || q.toNat == 39 then
          (if value.contains q then String.mk (value.takeWhile fun x => x != q) else "")
        else procInstFrom param param.length rest
    else procInstFrom param 0 rest

/-- Go `procInst(param, s)`. -/
def procInst (param : String) (s : String) : String :=
  procInstFrom (param.toList ++ ['=']) 0 s.toList

/-- Go `strconv.Quote`, the verb `%q`: the string between double quotes, with a backslash
before a quote and a backslash and with the control characters escaped. A character above
U+00FF is taken to be printable. -/
def quote (s : String) : String :=
  "\"" ++ String.join (s.toList.map fun c =>
    let n := c.toNat
    if c == '"' then "\\\"" else if c == '\\' then "\\\\"
    else if 32 ≤ n ∧ n ≤ 126 then String.mk [c]
    else if n == 7 then "\\a" else if n == 8 then "\\b" else if n == 12 then "\\f"
    else if n == 10 then "\\n" else if n == 13 then "\\r" else if n == 9 then "\\t"
    else if n == 11 then "\\v"
    else if n < 32 ∨ n == 127 then "\\x" ++ hex.EncodeToString [n]
    else if n < 161 ∨ n == 173 then "\\u00" ++ hex.EncodeToString [n]
    else String.mk [c]) ++ "\""

/-- The checks of the declaration `<?xml ...?>`: the version, when given, is `1.0`, and the
encoding, when given, is UTF-8 (the decoder has no `CharsetReader`). -/
def checkDeclaration (content : String) : Option Error :=
  let ver := procInst "version" content
  let enc := procInst "encoding" content
  if ver != "" && ver != "1.0" then
    some ("xml: unsupported version " ++ quote ver ++ "; only version 1.0 is supported")
  else if enc != "" && strings.ToLower enc != "utf-8" then
    some ("xml: encoding " ++ quote enc ++ " declared but Decoder.CharsetReader is nil")
  else none

/-- The end of `text`: the token of character data, the return to the start tag after an
attribute value, or the error of `checkText`. -/
def endText (k : TextKind) (line : Nat) (acc : List Char) (after : Mode) : Outcome :=
  match checkText line acc with
  | .error e => .fail e
  | .ok data =>
    match k with
    | .attr _ space name => .next (.attrs space name) []
    | _ => .next after [.CharData data]

/-- The end of the loop of `text`: a carriage return is written as a line feed, and the line
feed behind a carriage return is not written. -/
def writeChar (acc : List Char) (b1 : Char) (c : Char) : List Char :=
  if c == '\r' then '\n' :: acc
  else if b1 == '\r' && c == '\n' then acc
  else c :: acc

/-- The loop of `text` on the character `c`; `b0` and `b1` are the two characters read
before, and `lineAfter` is the line count after `c`. -/
def textStep (k : TextKind) (acc : List Char) (b0 b1 : Char) (lineAfter : Nat) (c : Char) :
    Outcome :=
  match k with
  | .cdata =>
    if b0 == ']' && b1 == ']' && c == '>' then endText k lineAfter (acc.drop 2) .top
    else .next (.text k (writeChar acc b1 c) b1 c) []
  | .plain =>
    if b0 == ']' && b1 == ']' && c == '>' then
      .fail (syntaxError lineAfter "unescaped ]]> not in CDATA section")
    else if c == '<' then endText k lineAfter acc .lt
    else if c == '&' then .next (.entAmp k acc) []
    else .next (.text k (writeChar acc b1 c) b1 c) []
  | .attr q _ _ =>
    if b0 == ']' && b1 == ']' && c == '>' then
      .fail (syntaxError lineAfter "unescaped ]]> not in CDATA section")
    else if c == '<' then .fail (syntaxError lineAfter "unescaped < inside quoted string")
    else if c == q then endText k lineAfter acc .top
    else if c == '&' then .next (.entAmp k acc) []
    else .next (.text k (writeChar acc b1 c) b1 c) []

/-- The message for a character entity that has no text: the entity as it is written. -/
def invalidEntity (line : Nat) (written : List Char) (semicolon : Bool) : Error :=
  syntaxError line ("invalid character entity &" ++ String.mk written ++
    (if semicolon then ";" else " (no semicolon)"))

/-- The start tag goes on with the character `c` behind the name of the element or behind an
attribute. -/
def attrsStep (space name : String) (line : Nat) (c : Char) : Outcome :=
  if isSpace c then .next (.attrs space name) []
  else if c == '/' then .next (.slash space name) []
  else if c == '>' then .next .top [.StartElement space name]
  else if isNameByte c then .next (.attrName space name [c]) []
  else .fail (syntaxError line "expected attribute name in element")

/-- Behind the name of an attribute: white space, then `=`. -/
def attrEqStep (space name : String) (lineAfter : Nat) (c : Char) : Outcome :=
  if isSpace c then .next (.attrEq space name) []
  else if c == '=' then .next (.attrVal space name) []
  else .fail (syntaxError lineAfter "attribute name without = in element")

/-- Behind the name of an end tag: white space, then `>`. -/
def endSpaceStep (space name : String) (lineAfter : Nat) (c : Char) : Outcome :=
  if isSpace c then .next (.endSpace space name) []
  else if c == '>' then .next .top [.EndElement space name lineAfter]
  else .fail (syntaxError lineAfter ("invalid characters between </" ++ name ++ " and >"))

/-- The content of a processing instruction on the character `c`. -/
def piBodyStep (target : String) (acc : List Char) (b0 : Char) (c : Char) : Outcome :=
  if b0 == '?' && c == '>' then
    if target == "xml" then
      match checkDeclaration (String.mk (acc.drop 1).reverse) with
      | some e => .fail e
      | none => .next .top [.other]
    else .next .top [.other]
  else .next (.piBody target (c :: acc) c) []

/-- The `switch` in the loop of a directive on the character `c`. -/
def dirHandle (inquote : Option Char) (depth : Nat) (c : Char) : Outcome :=
  match inquote with
  | some q => if c == q then .next (.directive none depth) [] else .next (.directive (some q) depth) []
  | none =>
    if c == '"' || c.toNat == 39 then .next (.directive (some c) depth) []
    else if c == '>' then .next (.directive none (depth - 1)) []
    else if c == '<' then .next (.dirLt ['!', '-', '-'] depth) []
    else .next (.directive none depth) []

/-- One step of the tokenizer: the character `c` in the mode `m`, where `line` is the line
count before `c` is read. An error that Go raises after it has put `c` back reports `line`,
any other error the count after `c`. -/
def step (m : Mode) (line : Nat) (c : Char) : Outcome :=
  let lineAfter := if c == '\n' then line + 1 else line
  match m with
  | .top => if c == '<' then .next .lt [] else textStep .plain [] (Char.ofNat 0) (Char.ofNat 0) lineAfter c
  | .text k acc b0 b1 => textStep k acc b0 b1 lineAfter c
  | .entAmp k acc =>
    if c == '#' then .next (.entHash k acc) []
    else if isNameByte c then .next (.entName k acc [c]) []
    else if c == ';' then .fail (invalidEntity lineAfter [] true)
    else .fail (invalidEntity line [] false)
  | .entName k acc name =>
    if isNameByte c then .next (.entName k acc (c :: name)) []
    else if c == ';' then
      match entity (String.mk name.reverse) with
      | some x => .next (.text k (x :: acc) (Char.ofNat 0) (Char.ofNat 0)) []
      | none => .fail (invalidEntity lineAfter name.reverse true)
    else .fail (invalidEntity line name.reverse false)
  | .entHash k acc =>
    if c == 'x' then .next (.entNum k acc true []) []
    else if isRefDigit false c then .next (.entNum k acc false [c]) []
    else if c == ';' then .fail (invalidEntity lineAfter ['#'] true)
    else .fail (invalidEntity line ['#'] false)
  | .entNum k acc hexadecimal digits =>
    let written := '#' :: ((if hexadecimal then ['x'] else []) ++ digits.reverse)
    if isRefDigit hexadecimal c then .next (.entNum k acc hexadecimal (c :: digits)) []
    else if c == ';' then
      match charRef hexadecimal digits.reverse with
      | some x => .next (.text k (x :: acc) (Char.ofNat 0) (Char.ofNat 0)) []
      | none => .fail (invalidEntity lineAfter written true)
    else .fail (invalidEntity line written false)
  | .lt =>
    if c == '/' then .next .endStart []
    else if c == '?' then .next .piStart []
    else if c == '!' then .next .bang []
    else if isNameByte c then .next (.startName [c]) []
    else .fail (syntaxError line "expected element name after <")
  | .endStart =>
    if isNameByte c then .next (.endName [c]) []
    else .fail (syntaxError line "expected element name after </")
  | .endName name =>
    if isNameByte c then .next (.endName (c :: name)) []
    else if !isName name.reverse then
      .fail (syntaxError line ("invalid XML name: " ++ String.mk name.reverse))
    else match nsname name.reverse with
      | none => .fail (syntaxError line "expected element name after </")
      | some (space, local_) => endSpaceStep space local_ lineAfter c
  | .endSpace space name => endSpaceStep space name lineAfter c
  | .piStart =>
    if isNameByte c then .next (.piTarget [c]) []
    else .fail (syntaxError line "expected target name after <?")
  | .piTarget name =>
    if isNameByte c then .next (.piTarget (c :: name)) []
    else if !isName name.reverse then
      .fail (syntaxError line ("invalid XML name: " ++ String.mk name.reverse))
    else if isSpace c then .next (.piSpace (String.mk name.reverse)) []
    else piBodyStep (String.mk name.reverse) [] (Char.ofNat 0) c
  | .piSpace target =>
    if isSpace c then .next (.piSpace target) []
    else piBodyStep target [] (Char.ofNat 0) c
  | .piBody target acc b0 => piBodyStep target acc b0 c
  | .bang =>
    if c == '-' then .next .bangDash []
    else if c == '[' then .next (.cdataOpen ['C', 'D', 'A', 'T', 'A', '[']) []
    else .next (.directive none 0) []
  | .bangDash =>
    if c == '-' then .next (.comment (Char.ofNat 0) (Char.ofNat 0)) []
    else .fail (syntaxError lineAfter "invalid sequence <!- not part of <!--")
  | .comment b0 b1 =>
    if b0 == '-' && b1 == '-' then
      (if c == '>' then .next .top [.other]
       else .fail (syntaxError lineAfter "invalid sequence \"--\" not allowed in comments"))
    else .next (.comment b1 c) []
  | .cdataOpen todo =>
    match todo with
    | [] => .fail (syntaxError lineAfter "invalid <![ sequence")
    | x :: more =>
      if c == x then
        (if more.isEmpty then .next (.text .cdata [] (Char.ofNat 0) (Char.ofNat 0)) []
         else .next (.cdataOpen more) [])
      else .fail (syntaxError lineAfter "invalid <![ sequence")
  | .directive inquote depth =>
    if inquote.isNone && c == '>' && depth == 0 then .next .top [.other]
    else dirHandle inquote depth c
  | .dirLt todo depth =>
    match todo with
    | [] => dirHandle none (depth + 1) c
    | x :: more =>
      if c == x then
        (if more.isEmpty then .next (.dirComment (Char.ofNat 0) (Char.ofNat 0) depth) []
         else .next (.dirLt more depth) [])
      else dirHandle none (depth + 1) c
  | .dirComment b0 b1 depth =>
    if b0 == '-' && b1 == '-' && c == '>' then .next (.directive none depth) []
    else .next (.dirComment b1 c depth) []
  | .startName name =>
    if isNameByte c then .next (.startName (c :: name)) []
    else if !isName name.reverse then
      .fail (syntaxError line ("invalid XML name: " ++ String.mk name.reverse))
    else match nsname name.reverse with
      | none => .fail (syntaxError line "expected element name after <")
      | some (space, local_) => attrsStep space local_ line c
  | .attrs space name => attrsStep space name line c
  | .slash space name =>
    if c == '>' then .next .top [.StartElement space name, .EndElement space name lineAfter]
    else .fail (syntaxError lineAfter "expected /> in element")
  | .attrName space name attr =>
    if isNameByte c then .next (.attrName space name (c :: attr)) []
    else if !isName attr.reverse then
      .fail (syntaxError line ("invalid XML name: " ++ String.mk attr.reverse))
    else match nsname attr.reverse with
      | none => .fail (syntaxError line "expected attribute name in element")
      | some _ => attrEqStep space name lineAfter c
  | .attrEq space name => attrEqStep space name lineAfter c
  | .attrVal space name =>
    if isSpace c then .next (.attrVal space name) []
    else if c == '"' || c.toNat == 39 then
      .next (.text (.attr c space name) [] (Char.ofNat 0) (Char.ofNat 0)) []
    else .fail (syntaxError lineAfter "unquoted or missing attribute value in element")

/-- The end of the input in the mode `m`, on the line `line`. -/
def atEnd (m : Mode) (line : Nat) : List Token :=
  match m with
  | .top => [.eof line]
  | .text .plain acc _ _ =>
    match checkText line acc with
    | .error e => [.malformed e]
    | .ok data => [.CharData data, .eof line]
  | .text (.attr _ _ _) acc _ _ =>
    match checkText line acc with
    | .error e => [.malformed e]
    | .ok _ => [.malformed (syntaxError line "unexpected EOF")]
  | .text .cdata _ _ _ => [.malformed (syntaxError line "unexpected EOF in CDATA section")]
  | _ => [.malformed (syntaxError line "unexpected EOF")]

/-- The tokens of a document, up to the error that ends the stream or the end of the
input. -/
def scan : Mode → Nat → List Char → List Token
  | m, line, [] => atEnd m line
  | m, line, c :: rest =>
    match step m line c with
    | .next m2 out => out ++ scan m2 (if c == '\n' then line + 1 else line) rest
    | .fail msg => [.malformed msg]

/-- An element with its children, or a run of character data. -/
inductive Node where
  | elem (name : String) (children : List Node)
  | text (data : String)
deriving Repr

/-- Reads the tokens of an element whose start tag has been read: `stack` holds the open
elements, innermost first, each with its prefix, its name and the children read so far in
reverse. The result is the outermost element, when its end tag is reached. In the error for
an end tag whose prefix differs from the one of the start tag, the prefixes are written as
they are. -/
def build : List (String × String × List Node) → List Token → Except Error Node
  | _, [] => .error "EOF"
  | _, .malformed msg :: _ => .error msg
  | _, .eof line :: _ => .error (syntaxError line "unexpected EOF")
  | stack, .other :: rest => build stack rest
  | stack, .StartElement space n :: rest => build ((space, n, []) :: stack) rest
  | [], .CharData _ :: rest => build [] rest
  | (space, n, kids) :: stack, .CharData t :: rest => build ((space, n, .text t :: kids) :: stack) rest
  | [], .EndElement _ m line :: _ =>
    .error (syntaxError line ("unexpected end element </" ++ m ++ ">"))
  | (space, n, kids) :: stack, .EndElement mspace m line :: rest =>
    if n != m then
      .error (syntaxError line ("element <" ++ n ++ "> closed by </" ++ m ++ ">"))
    else if space != mspace then
      .error (syntaxError line ("element <" ++ n ++ "> in space " ++ space ++ " closed by </" ++
        m ++ "> in space " ++ mspace))
    else match stack with
      | [] => .ok (.elem n kids.reverse)
      | (pspace, p, pkids) :: outer => build ((pspace, p, .elem n kids.reverse :: pkids) :: outer) rest

/-- The root element of a document: the tokens before the first start tag are skipped, and
nothing is read after the end of the root element. -/
def root : List Token → Except Error Node
  | [] => .error "EOF"
  | .malformed msg :: _ => .error msg
  | .eof _ :: _ => .error "EOF"
  | .StartElement space n :: rest => build [(space, n, [])] rest
  | .EndElement _ m line :: _ =>
    .error (syntaxError line ("unexpected end element </" ++ m ++ ">"))
  | .CharData _ :: rest => root rest
  | .other :: rest => root rest

/-- The root element of the document in `data`. -/
def parse (data : String) : Except Error Node := root (scan .top 1 data.toList)

/-- The character data directly inside an element: what a `string` field receives. -/
def charData : List Node → String
  | [] => ""
  | .text t :: rest => t ++ charData rest
  | .elem _ _ :: rest => charData rest

/-- The struct of the STS response that both identity verifiers declare:
`GetCallerIdentityResult` with `Arn`, `UserId`, `Account`. -/
structure CallerIdentityResult where
  ARN : String
  UserID : String
  Account : String
deriving DecidableEq, Repr

/-- Its `ResponseMetadata` part, with `RequestId`. -/
structure Metadata where
  RequestID : String
deriving DecidableEq, Repr

/-- The variable `res` of the identity verifiers. -/
structure CallerIdentityResponse where
  GetCallerIdentityResult : CallerIdentityResult
  ResponseMetadata : Metadata
deriving DecidableEq, Repr

/-- The zero value of `res`. -/
def CallerIdentityResponse.zero : CallerIdentityResponse := ⟨⟨"", "", ""⟩, ⟨""⟩⟩

/-- Unmarshals the children of a `GetCallerIdentityResult` element, in document order. -/
def fillResult : CallerIdentityResult → List Node → CallerIdentityResult
  | r, [] => r
  | r, .elem name kids :: rest =>
    if name == "Arn" then fillResult { r with ARN := charData kids } rest
    else if name == "UserId" then fillResult { r with UserID := charData kids } rest
    else if name == "Account" then fillResult { r with Account := charData kids } rest
    else fillResult r rest
  | r, .text _ :: rest => fillResult r rest

/-- Unmarshals the children of a `ResponseMetadata` element. -/
def fillMetadata : Metadata → List Node → Metadata
  | r, [] => r
  | r, .elem name kids :: rest =>
    if name == "RequestId" then fillMetadata { r with RequestID := charData kids } rest
    else fillMetadata r rest
  | r, .text _ :: rest => fillMetadata r rest

/-- Unmarshals the children of the root element: the struct has no `XMLName` field, so the
root element may have any name; children that match no field are skipped. -/
def fillResponse : CallerIdentityResponse → List Node → CallerIdentityResponse
  | r, [] => r
  | r, .elem name kids :: rest =>
    if name == "GetCallerIdentityResult" then
      fillResponse { r with GetCallerIdentityResult := fillResult r.GetCallerIdentityResult kids } rest
    else if name == "ResponseMetadata" then
      fillResponse { r with ResponseMetadata := fillMetadata r.ResponseMetadata kids } rest
    else fillResponse r rest
  | r, .text _ :: rest => fillResponse r rest

/-- Go `xml.Unmarshal(data, &res)` for the struct `res` of the identity verifiers. -/
def Unmarshal (data : String) : Except Error CallerIdentityResponse :=
  match parse data with
  | .error e => .error e
  | .ok (.elem _ kids) => .ok (fillResponse CallerIdentityResponse.zero kids)
  | .ok (.text _) => .ok CallerIdentityResponse.zero

/-- Whether the tokenizer is in character data outside every element: at the start of a
token, in a run of character data or in a character entity of such a run. -/
def Mode.inCharData : Mode → Bool
  | .top => true
  | .text .plain _ _ _ => true
  | .entAmp .plain _ => true
  | .entName .plain _ _ => true
  | .entHash .plain _ => true
  | .entNum .plain _ _ _ => true
  | _ => false

/-- Whether the tokenizer is in an end tag, or behind the `/` of an empty-element tag. -/
def Mode.closing : Mode → Bool
  | .endStart => true
  | .endName _ => true
  | .endSpace _ _ => true
  | .slash _ _ => true
  | _ => false

/-- Whether a token is the end of an element. -/
def Token.isEnd : Token → Bool
  | .EndElement _ _ _ => true
  | _ => false

/-- Whether an outcome of the tokenizer closes no element: it gives no end of an element and
does not lead into an end tag. -/
def Outcome.closesNone : Outcome → Bool
  | .next m out => !m.closing && out.all fun t => !t.isEnd
  | .fail _ => true

/-- The children lists of the elements of the given name among the children of an element,
in order. -/
def elementsNamed (name : String) : List Node → List (List Node)
  | [] => []
  | .elem n kids :: rest => if n == name then kids :: elementsNamed name rest else elementsNamed name rest
  | .text _ :: rest => elementsNamed name rest

end xml

/-! ## Go `encoding/json`

A model of `json.NewDecoder(r).Decode(&res)`. The decoder first reads one JSON value from the
stream with the scanner of `scanner.go`, a state machine that is fed byte by byte (`step`
below, fed character by character: outside a string literal every byte that matters is ASCII),
and leaves unread what follows the value; then it stores the value in `res`. The messages of
the syntax errors are those of the scanner. The text of a type error is abridged: it names
the field only. -/

namespace json

/-- A JSON value; a number is kept as its text, an object as its members in order. -/
inductive Value where
  | null
  | bool (b : Bool)
  | number (text : String)
  | string (s : String)
  | array (items : List Value)
  | object (members : List (String × Value))
deriving Repr

/-- Go `isSpace` of the scanner. -/
def isSpace (c : Char) : Bool := c == ' ' || c == '\t' || c == '\r' || c == '\n'

/-- Value of a hexadecimal digit. -/
def hexVal (c : Char) : Option Nat :=
  if c.isDigit then some (c.toNat - 48)
  else if 'a' ≤ c ∧ c ≤ 'f' then some (c.toNat - 87)
  else if 'A' ≤ c ∧ c ≤ 'F' then some (c.toNat - 55)
  else none

/-- Go `getu4`: the number of a `\u` escape with four hexadecimal digits. -/
def unicodeEscape (a b c d : Char) : Option Nat :=
  match hexVal a, hexVal b, hexVal c, hexVal d with
  | some w, some x, some y, some z => some (w * 4096 + x * 256 + y * 16 + z)
  | _, _, _, _ => none

/-- The character of a one-letter escape. -/
def simpleEscape (c : Char) : Option Char :=
  if c == '"' then some '"' else if c == '\\' then some '\\' else if c == '/' then some '/'
  else if c == 'b' then some (Char.ofNat 8) else if c == 'f' then some (Char.ofNat 12)
  else if c == 'n' then some '\n' else if c == 'r' then some '\r' else if c == 't' then some '\t'
  else none

/-- The Unicode replacement character, which stands for a surrogate that has no partner. -/
def replacementChar : Char := Char.ofNat 0xFFFD

/-- Go `unquote` on the text between the quotes of a string literal that the scanner has
accepted. A `\u` escape of a high surrogate that is followed by the `\u` escape of a low
surrogate gives, with it, one character; any other surrogate gives the replacement character.
`pending` is a high surrogate whose partner is looked for. -/
def unquote : Option Nat → List Char → List Char
  | none, [] => []
  | some _, [] => [replacementChar]
  | pending, '\\' :: 'u' :: a :: b :: c :: d :: rest =>
    match unicodeEscape a b c d with
    | none => []
    | some r =>
      match pending with
      | some hi =>
        if 0xDC00 ≤ r ∧ r < 0xE000 then
          Char.ofNat ((hi - 0xD800) * 1024 + (r - 0xDC00) + 0x10000) :: unquote none rest
        else if 0xD800 ≤ r ∧ r < 0xDC00 then replacementChar :: unquote (some r) rest
        else replacementChar :: Char.ofNat r :: unquote none rest
      | none =>
        if 0xD800 ≤ r ∧ r < 0xDC00 then unquote (some r) rest
        else if 0xDC00 ≤ r ∧ r < 0xE000 then replacementChar :: unquote none rest
        else Char.ofNat r :: unquote none rest
  | pending, '\\' :: e :: rest =>
    let out := match simpleEscape e with
      | some x => x :: unquote none rest
      | none => []
    match pending with
    | some _ => replacementChar :: out
    | none => out
  | pending, c :: rest =>
    match pending with
    | some _ => replacementChar :: c :: unquote none rest
    | none => c :: unquote none rest

/-- Go `quoteChar` of a byte: the byte as a character between single quotes, escaped as
`strconv.Quote` escapes it. -/
def quoteByte (b : Nat) : String :=
  if b == 39 then "'\\''"
  else if b == 34 then "'\"'"
  else if b == 92 then "'\\\\'"
  else if 32 ≤ b ∧ b ≤ 126 then String.mk ['\'', Char.ofNat b, '\'']
  else if b == 7 then "'\\a'" else if b == 8 then "'\\b'" else if b == 12 then "'\\f'"
  else if b == 10 then "'\\n'" else if b == 13 then "'\\r'" else if b == 9 then "'\\t'"
  else if b == 11 then "'\\v'"
  else if b < 32 ∨ b == 127 then "'\\x" ++ hex.EncodeToString [b] ++ "'"
  else if 161 ≤ b ∧ b ≤ 255 ∧ b ≠ 173 then String.mk ['\'', Char.ofNat b, '\'']
  else "'\\u00" ++ hex.EncodeToString [b] ++ "'"

/-- Go `quoteChar` of the first byte of a character: the scanner stops at that byte. -/
def quoteChar (c : Char) : String := quoteByte ((utf8Char c).headD 0)

/-- The message of the scanner's `error(c, context)`. -/
def syntaxError (c : Char) (context : String) : Error :=
  "invalid character " ++ quoteChar c ++ " " ++ context

/-- Where the scanner is in the object that it reads: before a key, after the key `k` and
before the colon, in the value of the key `k`, or after a value. -/
inductive Phase where
  | key
  | colon (k : String)
  | value (k : String)
  | next

/-- An object or an array that the scanner is in (`parseState`), with what has been read of
it, in reverse. -/
inductive Frame where
  | object (members : List (String × Value)) (phase : Phase)
  | array (items : List Value)

/-- The step functions of the scanner (`stateBeginValue` and so on); a string literal and a
number come with the characters read so far, in reverse, and a literal name with the value
that it stands for, its name and the characters that are still to come. -/
inductive Step where
  | beginValue
  | beginValueOrEmpty
  | beginStringOrEmpty
  | beginString
  | endValue
  | inString (acc : List Char)
  | inStringEsc (acc : List Char)
  | inStringEscU (n : Nat) (acc : List Char)
  | neg (acc : List Char)
  | zero (acc : List Char)
  | int (acc : List Char)
  | dot (acc : List Char)
  | dot0 (acc : List Char)
  | e (acc : List Char)
  | eSign (acc : List Char)
  | e0 (acc : List Char)
  | lit (v : Value) (name : String) (todo : List Char)

/-- The state of the scanner. -/
structure State where
  step : Step
  stack : List Frame

/-- What a character does to the scanner: the next state, the end of the top-level value
(`scanEnd`), or a syntax error. -/
inductive Outcome where
  | next (s : State)
  | done (v : Value)
  | fail (msg : Error)

/-- Go `maxNestingDepth`. -/
def maxNestingDepth : Nat := 10000

/-- A value is complete: it is the top-level value, or it goes into the array or the object
that the scanner is in. -/
def complete (v : Value) : List Frame → Outcome
  | [] => .done v
  | .array items :: rest => .next ⟨.endValue, .array (v :: items) :: rest⟩
  | .object ms (.value k) :: rest => .next ⟨.endValue, .object ((k, v) :: ms) .next :: rest⟩
  | .object ms _ :: rest => .next ⟨.endValue, .object ms .next :: rest⟩

/-- A string literal is complete: it is a key of the object that the scanner is in, or a
value. -/
def completeString (s : String) : List Frame → Outcome
  | .object ms .key :: rest => .next ⟨.endValue, .object ms (.colon s) :: rest⟩
  | stack => complete (.string s) stack

/-- Go `stateEndValue` inside an array or an object. -/
def endValue (stack : List Frame) (c : Char) : Outcome :=
  match stack with
  | [] => .fail (syntaxError c "after top-level value")
  | f :: rest =>
    if isSpace c then .next ⟨.endValue, f :: rest⟩
    else match f with
      | .object ms (.colon k) =>
        if c == ':' then .next ⟨.beginValue, .object ms (.value k) :: rest⟩
        else .fail (syntaxError c "after object key")
      | .object ms .next =>
        if c == ',' then .next ⟨.beginString, .object ms .key :: rest⟩
        else if c == '\x7d' then complete (.object ms.reverse) rest
        else .fail (syntaxError c "after object key:value pair")
      | .array items =>
        if c == ',' then .next ⟨.beginValue, .array items :: rest⟩
        else if c == ']' then complete (.array items.reverse) rest
        else .fail (syntaxError c "after array element")
      | .object _ _ => .fail (syntaxError c "")

/-- A number is complete before the character `c`, which `stateEndValue` then reads. -/
def endNumber (acc : List Char) (stack : List Frame) (c : Char) : Outcome :=
  match complete (.number (String.mk acc.reverse)) stack with
  | .next s => endValue s.stack c
  | out => out

/-- Go `pushParseState`: the scanner enters an array or an object, unless that is nested too
deep. -/
def push (c : Char) (f : Frame) (step : Step) (stack : List Frame) : Outcome :=
  if stack.length + 1 ≤ maxNestingDepth then .next ⟨step, f :: stack⟩
  else .fail (syntaxError c "exceeded max depth")

/-- Go `stateBeginValue`. -/
def beginValue (stack : List Frame) (c : Char) : Outcome :=
  if isSpace c then .next ⟨.beginValue, stack⟩
  else if c == '\x7b' then push c (.object [] .key) .beginStringOrEmpty stack
  else if c == '[' then push c (.array []) .beginValueOrEmpty stack
  else if c == '"' then .next ⟨.inString [], stack⟩
  else if c == '-' then .next ⟨.neg [c], stack⟩
  else if c == '0' then .next ⟨.zero [c], stack⟩
  else if c == 't' then .next ⟨.lit (.bool true) "true" ['r', 'u', 'e'], stack⟩
  else if c == 'f' then .next ⟨.lit (.bool false) "false" ['a', 'l', 's', 'e'], stack⟩
  else if c == 'n' then .next ⟨.lit .null "null" ['u', 'l', 'l'], stack⟩
  else if '1' ≤ c ∧ c ≤ '9' then .next ⟨.int [c], stack⟩
  else .fail (syntaxError c "looking for beginning of value")

/-- Go `stateBeginString`. -/
def beginString (stack : List Frame) (c : Char) : Outcome :=
  if isSpace c then .next ⟨.beginString, stack⟩
  else if c == '"' then .next ⟨.inString [], stack⟩
  else .fail (syntaxError c "looking for beginning of object key string")

/-- Go `state0`, which `state1`, `stateDot0` and `stateE0` share: after the digits of a
number. -/
def afterDigits (acc : List Char) (stack : List Frame) (c : Char) (dotAllowed : Bool) : Outcome :=
  if dotAllowed && c == '.' then .next ⟨.dot (c :: acc), stack⟩
  else if c == 'e' || c == 'E' then .next ⟨.e (c :: acc), stack⟩
  else endNumber acc stack c

/-- One step of the scanner: the character `c` in the state `st`. -/
def step (st : State) (c : Char) : Outcome :=
  match st.step with
  | .beginValue => beginValue st.stack c
  | .beginValueOrEmpty =>
    if isSpace c then .next st
    else if c == ']' then endValue st.stack c
    else beginValue st.stack c
  | .beginStringOrEmpty =>
    if isSpace c then .next st
    else if c == '\x7d' then
      match st.stack with
      | .object ms _ :: rest => endValue (.object ms .next :: rest) c
      | stack => endValue stack c
    else beginString st.stack c
  | .beginString => beginString st.stack c
  | .endValue => endValue st.stack c
  | .inString acc =>
    if c == '"' then completeString (String.mk (unquote none acc.reverse)) st.stack
    else if c == '\\' then .next ⟨.inStringEsc (c :: acc), st.stack⟩
    else if c.toNat < 32 then .fail (syntaxError c "in string literal")
    else .next ⟨.inString (c :: acc), st.stack⟩
  | .inStringEsc acc =>
    if c == 'b' || c == 'f' || c == 'n' || c == 'r' || c == 't' || c == '\\' || c == '/' ||
        c == '"' then .next ⟨.inString (c :: acc), st.stack⟩
    else if c == 'u' then .next ⟨.inStringEscU 0 (c :: acc), st.stack⟩
    else .fail (syntaxError c "in string escape code")
  | .inStringEscU n acc =>
    if (hexVal c).isSome then
      if n ≥ 3 then .next ⟨.inString (c :: acc), st.stack⟩
      else .next ⟨.inStringEscU (n + 1) (c :: acc), st.stack⟩
    else .fail (syntaxError c "in \\u hexadecimal character escape")
  | .neg acc =>
    if c == '0' then .next ⟨.zero (c :: acc), st.stack⟩
    else if '1' ≤ c ∧ c ≤ '9' then .next ⟨.int (c :: acc), st.stack⟩
    else .fail (syntaxError c "in numeric literal")
  | .zero acc => afterDigits acc st.stack c true
  | .int acc =>
    if c.isDigit then .next ⟨.int (c :: acc), st.stack⟩
    else afterDigits acc st.stack c true
  | .dot acc =>
    if c.isDigit then .next ⟨.dot0 (c :: acc), st.stack⟩
    else .fail (syntaxError c "after decimal point in numeric literal")
  | .dot0 acc =>
    if c.isDigit then .next ⟨.dot0 (c :: acc), st.stack⟩
    else afterDigits acc st.stack c false
  | .e acc =>
    if c == '+' || c == '-' then .next ⟨.eSign (c :: acc), st.stack⟩
    else if c.isDigit then .next ⟨.e0 (c :: acc), st.stack⟩
    else .fail (syntaxError c "in exponent of numeric literal")
  | .eSign acc =>
    if c.isDigit then .next ⟨.e0 (c :: acc), st.stack⟩
    else .fail (syntaxError c "in exponent of numeric literal")
  | .e0 acc =>
    if c.isDigit then .next ⟨.e0 (c :: acc), st.stack⟩
    else endNumber acc st.stack c
  | .lit v name todo =>
    match todo with
    | [] => complete v st.stack
    | x :: more =>
      if c == x then
        (if more.isEmpty then complete v st.stack else .next ⟨.lit v name more, st.stack⟩)
      else .fail (syntaxError c ("in literal " ++ name ++ " (expecting " ++
        String.mk ['\'', x, '\''] ++ ")"))

/-- The end of the stream in the state `st`: a top-level number is complete there; anything
else that has been begun is cut off (`io.ErrUnexpectedEOF`). -/
def atEnd (st : State) : Except Error Value :=
  match st.stack, st.step with
  | [], .zero acc => .ok (.number (String.mk acc.reverse))
  | [], .int acc => .ok (.number (String.mk acc.reverse))
  | [], .dot0 acc => .ok (.number (String.mk acc.reverse))
  | [], .e0 acc => .ok (.number (String.mk acc.reverse))
  | _, _ => .error "unexpected EOF"

/-- Go `Decoder.readValue`: the scanner is fed until the top-level value ends. -/
def run : State → List Char → Except Error Value
  | st, [] => atEnd st
  | st, c :: rest =>
    match step st c with
    | .next st2 => run st2 rest
    | .done v => .ok v
    | .fail msg => .error msg

/-- The first JSON value of a stream: `EOF` for a stream of white space only, a syntax error
for a malformed value. -/
def parse (data : String) : Except Error Value :=
  if data.toList.all isSpace then .error "EOF"
  else run ⟨.beginValue, []⟩ data.toList

/-- An entry of `AvailablePolicyTypes` in the struct `res` of the organization verifiers
(`Type_` is the field `Type`). -/
structure PolicyType where
  Status : String
  Type_ : String
deriving DecidableEq, Repr

/-- The `Organization` part of `res`. -/
structure OrganizationFields where
  Arn : String
  AvailablePolicyTypes : List PolicyType
  FeatureSet : String
  ID : String
  MasterAccountArn : String
  MasterAccountEmail : String
  MasterAccountID : String
deriving DecidableEq, Repr

/-- The variable `res` of the organization verifiers. -/
structure DescribeOrganizationResponse where
  Organization : OrganizationFields
deriving DecidableEq, Repr

def PolicyType.zero : PolicyType := ⟨"", ""⟩
def OrganizationFields.zero : OrganizationFields := ⟨"", [], "", "", "", "", ""⟩
def DescribeOrganizationResponse.zero : DescribeOrganizationResponse := ⟨OrganizationFields.zero⟩

/-- Go `foldName` as far as a name of ASCII letters is concerned: a letter folds to its upper
case, and so do the Kelvin sign (to `K`) and the long s (to `S`). -/
def foldChar (c : Char) : Char :=
  if 'a' ≤ c ∧ c ≤ 'z' then Char.ofNat (c.toNat - 32)
  else if c.toNat == 0x212A then 'K'
  else if c.toNat == 0x17F then 'S'
  else c

/-- Whether an object key selects the struct field of the given JSON name (a name of ASCII
characters): the two are equal after folding. -/
def keyIs (key name : String) : Bool := key.toList.map foldChar == name.toList.map foldChar

def typeError (field : String) : Error := "json: cannot unmarshal value into Go struct field " ++ field

/-- Stores a JSON value in a `string` field: a string is stored, `null` changes nothing. -/
def decodeString (field : String) (old : String) : Value → Except Error String
  | .string s => .ok s
  | .null => .ok old
  | _ => .error (typeError field)

/-- Stores the members of an object in a policy-type struct, in order. -/
def fillPolicyType : PolicyType → List (String × Value) → Except Error PolicyType
  | r, [] => .ok r
  | r, (k, v) :: rest =>
    if keyIs k "Status" then
      match decodeString "Status" r.Status v with
      | .ok s => fillPolicyType { r with Status := s } rest
      | .error e => .error e
    else if keyIs k "Type" then
      match decodeString "Type" r.Type_ v with
      | .ok s => fillPolicyType { r with Type_ := s } rest
      | .error e => .error e
    else fillPolicyType r rest

/-- Stores the items of an array in the slice of policy-type structs: the item of index `i`
goes into the element of index `i` of the backing array, whose elements are `slots` as far as
they have been written before (by a member of the same name earlier in the object), and zero
after them. -/
def decodePolicyTypes : List PolicyType → List Value → Except Error (List PolicyType)
  | _, [] => .ok []
  | slots, item :: rest =>
    match (match item with
      | .object ms => fillPolicyType (slots.headD PolicyType.zero) ms
      | .null => .ok (slots.headD PolicyType.zero)
      | _ => .error (typeError "AvailablePolicyTypes")) with
    | .error e => .error e
    | .ok p =>
      match decodePolicyTypes slots.tail rest with
      | .ok ps => .ok (p :: ps)
      | .error e => .error e

/-- Stores the members of an object in the `Organization` struct, in order. `spare` holds the
elements of the backing array of `AvailablePolicyTypes` behind the length of the slice. -/
def fillOrganization : OrganizationFields → List PolicyType → List (String × Value) →
    Except Error (OrganizationFields × List PolicyType)
  | r, spare, [] => .ok (r, spare)
  | r, spare, (k, v) :: rest =>
    if keyIs k "Arn" then
      match decodeString "Arn" r.Arn v with
      | .ok s => fillOrganization { r with Arn := s } spare rest
      | .error e => .error e
    else if keyIs k "AvailablePolicyTypes" then
      match v with
      | .array items =>
        match decodePolicyTypes (r.AvailablePolicyTypes ++ spare) items with
        | .ok ps =>
          if items.isEmpty then fillOrganization { r with AvailablePolicyTypes := [] } [] rest
          else fillOrganization { r with AvailablePolicyTypes := ps }
            ((r.AvailablePolicyTypes ++ spare).drop items.length) rest
        | .error e => .error e
      | .null => fillOrganization { r with AvailablePolicyTypes := [] } [] rest
      | _ => .error (typeError "AvailablePolicyTypes")
    else if keyIs k "FeatureSet" then
      match decodeString "FeatureSet" r.FeatureSet v with
      | .ok s => fillOrganization { r with FeatureSet := s } spare rest
      | .error e => .error e
    else if keyIs k "Id" then
      match decodeString "Id" r.ID v with
      | .ok s => fillOrganization { r with ID := s } spare rest
      | .error e => .error e
    else if keyIs k "MasterAccountArn" then
      match decodeString "MasterAccountArn" r.MasterAccountArn v with
      | .ok s => fillOrganization { r with MasterAccountArn := s } spare rest
      | .error e => .error e
    else if keyIs k "MasterAccountEmail" then
      match decodeString "MasterAccountEmail" r.MasterAccountEmail v with
      | .ok s => fillOrganization { r with MasterAccountEmail := s } spare rest
      | .error e => .error e
    else if keyIs k "MasterAccountId" then
      match decodeString "MasterAccountId" r.MasterAccountID v with
      | .ok s => fillOrganization { r with MasterAccountID := s } spare rest
      | .error e => .error e
    else fillOrganization r spare rest

/-- Stores the members of the top-level object in `res`, in order. -/
def fillResponse : DescribeOrganizationResponse → List PolicyType → List (String × Value) →
    Except Error DescribeOrganizationResponse
  | r, _, [] => .ok r
  | r, spare, (k, v) :: rest =>
    if keyIs k "Organization" then
      match v with
      | .object ms =>
        match fillOrganization r.Organization spare ms with
        | .ok (o, spare2) => fillResponse { r with Organization := o } spare2 rest
        | .error e => .error e
      | .null => fillResponse r spare rest
      | _ => .error (typeError "Organization")
    else fillResponse r spare rest

/-- Go `json.NewDecoder(body).Decode(&res)` for the struct `res` of the organization
verifiers. -/
def Decode (data : String) : Except Error DescribeOrganizationResponse :=
  match parse data with
  | .error e => .error e
  | .ok (.object ms) => fillResponse DescribeOrganizationResponse.zero [] ms
  | .ok .null => .ok DescribeOrganizationResponse.zero
  | .ok _ => .error (typeError "")

/-- The values of the members of an object that select the field of the given name, in
order. -/
def valuesOf (name : String) (members : List (String × Value)) : List Value :=
  (members.filter fun kv => keyIs kv.1 name).map Prod.snd

/-- Whether a value is neither an object nor `null`. -/
def isOther : Value → Bool
  | .object _ => false
  | .null => false
  | _ => true

/-- Whether a frame is an array. -/
def Frame.isArray : Frame → Bool
  | .array _ => true
  | .object _ _ => false

/-- The outermost array or object that the scanner is in: whether it is an array; nothing
when the scanner is in none. -/
def outermost (stack : List Frame) : Option Bool := stack.getLast?.map Frame.isArray

/-- Whether the scanner is inside a string, a number, or one of the names `true` and `false`
of which a letter is still to come. -/
def Step.readsOther : Step → Bool
  | .inString _ => true
  | .inStringEsc _ => true
  | .inStringEscU _ _ => true
  | .neg _ => true
  | .zero _ => true
  | .int _ => true
  | .dot _ => true
  | .dot0 _ => true
  | .e _ => true
  | .eSign _ => true
  | .e0 _ => true
  | .lit v _ todo => isOther v && !todo.isEmpty
  | _ => false

/-- Whether the top-level value that the scanner is reading is neither an object nor `null`:
it is an array, a string, a number, `true` or `false`. -/
def State.readsOther (st : State) : Bool :=
  match outermost st.stack with
  | some b => b
  | none => st.step.readsOther

/-- Whether an outcome of the scanner on the character `c` agrees with an outermost frame
that is an array (`b`) or an object: the scanner goes on inside that frame, or it ends the
top-level value, which is then an array, or an object closed by the character `c`. -/
def Outcome.keeps (b : Bool) (c : Char) : Outcome → Bool
  | .next s => outermost s.stack == some b
  | .done v => if b then isOther v else c == '\x7d'
  | .fail _ => true

/-- Whether an outcome of the scanner agrees with a top-level value that is neither an object
nor `null`. -/
def Outcome.readsOther : Outcome → Bool
  | .next s => s.readsOther
  | .done v => isOther v
  | .fail _ => true

/-- Whether a value is a string. -/
def isString : Value → Bool
  | .string _ => true
  | _ => false

/-- The content of a `string` field after a value has been stored in it without an error: the
string, or the old content for a value that is no string. -/
def storeString (old : String) : Value → String
  | .string s => s
  | _ => old

/-- The three fields that every proof type of the repository has, in the order of the struct:
the `Authorization` value, the time and the session token. -/
structure ProofFields where
  Signature : String
  Time : gotime.Time
  SecurityToken : String
deriving DecidableEq, Repr

/-- Go `json.Marshal` of a proof struct whose first and third fields have the JSON names
`sigKey` and `tokKey` in their tags, and whose second field is `time`: an object with the
three members in the order of the fields, or the error of `Time.MarshalJSON`. -/
def marshalProof (sigKey tokKey : String) (p : ProofFields) : Except Error Value :=
  match p.Time.MarshalJSON with
  | .error e => .error ("json: error calling MarshalJSON for type time.Time: " ++ e)
  | .ok text => .ok (.object [(sigKey, .string p.Signature), ("time", .string text),
      (tokKey, .string p.SecurityToken)])

/-- Stores a JSON value in a `time.Time` field: a string goes through `Time.UnmarshalJSON`,
`null` changes nothing. -/
def decodeTime (old : gotime.Time) : Value → Except Error gotime.Time
  | .string s => gotime.Time.UnmarshalJSON s
  | .null => .ok old
  | _ => .error "Time.UnmarshalJSON: input is not a JSON string"

/-- Stores the members of an object in a proof struct with the JSON names `sigKey`, `time` and
`tokKey`, in order. -/
def fillProof (sigKey tokKey : String) : ProofFields → List (String × Value) →
    Except Error ProofFields
  | r, [] => .ok r
  | r, (k, v) :: rest =>
    if keyIs k sigKey then
      match decodeString sigKey r.Signature v with
      | .ok s => fillProof sigKey tokKey { r with Signature := s } rest
      | .error e => .error e
    else if keyIs k "time" then
      match decodeTime r.Time v with
      | .ok t => fillProof sigKey tokKey { r with Time := t } rest
      | .error e => .error e
    else if keyIs k tokKey then
      match decodeString tokKey r.SecurityToken v with
      | .ok s => fillProof sigKey tokKey { r with SecurityToken := s } rest
      | .error e => .error e
    else fillProof sigKey tokKey r rest

/-- Go `json.Unmarshal` of a JSON value into a zero proof struct with the JSON names `sigKey`,
`time` and `tokKey`. -/
def unmarshalProof (sigKey tokKey : String) : Value → Except Error ProofFields
  | .object ms => fillProof sigKey tokKey ⟨"", gotime.Time.zero, ""⟩ ms
  | .null => .ok ⟨"", gotime.Time.zero, ""⟩
  | _ => .error (typeError "")

end json

/-! ## The AWS SDK configuration and the environment -/

namespace awssdk

/-- SDK `aws.Config`: the region, and the credentials provider, given by what its `Retrieve`
answers. -/
structure Config where
  Region : String
  Credentials : Except Error signer.Credentials

end awssdk

/-- What the code reads from its environment: the wall clock (`time.Now()`), the default AWS
configuration (`config.LoadDefaultConfig(ctx)`) and the network (`http.Client{}`). -/
structure Env where
  Now : gotime.Time
  LoadDefaultConfig : Except Error awssdk.Config
  DefaultClient : http.Client

/-- An environment for examples: the given clock, no default configuration and no network. -/
def Env.offline (now : gotime.Time) : Env :=
  { Now := now, LoadDefaultConfig := .error "no default configuration",
    DefaultClient := ⟨fun _ => .error "no network"⟩ }

/-- The configuration of a creation (the step that every creation function repeats): the one
the caller provides, else the default configuration of the environment. -/
def Env.configOr (env : Env) (cfg : Option awssdk.Config) : Except Error awssdk.Config :=
  match cfg with
  | none => env.LoadDefaultConfig
  | some cfg => .ok cfg

/-! ## Fixtures -/

namespace fixtures

/-- An error document of STS: what it answers, with status 403, to a request whose security
token is invalid. -/
def stsErrorBody : String :=
  "<ErrorResponse xmlns=\"https://sts.amazonaws.com/doc/2011-06-15/\"><Error><Type>Sender</Type><Code>InvalidClientTokenId</Code><Message>The security token included in the request is invalid.</Message></Error><RequestId>1</RequestId></ErrorResponse>"

/-- The response body of `TestVerify` (`stsproof/verify_test.go` lines 13-24 and
`id_proof_test.go` lines 27-38, which ends with one more tab). -/
def testVerifyBody : String :=
  "\n<GetCallerIdentityResponse xmlns=\"https://sts.amazonaws.com/doc/2011-06-15/\">\n  <GetCallerIdentityResult>\n    <Arn>arn:aws:sts::123456789012:assumed-role/test-role/test-session</Arn>\n    <UserId>ABCDEFG12345:user-name</UserId>\n    <Account>123456789012</Account>\n  </GetCallerIdentityResult>\n  <ResponseMetadata>\n    <RequestId>00000</RequestId>\n  </ResponseMetadata>\n</GetCallerIdentityResponse>\n\t\t"

/-- A response body in the layout in which STS answers `GetCallerIdentity`: an XML declaration,
the elements of the result in another order than in the test, and an ARN with a character
entity. -/
def callerIdentityReply : String :=
  "<?xml version=\"1.0\" encoding=\"UTF-8\"?>\n<GetCallerIdentityResponse xmlns=\"https://sts.amazonaws.com/doc/2011-06-15/\"><GetCallerIdentityResult><Account>123456789012</Account><UserId>AIDACKCEVSQ6C2EXAMPLE</UserId><Arn>arn:aws:iam::123456789012:user/a&amp;b</Arn></GetCallerIdentityResult><ResponseMetadata><RequestId>01234567-89ab-cdef-0123-456789abcdef</RequestId></ResponseMetadata></GetCallerIdentityResponse>\n"

/-- A response body in the layout in which AWS Organizations answers `DescribeOrganization`:
the members in the order of the service, with a member that the struct of the verifiers does
not have, and two policy types. -/
def organizationReply : String :=
  "\x7b\"Organization\":\x7b\"Arn\":\"arn:aws:organizations::000000000001:organization/o-abc\",\"AvailablePolicyTypes\":[\x7b\"Status\":\"ENABLED\",\"Type\":\"SERVICE_CONTROL_POLICY\"\x7d,\x7b\"Type\":\"TAG_POLICY\",\"Status\":\"PENDING_ENABLE\"\x7d],\"FeatureSet\":\"ALL\",\"Id\":\"o-abc\",\"MasterAccountArn\":\"arn:aws:organizations::000000000001:account/o-abc/000000000001\",\"MasterAccountEmail\":\"root\\u0040example.org\",\"MasterAccountId\":\"000000000001\",\"Extra\":[1,true,null]\x7d\x7d"

end fixtures

/-! ## Package `cptest` -/

namespace cptest

/-- `StubCredentialsProvider.Retrieve`: static credentials, and never an error. -/
def StubCredentialsProvider.Retrieve : Except Error signer.Credentials :=
  .ok { AccessKeyID := "AKID", SecretAccessKey := "SECRET", SessionToken := "SESSION" }

/-- `Config`: the mock configuration for unit tests. -/
def Config : awssdk.Config :=
  { Region := "mock-region", Credentials := StubCredentialsProvider.Retrieve }

end cptest

/-! ## Package `aws/stsproof` -/

namespace stsproof

open http

/-- `Identity` (`verify.go`). -/
structure Identity where
  ARN : String
  UserID : String
  Account : String
deriving DecidableEq, Repr

/-- `Proof` (`verify.go`). -/
structure Proof where
  Signature : String
  Time : gotime.Time
  SecurityToken : String
deriving DecidableEq, Repr

/-- Go `json.Marshal` of a `Proof`: the tags are `signature`, `time` and `security_token`. -/
def Proof.Marshal (p : Proof) : Except Error json.Value :=
  json.marshalProof "signature" "security_token" ⟨p.Signature, p.Time, p.SecurityToken⟩

/-- Go `json.Unmarshal` into a zero `Proof`. -/
def Proof.Unmarshal (v : json.Value) : Except Error Proof :=
  (json.unmarshalProof "signature" "security_token" v).map fun f =>
    { Signature := f.Signature, Time := f.Time, SecurityToken := f.SecurityToken }

/-- `Opts` (`create.go`): `AWSConfig` is `none` for a nil pointer. -/
structure Opts where
  AWSConfig : Option awssdk.Config
  Time : gotime.Time

/-- The body of the STS call (`create.go` lines 59-61, `verify.go` lines 55-57): `url.Values`
with `Action` and `Version`. -/
def data : url.Values :=
  (url.Values.empty.Set "Action" "GetCallerIdentity").Set "Version" "2011-06-15"

/-- The request that `NewWithOpts` hands to the signer (`create.go` lines 63-65). -/
def createRequest : Request :=
  let userAgent := "cloudproof-go/0.1.0"
  let req := NewRequest "POST" "https://sts.amazonaws.com/" (some data.Encode)
  { req with Header := req.Header.Set "User-Agent" userAgent }

/-- The payload hash that `NewWithOpts` hands to the signer (`create.go` lines 72-74). -/
def payloadHash : String := hex.EncodeToString (sha256.Sum256 (bytesOf data.Encode))

/-- `NewWithOpts` (`create.go`). -/
def NewWithOpts (env : Env) (opts : Opts) : Except Error Proof := do
  let opts := if opts.Time.IsZero then { opts with Time := env.Now } else opts
  let cfg ← env.configOr opts.AWSConfig
  let req := createRequest
  let creds ← cfg.Credentials
  let req ← signer.SignHTTP creds req payloadHash "sts" "us-east-1" opts.Time
  let req := { req with Header := req.Header.Set "Accept-Encoding" "identity" }
  let req := { req with Header := req.Header.Set "Content-Type" "application/x-www-form-urlencoded" }
  let req := { req with Header := req.Header.Set "Content-Length" (strconv.Itoa (byteLen data.Encode)) }
  let req := { req with Header := req.Header.Del "Transfer-Encoding" }
  return { Signature := req.Header.Get "Authorization",
           Time := opts.Time,
           SecurityToken := req.Header.Get "X-Amz-Security-Token" }

/-- `New` (`create.go`). -/
def New (env : Env) : Except Error Proof := NewWithOpts env ⟨none, gotime.Time.zero⟩

/-- `VerifyOpts` (`verify.go`). -/
structure VerifyOpts where
  Client : http.Client
  URL : String

/-- The request that `VerifyWithOpts` sends (`verify.go` lines 49-68). -/
def verifyRequest (ip : Proof) (opts : VerifyOpts) : Request :=
  let opts := if opts.URL == "" then { opts with URL := "https://sts.amazonaws.com/" } else opts
  let userAgent := "cloudproof-go/0.1.0"
  let req := NewRequest "POST" opts.URL (some data.Encode)
  let req := { req with Header := req.Header.Set "User-Agent" userAgent }
  let req := { req with Header := req.Header.Set "Accept-Encoding" "identity" }
  let req := { req with Header := req.Header.Set "Content-Type" "application/x-www-form-urlencoded" }
  let req := { req with Header := req.Header.Set "Content-Length" (strconv.Itoa (byteLen data.Encode)) }
  let req := { req with Header := req.Header.Set "X-Amz-Security-Token" ip.SecurityToken }
  let req := { req with Header := req.Header.Set "X-Amz-Date" (ip.Time.UTC.Format "20060102T150405Z") }
  let req := { req with Header := req.Header.Set "Authorization" ip.Signature }
  { req with Header := req.Header.Del "Transfer-Encoding" }

/-- `Proof.VerifyWithOpts` (`verify.go`), from the call of the client on (lines 70-104). -/
def Proof.VerifyWithOpts (ip : Proof) (opts : VerifyOpts) : Except Error Identity := do
  let resp ← opts.Client.Do (verifyRequest ip opts)
  let resbody ← resp.Body
  let res ← xml.Unmarshal resbody
  return { ARN := res.GetCallerIdentityResult.ARN,
           UserID := res.GetCallerIdentityResult.UserID,
           Account := res.GetCallerIdentityResult.Account }

/-- `Proof.Verify` (`verify.go`): the zero `VerifyOpts`, whose client is `http.Client{}`. -/
def Proof.Verify (env : Env) (ip : Proof) : Except Error Identity :=
  ip.VerifyWithOpts ⟨env.DefaultClient, ""⟩

end stsproof

/-! ## Package `aws/orgproof` -/

namespace orgproof

open http

/-- `AvailablePolicyType` (`verify.go`); `Type_` is the field `Type`. -/
structure AvailablePolicyType where
  Status : String
  Type_ : String
deriving DecidableEq, Repr

/-- `Organization` (`verify.go`). -/
structure Organization where
  ARN : String
  ID : String
  AvailablePolicyTypes : List AvailablePolicyType
  FeatureSet : String
  MainAccountARN : String
  MainAccountEmail : String
  MainAccountID : String
deriving DecidableEq, Repr

/-- `OrganizationProof` (`verify.go`). -/
structure OrganizationProof where
  Signature : String
  Time : gotime.Time
  SecurityToken : String
deriving DecidableEq, Repr

/-- Go `json.Marshal` of an `OrganizationProof`: the tags are `signature`, `time` and
`security_token`. -/
def OrganizationProof.Marshal (p : OrganizationProof) : Except Error json.Value :=
  json.marshalProof "signature" "security_token" ⟨p.Signature, p.Time, p.SecurityToken⟩

/-- Go `json.Unmarshal` into a zero `OrganizationProof`. -/
def OrganizationProof.Unmarshal (v : json.Value) : Except Error OrganizationProof :=
  (json.unmarshalProof "signature" "security_token" v).map fun f =>
    { Signature := f.Signature, Time := f.Time, SecurityToken := f.SecurityToken }

/-- `Opts` (`create.go`). -/
structure Opts where
  AWSConfig : Option awssdk.Config
  Time : gotime.Time

/-- The request that `NewWithOpts` hands to the signer (`create.go` lines 55-57). -/
def createRequest : Request :=
  let userAgent := "cloudproof-go/0.1.0"
  let req := NewRequest "POST" "https://organizations.us-east-1.amazonaws.com/" none
  { req with Header := req.Header.Set "User-Agent" userAgent }

/-- The payload hash that `NewWithOpts` hands to the signer (`create.go` lines 64-65): the
hash of nothing. -/
def payloadHash : String := hex.EncodeToString (sha256.Sum256 [])

/-- `NewWithOpts` (`create.go`). -/
def NewWithOpts (env : Env) (opts : Opts) : Except Error OrganizationProof := do
  let opts := if opts.Time.IsZero then { opts with Time := env.Now } else opts
  let cfg ← env.configOr opts.AWSConfig
  let req := createRequest
  let creds ← cfg.Credentials
  let req ← signer.SignHTTP creds req payloadHash "organizations" "us-east-1" opts.Time
  let req := { req with Header := req.Header.Set "X-Amz-Target" "AWSOrganizationsV20161128.DescribeOrganization" }
  let req := { req with Header := req.Header.Del "Transfer-Encoding" }
  return { Signature := req.Header.Get "Authorization",
           Time := opts.Time,
           SecurityToken := req.Header.Get "X-Amz-Security-Token" }

/-- `New` (`create.go`). -/
def New (env : Env) : Except Error OrganizationProof := NewWithOpts env ⟨none, gotime.Time.zero⟩

/-- `VerifyOpts` (`verify.go`). -/
structure VerifyOpts where
  Client : http.Client
  URL : String

/-- The request that `VerifyWithOpts` sends (`verify.go` lines 57-71). -/
def verifyRequest (op : OrganizationProof) (opts : VerifyOpts) : Request :=
  let opts := if opts.URL == "" then { opts with URL := "https://sts.amazonaws.com/" } else opts
  let userAgent := "cloudproof-go/0.1.0"
  let req := NewRequest "POST" opts.URL none
  let req := { req with Header := req.Header.Set "Content-Type" "application/x-amz-json-1.1" }
  let req := { req with Header := req.Header.Set "User-Agent" userAgent }
  let req := { req with Header := req.Header.Set "X-Amz-Target" "AWSOrganizationsV20161128.DescribeOrganization" }
  let req := { req with Header := req.Header.Set "X-Amz-Security-Token" op.SecurityToken }
  let req := { req with Header := req.Header.Set "X-Amz-Date" (op.Time.UTC.Format "20060102T150405Z") }
  let req := { req with Header := req.Header.Set "Authorization" op.Signature }
  { req with Header := req.Header.Del "Transfer-Encoding" }

/-- The loop that copies the decoded policy types (`verify.go` lines 107-110). -/
def policyTypes (items : List json.PolicyType) : List AvailablePolicyType :=
  items.foldl (fun apts a => apts ++ [{ Status := a.Status, Type_ := a.Type_ }]) []

/-- `OrganizationProof.VerifyWithOpts` (`verify.go`), from the call of the client on
(lines 73-121). -/
def OrganizationProof.VerifyWithOpts (op : OrganizationProof) (opts : VerifyOpts) :
    Except Error Organization := do
  let resp ← opts.Client.Do (verifyRequest op opts)
  if resp.StatusCode != StatusOK then
    match resp.Body with
    | .error err =>
      throw ("error while reading response body from failed API call (code " ++
        strconv.Itoa resp.StatusCode ++ "): " ++ err)
    | .ok resbody =>
      throw ("AWS Organizations API call failed with code " ++
        strconv.Itoa resp.StatusCode ++ ": " ++ resbody)
  let body ← resp.Body
  let res ← json.Decode body
  let apts := policyTypes res.Organization.AvailablePolicyTypes
  return { ARN := res.Organization.Arn,
           ID := res.Organization.ID,
           AvailablePolicyTypes := apts,
           FeatureSet := res.Organization.FeatureSet,
           MainAccountARN := res.Organization.MasterAccountArn,
           MainAccountEmail := res.Organization.MasterAccountEmail,
           MainAccountID := res.Organization.MasterAccountID }

/-- `OrganizationProof.Verify` (`verify.go`): the zero `VerifyOpts`. -/
def OrganizationProof.Verify (env : Env) (op : OrganizationProof) : Except Error Organization :=
  op.VerifyWithOpts ⟨env.DefaultClient, ""⟩

end orgproof

/-! ## Package `aws` -/

namespace aws

open http

/-- `ProveOptions` (`id_create.go`). -/
structure ProveOptions where
  cfg : Option awssdk.Config
  time : gotime.Time
  useragent : String

/-- `ProofOption` (`id_create.go`). -/
abbrev ProofOption := ProveOptions → ProveOptions

/-- `WithConfig` (`id_create.go`). -/
def WithConfig (cfg : awssdk.Config) : ProofOption := fun p => { p with cfg := some cfg }

/-- `WithTime` (`id_create.go`). -/
def WithTime (t : gotime.Time) : ProofOption := fun p => { p with time := t }

/-- `WithUserAgent` (`id_create.go`). -/
def WithUserAgent (ua : String) : ProofOption := fun p => { p with useragent := ua }

/-- The options of a creation: the defaults, then every option in turn (`id_create.go` lines
31-39, `org_create.go` lines 18-26). -/
def proveOptions (env : Env) (opts : List ProofOption) : ProveOptions :=
  opts.foldl (fun o opt => opt o) { cfg := none, time := env.Now, useragent := "commonfate-cloudattest/0.1.0" }

/-- `MockClient` (`id_proof_test.go`) with its `DoFunc` set: a client that answers with
`DoFunc`. -/
def MockClient (DoFunc : Request → Except Error Response) : http.Client := ⟨DoFunc⟩

/-- `Identity` (`id_proof.go`). -/
structure Identity where
  ARN : String
  UserID : String
  Account : String
deriving DecidableEq, Repr

/-- `IdentityProof` (`id_proof.go`). -/
structure IdentityProof where
  AuthHeader : String
  Time : gotime.Time
  SecurityToken : String
deriving DecidableEq, Repr

/-- Go `json.Marshal` of an `IdentityProof`: the tags are `authHeader`, `time` and
`securityToken`. -/
def IdentityProof.Marshal (p : IdentityProof) : Except Error json.Value :=
  json.marshalProof "authHeader" "securityToken" ⟨p.AuthHeader, p.Time, p.SecurityToken⟩

/-- Go `json.Unmarshal` into a zero `IdentityProof`. -/
def IdentityProof.Unmarshal (v : json.Value) : Except Error IdentityProof :=
  (json.unmarshalProof "authHeader" "securityToken" v).map fun f =>
    { AuthHeader := f.Signature, Time := f.Time, SecurityToken := f.SecurityToken }

/-- The body of the STS call (`id_create.go` lines 51-53, `id_proof.go` lines 56-58). -/
def data : url.Values :=
  (url.Values.empty.Set "Action" "GetCallerIdentity").Set "Version" "2011-06-15"

/-- The request that `NewIdentityProof` hands to the signer (`id_create.go` lines 55-57). -/
def identityCreateRequest (o : ProveOptions) : Request :=
  let req := NewRequest "POST" "https://sts.amazonaws.com/" (some data.Encode)
  { req with Header := req.Header.Set "User-Agent" o.useragent }

/-- The payload hash of `NewIdentityProof` (`id_create.go` lines 64-66). -/
def identityPayloadHash : String := hex.EncodeToString (sha256.Sum256 (bytesOf data.Encode))

/-- The value of an entry of a keyed composite literal: a string or a time. -/
inductive FieldValue where
  | str (s : String)
  | time (t : gotime.Time)
deriving DecidableEq, Repr

/-- What the Go compiler makes of a function that ends with a keyed composite literal:
`rejected key` when `key` is a key of the literal and no field of the struct (the function is
not built, so it returns nothing, whatever its arguments), else what the function returns. -/
inductive Compiled (α : Type) where
  | rejected (unknownField : String)
  | returns (result : α)
deriving DecidableEq, Repr

/-- The field names of `IdentityProof` (`id_proof.go` lines 24-31). -/
def IdentityProof.fieldNames : List String := ["AuthHeader", "Time", "SecurityToken"]

/-- The struct that a keyed composite literal `IdentityProof{...}` denotes: every field has the
value of the entry with its name, and its zero value when there is none. -/
def IdentityProof.ofLiteral (entries : List (String × FieldValue)) : IdentityProof :=
  { AuthHeader := match entries.lookup "AuthHeader" with
      | some (.str s) => s
      | _ => "",
    Time := match entries.lookup "Time" with
      | some (.time t) => t
      | _ => gotime.Time.zero,
    SecurityToken := match entries.lookup "SecurityToken" with
      | some (.str s) => s
      | _ => "" }

/-- The keys of the composite literal that ends `NewIdentityProof` (`id_create.go` lines
78-82): `Signature`, `Time` and `SecurityToken`. -/
def identityProofLiteralKeys : List String := ["Signature", "Time", "SecurityToken"]

/-- The body of `NewIdentityProof` (`id_create.go` lines 31-82) up to its composite literal:
the entries of the literal, key by key, or the error that the body returns before it. -/
def identityProofLiteral (env : Env) (opts : List ProofOption) :
    Except Error (List (String × FieldValue)) := do
  let o := proveOptions env opts
  let cfg ← env.configOr o.cfg
  let req := identityCreateRequest o
  let creds ← cfg.Credentials
  let req ← signer.SignHTTP creds req identityPayloadHash "sts" "us-east-1" o.time
  let req := { req with Header := req.Header.Set "Accept-Encoding" "identity" }
  let req := { req with Header := req.Header.Set "Content-Type" "application/x-www-form-urlencoded" }
  let req := { req with Header := req.Header.Set "Content-Length" (strconv.Itoa (byteLen data.Encode)) }
  let req := { req with Header := req.Header.Del "Transfer-Encoding" }
  return [("Signature", .str (req.Header.Get "Authorization")),
          ("Time", .time o.time),
          ("SecurityToken", .str (req.Header.Get "X-Amz-Security-Token"))]

/-- `NewIdentityProof` (`id_create.go`): the composite literal of lines 78-82 has the key
`Signature`, and `IdentityProof` has no field of that name (its field is `AuthHeader`), so the
compiler rejects the function. -/
def NewIdentityProof (env : Env) (opts : List ProofOption) : Compiled (Except Error IdentityProof) :=
  match identityProofLiteralKeys.find? (fun k => !IdentityProof.fieldNames.contains k) with
  | some k => .rejected k
  | none => .returns ((identityProofLiteral env opts).map IdentityProof.ofLiteral)

/-- `IdentityVerifyOptions` (`id_proof.go`). -/
structure IdentityVerifyOptions where
  client : http.Client
  useragent : String

/-- `IdentityVerifyOption` (`id_proof.go`). -/
abbrev IdentityVerifyOption := IdentityVerifyOptions → IdentityVerifyOptions

/-- `WithClient` (`id_proof.go`). -/
def WithClient (c : http.Client) : IdentityVerifyOption := fun ivo => { ivo with client := c }

/-- `WithVerifierUserAgent` (`id_proof.go`). -/
def WithVerifierUserAgent (ua : String) : IdentityVerifyOption := fun ivo => { ivo with useragent := ua }

/-- The options of a verification: the defaults, then every option in turn (`id_proof.go`
lines 48-54, `org_proof.go` lines 43-49). -/
def verifyOptions (env : Env) (opts : List IdentityVerifyOption) : IdentityVerifyOptions :=
  opts.foldl (fun o opt => opt o) { client := env.DefaultClient, useragent := "commonfate-cloudproof/0.1.0" }

/-- The request that `IdentityProof.Verify` sends (`id_proof.go` lines 56-69). -/
def identityVerifyRequest (ip : IdentityProof) (o : IdentityVerifyOptions) : Request :=
  let req := NewRequest "POST" "https://sts.amazonaws.com/" (some data.Encode)
  let req := { req with Header := req.Header.Set "User-Agent" o.useragent }
  let req := { req with Header := req.Header.Set "Accept-Encoding" "identity" }
  let req := { req with Header := req.Header.Set "Content-Type" "application/x-www-form-urlencoded" }
  let req := { req with Header := req.Header.Set "Content-Length" (strconv.Itoa (byteLen data.Encode)) }
  let req := { req with Header := req.Header.Set "X-Amz-Security-Token" ip.SecurityToken }
  let req := { req with Header := req.Header.Set "X-Amz-Date" (ip.Time.UTC.Format "20060102T150405Z") }
  let req := { req with Header := req.Header.Set "Authorization" ip.AuthHeader }
  { req with Header := req.Header.Del "Transfer-Encoding" }

/-- `IdentityProof.Verify` (`id_proof.go`). -/
def IdentityProof.Verify (env : Env) (ip : IdentityProof) (opts : List IdentityVerifyOption) :
    Except Error Identity := do
  let o := verifyOptions env opts
  let resp ← o.client.Do (identityVerifyRequest ip o)
  let resbody ← resp.Body
  let res ← xml.Unmarshal resbody
  return { ARN := res.GetCallerIdentityResult.ARN,
           UserID := res.GetCallerIdentityResult.UserID,
           Account := res.GetCallerIdentityResult.Account }

/-- `AvailablePolicyType` (`org_proof.go`); `Type_` is the field `Type`. -/
structure AvailablePolicyType where
  Status : String
  Type_ : String
deriving DecidableEq, Repr

/-- `Organization` (`org_proof.go`). -/
structure Organization where
  ARN : String
  ID : String
  AvailablePolicyTypes : List AvailablePolicyType
  FeatureSet : String
  MainAccountARN : String
  MainAccountEmail : String
  MainAccountID : String
deriving DecidableEq, Repr

/-- `OrganisationProof` (`org_proof.go`). -/
structure OrganisationProof where
  Signature : String
  Time : gotime.Time
  SecurityToken : String
deriving DecidableEq, Repr

/-- Go `json.Marshal` of an `OrganisationProof`: the tags are `signature`, `time` and
`securityToken`. -/
def OrganisationProof.Marshal (p : OrganisationProof) : Except Error json.Value :=
  json.marshalProof "signature" "securityToken" ⟨p.Signature, p.Time, p.SecurityToken⟩

/-- Go `json.Unmarshal` into a zero `OrganisationProof`. -/
def OrganisationProof.Unmarshal (v : json.Value) : Except Error OrganisationProof :=
  (json.unmarshalProof "signature" "securityToken" v).map fun f =>
    { Signature := f.Signature, Time := f.Time, SecurityToken := f.SecurityToken }

/-- The request that `NewOrgProof` hands to the signer (`org_create.go` lines 38-40). -/
def orgCreateRequest (o : ProveOptions) : Request :=
  let req := NewRequest "POST" "https://organizations.us-east-1.amazonaws.com/" none
  { req with Header := req.Header.Set "User-Agent" o.useragent }

/-- The payload hash of `NewOrgProof` (`org_create.go` lines 47-48): the hash of nothing. -/
def orgPayloadHash : String := hex.EncodeToString (sha256.Sum256 [])

/-- `NewOrgProof` (`org_create.go`). -/
def NewOrgProof (env : Env) (opts : List ProofOption) : Except Error OrganisationProof := do
  let o := proveOptions env opts
  let cfg ← env.configOr o.cfg
  let req := orgCreateRequest o
  let creds ← cfg.Credentials
  let req ← signer.SignHTTP creds req orgPayloadHash "organizations" "us-east-1" o.time
  let req := { req with Header := req.Header.Set "X-Amz-Target" "AWSOrganizationsV20161128.DescribeOrganization" }
  let req := { req with Header := req.Header.Del "Transfer-Encoding" }
  return { Signature := req.Header.Get "Authorization",
           Time := o.time,
           SecurityToken := req.Header.Get "X-Amz-Security-Token" }

/-- The request that `OrganisationProof.Verify` sends (`org_proof.go` lines 51-59). -/
def orgVerifyRequest (op : OrganisationProof) (o : IdentityVerifyOptions) : Request :=
  let req := NewRequest "POST" "https://organizations.us-east-1.amazonaws.com/" none
  let req := { req with Header := req.Header.Set "Content-Type" "application/x-amz-json-1.1" }
  let req := { req with Header := req.Header.Set "User-Agent" o.useragent }
  let req := { req with Header := req.Header.Set "X-Amz-Target" "AWSOrganizationsV20161128.DescribeOrganization" }
  let req := { req with Header := req.Header.Set "X-Amz-Security-Token" op.SecurityToken }
  let req := { req with Header := req.Header.Set "X-Amz-Date" (op.Time.UTC.Format "20060102T150405Z") }
  let req := { req with Header := req.Header.Set "Authorization" op.Signature }
  { req with Header := req.Header.Del "Transfer-Encoding" }

/-- The loop that copies the decoded policy types (`org_proof.go` lines 95-98). -/
def policyTypes (items : List json.PolicyType) : List AvailablePolicyType :=
  items.foldl (fun apts a => apts ++ [{ Status := a.Status, Type_ := a.Type_ }]) []

/-- `OrganisationProof.Verify` (`org_proof.go`). -/
def OrganisationProof.Verify (env : Env) (op : OrganisationProof) (opts : List IdentityVerifyOption) :
    Except Error Organization := do
  let o := verifyOptions env opts
  let resp ← o.client.Do (orgVerifyRequest op o)
  if resp.StatusCode != StatusOK then
    match resp.Body with
    | .error err =>
      throw ("error while reading response body from failed API call (code " ++
        strconv.Itoa resp.StatusCode ++ "): " ++ err)
    | .ok resbody =>
      throw ("AWS Organizations API call failed with code " ++
        strconv.Itoa resp.StatusCode ++ ": " ++ resbody)
  let body ← resp.Body
  let res ← json.Decode body
  let apts := policyTypes res.Organization.AvailablePolicyTypes
  return { ARN := res.Organization.Arn,
           ID := res.Organization.ID,
           AvailablePolicyTypes := apts,
           FeatureSet := res.Organization.FeatureSet,
           MainAccountARN := res.Organization.MasterAccountArn,
           MainAccountEmail := res.Organization.MasterAccountEmail,
           MainAccountID := res.Organization.MasterAccountID }

end aws

/-! # Theorems -/

open gotime http signer

/-! ## Helper lemmas: Go `time` -/

namespace gotime

theorem formatLayout_amz (t : Time) :
    formatLayout t "20060102T150405Z".toList =
      appendInt t.Year 4 ++ (appendInt t.Month 2 ++ (appendInt t.Day 2 ++ ('T' ::
        (appendInt t.Hour 2 ++ (appendInt t.Minute 2 ++ (appendInt t.Second 2 ++ ['Z'])))))) := by
  rfl

theorem formatLayout_short (t : Time) :
    formatLayout t "20060102".toList =
      appendInt t.Year 4 ++ (appendInt t.Month 2 ++ (appendInt t.Day 2 ++ [])) := by
  rfl

theorem civil_month_lt (days : Int) : (civil days).2.1 < 100 := by
  simp only [civil]
  split <;> omega

theorem civil_day_lt (days : Int) : (civil days).2.2 < 100 := by
  simp only [civil]
  omega

theorem secondOfDay_lt (t : Time) : t.secondOfDay < 86400 := by
  unfold Time.secondOfDay
  omega

theorem appendInt_two (n : Nat) (h : n < 100) :
    appendInt (n : Int) 2 = [digitChar (n / 10), digitChar n] := by
  simp [appendInt, h]

theorem appendInt_four (y : Int) (h0 : 0 ≤ y) (h1 : y ≤ 9999) :
    appendInt y 4 = [digitChar (y.toNat / 1000), digitChar (y.toNat / 100),
      digitChar (y.toNat / 10), digitChar y.toNat] := by
  have hy : y.natAbs = y.toNat := by omega
  have hlt : y.toNat < 10000 := by omega
  have hn : ¬ y < 0 := by omega
  simp [appendInt, hy, hlt, hn]

/-- The date and time text of a time whose year has four digits. -/
theorem format_amz_digits (t : Time) (h0 : 0 ≤ t.Year) (h1 : t.Year ≤ 9999) :
    t.Format "20060102T150405Z" =
      String.mk [digitChar (t.Year.toNat / 1000), digitChar (t.Year.toNat / 100),
        digitChar (t.Year.toNat / 10), digitChar t.Year.toNat,
        digitChar (t.Month / 10), digitChar t.Month, digitChar (t.Day / 10), digitChar t.Day, 'T',
        digitChar (t.Hour / 10), digitChar t.Hour, digitChar (t.Minute / 10), digitChar t.Minute,
        digitChar (t.Second / 10), digitChar t.Second, 'Z'] := by
  have hs := secondOfDay_lt t
  have hH : t.Hour < 100 := by unfold Time.Hour; omega
  have hM : t.Minute < 100 := by unfold Time.Minute; omega
  have hS : t.Second < 100 := by unfold Time.Second; omega
  unfold Time.Format
  have hMo : t.Month < 100 := civil_month_lt _
  have hD : t.Day < 100 := civil_day_lt _
  rw [formatLayout_amz, appendInt_four _ h0 h1, appendInt_two _ hMo,
    appendInt_two _ hD, appendInt_two _ hH, appendInt_two _ hM, appendInt_two _ hS]
  rfl

/-- The text of a time in UTC depends on the Unix second only. -/
theorem format_utc_congr (t1 t2 : Time) (layout : String) (h : t1.unix = t2.unix) :
    t1.UTC.Format layout = t2.UTC.Format layout := by
  have key : ∀ (a b : Time), a.unix = b.unix → a.offset = b.offset →
      ∀ l, formatLayout a l = formatLayout b l := by
    intro a b hu ho l
    have hd : a.days = b.days := by simp [Time.days, Time.localSeconds, hu, ho]
    have hsd : a.secondOfDay = b.secondOfDay := by simp [Time.secondOfDay, Time.localSeconds, hu, ho]
    induction l using formatLayout.induct a <;>
      simp_all [formatLayout, Time.Year, Time.Month, Time.Day, Time.Hour, Time.Minute, Time.Second]
  unfold Time.Format
  rw [key t1.UTC t2.UTC (by simpa [Time.UTC] using h) (by simp [Time.UTC])]

theorem digitChar_isDigit (n : Nat) : (digitChar n).isDigit = true := by
  have h : n % 10 < 10 := Nat.mod_lt _ (by decide)
  unfold digitChar
  generalize n % 10 = k at h
  interval_cases k <;> decide

end gotime

/-- The date text, in UTC, of a time whose UTC year has four digits: the digits of the civil
date of the day number of its Unix second. -/
theorem gotime.format_short_digits (t : Time) (h0 : 0 ≤ (civil (t.unix / 86400)).1)
    (h1 : (civil (t.unix / 86400)).1 ≤ 9999) :
    t.UTC.Format "20060102" =
      String.mk [digitChar ((civil (t.unix / 86400)).1.toNat / 1000),
        digitChar ((civil (t.unix / 86400)).1.toNat / 100),
        digitChar ((civil (t.unix / 86400)).1.toNat / 10),
        digitChar (civil (t.unix / 86400)).1.toNat,
        digitChar ((civil (t.unix / 86400)).2.1 / 10), digitChar (civil (t.unix / 86400)).2.1,
        digitChar ((civil (t.unix / 86400)).2.2 / 10), digitChar (civil (t.unix / 86400)).2.2] := by
  have hd : t.UTC.days = t.unix / 86400 := by
    simp [Time.days, Time.localSeconds, Time.UTC]
  have hY : t.UTC.Year = (civil (t.unix / 86400)).1 := by rw [Time.Year, hd]
  have hM : t.UTC.Month = (civil (t.unix / 86400)).2.1 := by rw [Time.Month, hd]
  have hD : t.UTC.Day = (civil (t.unix / 86400)).2.2 := by rw [Time.Day, hd]
  unfold Time.Format
  rw [formatLayout_short, hY, hM, hD, appendInt_four _ h0 h1,
    appendInt_two _ (civil_month_lt _), appendInt_two _ (civil_day_lt _)]
  rfl

/-! ## Helper lemmas: headers of the replayed requests -/

namespace http

theorem canonicalKey_userAgent : CanonicalMIMEHeaderKey "User-Agent" = "User-Agent" := by decide
theorem canonicalKey_acceptEncoding : CanonicalMIMEHeaderKey "Accept-Encoding" = "Accept-Encoding" := by decide
theorem canonicalKey_contentType : CanonicalMIMEHeaderKey "Content-Type" = "Content-Type" := by decide
theorem canonicalKey_contentLength : CanonicalMIMEHeaderKey "Content-Length" = "Content-Length" := by decide
theorem canonicalKey_securityToken : CanonicalMIMEHeaderKey "X-Amz-Security-Token" = "X-Amz-Security-Token" := by decide
theorem canonicalKey_amzDate : CanonicalMIMEHeaderKey "X-Amz-Date" = "X-Amz-Date" := by decide
theorem canonicalKey_authorization : CanonicalMIMEHeaderKey "Authorization" = "Authorization" := by decide
theorem canonicalKey_transferEncoding : CanonicalMIMEHeaderKey "Transfer-Encoding" = "Transfer-Encoding" := by decide
theorem canonicalKey_amzTarget : CanonicalMIMEHeaderKey "X-Amz-Target" = "X-Amz-Target" := by decide

end http

theorem stsproof.sts_data_length : strconv.Itoa (byteLen stsproof.data.Encode) = "43" := by decide

theorem aws.aws_data_length : strconv.Itoa (byteLen aws.data.Encode) = "43" := by decide

theorem stsproof.sts_verifyRequest_header (ip : stsproof.Proof) (opts : stsproof.VerifyOpts) :
    (stsproof.verifyRequest ip opts).Header =
      ⟨[("User-Agent", ["cloudproof-go/0.1.0"]), ("Accept-Encoding", ["identity"]),
        ("Content-Type", ["application/x-www-form-urlencoded"]), ("Content-Length", ["43"]),
        ("X-Amz-Security-Token", [ip.SecurityToken]),
        ("X-Amz-Date", [ip.Time.UTC.Format "20060102T150405Z"]),
        ("Authorization", [ip.Signature])]⟩ := by
  simp [stsproof.verifyRequest, http.NewRequest, http.Header.Set, http.Header.assign,
    http.Header.Del, http.Header.empty,
    http.canonicalKey_userAgent, http.canonicalKey_acceptEncoding, http.canonicalKey_contentType,
    http.canonicalKey_contentLength, http.canonicalKey_securityToken, http.canonicalKey_amzDate,
    http.canonicalKey_authorization, http.canonicalKey_transferEncoding, stsproof.sts_data_length]

theorem aws.identityVerifyRequest_header (ip : aws.IdentityProof) (o : aws.IdentityVerifyOptions) :
    (aws.identityVerifyRequest ip o).Header =
      ⟨[("User-Agent", [o.useragent]), ("Accept-Encoding", ["identity"]),
        ("Content-Type", ["application/x-www-form-urlencoded"]), ("Content-Length", ["43"]),
        ("X-Amz-Security-Token", [ip.SecurityToken]),
        ("X-Amz-Date", [ip.Time.UTC.Format "20060102T150405Z"]),
        ("Authorization", [ip.AuthHeader])]⟩ := by
  simp [aws.identityVerifyRequest, http.NewRequest, http.Header.Set, http.Header.assign,
    http.Header.Del, http.Header.empty,
    http.canonicalKey_userAgent, http.canonicalKey_acceptEncoding, http.canonicalKey_contentType,
    http.canonicalKey_contentLength, http.canonicalKey_securityToken, http.canonicalKey_amzDate,
    http.canonicalKey_authorization, http.canonicalKey_transferEncoding, aws.aws_data_length]

theorem orgproof.org_verifyRequest_header (op : orgproof.OrganizationProof) (opts : orgproof.VerifyOpts) :
    (orgproof.verifyRequest op opts).Header =
      ⟨[("Content-Type", ["application/x-amz-json-1.1"]), ("User-Agent", ["cloudproof-go/0.1.0"]),
        ("X-Amz-Target", ["AWSOrganizationsV20161128.DescribeOrganization"]),
        ("X-Amz-Security-Token", [op.SecurityToken]),
        ("X-Amz-Date", [op.Time.UTC.Format "20060102T150405Z"]),
        ("Authorization", [op.Signature])]⟩ := by
  simp [orgproof.verifyRequest, http.NewRequest, http.Header.Set, http.Header.assign,
    http.Header.Del, http.Header.empty,
    http.canonicalKey_userAgent, http.canonicalKey_contentType, http.canonicalKey_amzTarget,
    http.canonicalKey_securityToken, http.canonicalKey_amzDate,
    http.canonicalKey_authorization, http.canonicalKey_transferEncoding]

theorem aws.orgVerifyRequest_header (op : aws.OrganisationProof) (o : aws.IdentityVerifyOptions) :
    (aws.orgVerifyRequest op o).Header =
      ⟨[("Content-Type", ["application/x-amz-json-1.1"]), ("User-Agent", [o.useragent]),
        ("X-Amz-Target", ["AWSOrganizationsV20161128.DescribeOrganization"]),
        ("X-Amz-Security-Token", [op.SecurityToken]),
        ("X-Amz-Date", [op.Time.UTC.Format "20060102T150405Z"]),
        ("Authorization", [op.Signature])]⟩ := by
  simp [aws.orgVerifyRequest, http.NewRequest, http.Header.Set, http.Header.assign,
    http.Header.Del, http.Header.empty,
    http.canonicalKey_userAgent, http.canonicalKey_contentType, http.canonicalKey_amzTarget,
    http.canonicalKey_securityToken, http.canonicalKey_amzDate,
    http.canonicalKey_authorization, http.canonicalKey_transferEncoding]

theorem stsproof.sts_verifyRequest_amzDate (ip : stsproof.Proof) (opts : stsproof.VerifyOpts) :
    (stsproof.verifyRequest ip opts).Header.Get "X-Amz-Date" =
      ip.Time.UTC.Format "20060102T150405Z" := by
  simp [stsproof.sts_verifyRequest_header, http.Header.Get, http.Header.values,
    http.canonicalKey_amzDate]

theorem orgproof.org_verifyRequest_amzDate (op : orgproof.OrganizationProof)
    (opts : orgproof.VerifyOpts) :
    (orgproof.verifyRequest op opts).Header.Get "X-Amz-Date" =
      op.Time.UTC.Format "20060102T150405Z" := by
  simp [orgproof.org_verifyRequest_header, http.Header.Get, http.Header.values,
    http.canonicalKey_amzDate]

theorem aws.identityVerifyRequest_amzDate (ip : aws.IdentityProof)
    (o : aws.IdentityVerifyOptions) :
    (aws.identityVerifyRequest ip o).Header.Get "X-Amz-Date" =
      ip.Time.UTC.Format "20060102T150405Z" := by
  simp [aws.identityVerifyRequest_header, http.Header.Get, http.Header.values,
    http.canonicalKey_amzDate]

theorem aws.orgVerifyRequest_amzDate (op : aws.OrganisationProof)
    (o : aws.IdentityVerifyOptions) :
    (aws.orgVerifyRequest op o).Header.Get "X-Amz-Date" =
      op.Time.UTC.Format "20060102T150405Z" := by
  simp [aws.orgVerifyRequest_header, http.Header.Get, http.Header.values,
    http.canonicalKey_amzDate]

/-! ## Helper lemmas: the signer -/

theorem length_pos_of_ne_empty (s : String) (h : s ≠ "") : s.length > 0 := by
  rcases s with ⟨l⟩
  cases l with
  | nil => exact absurd rfl h
  | cons c cs => simp [String.length]

namespace signer

theorem Build_unfold (creds : Credentials) (r : Request) (ph service region : String) (t : Time)
    (hport : portOnly r.Host = "") (hhost : r.Host ≠ "") :
    Build creds r ph service region t =
      { Request :=
          { r with
            Header := (setRequiredSigningFields creds t r.Header).assign authorizationHeader
              [buildAuthorizationHeader (creds.AccessKeyID ++ "/" ++ buildCredentialScope t region service)
                (buildCanonicalHeaders r.Host (setRequiredSigningFields creds t r.Header) r.ContentLength).2.1
                (buildSignature creds service region t
                  (buildStringToSign t (buildCredentialScope t region service)
                    (buildCanonicalString r.Method (EscapePath (GetURIPath r.URL))
                      (canonicalQuery r.URL.RawQuery)
                      (buildCanonicalHeaders r.Host (setRequiredSigningFields creds t r.Header) r.ContentLength).2.1
                      (buildCanonicalHeaders r.Host (setRequiredSigningFields creds t r.Header) r.ContentLength).2.2
                      ph)))],
            URL := { r.URL with RawQuery := canonicalQuery r.URL.RawQuery } },
        SignedHeaders := (buildCanonicalHeaders r.Host (setRequiredSigningFields creds t r.Header) r.ContentLength).1,
        CanonicalString := buildCanonicalString r.Method (EscapePath (GetURIPath r.URL))
                      (canonicalQuery r.URL.RawQuery)
                      (buildCanonicalHeaders r.Host (setRequiredSigningFields creds t r.Header) r.ContentLength).2.1
                      (buildCanonicalHeaders r.Host (setRequiredSigningFields creds t r.Header) r.ContentLength).2.2
                      ph,
        StringToSign := buildStringToSign t (buildCredentialScope t region service)
                    (buildCanonicalString r.Method (EscapePath (GetURIPath r.URL))
                      (canonicalQuery r.URL.RawQuery)
                      (buildCanonicalHeaders r.Host (setRequiredSigningFields creds t r.Header) r.ContentLength).2.1
                      (buildCanonicalHeaders r.Host (setRequiredSigningFields creds t r.Header) r.ContentLength).2.2
                      ph) } := by
  have hlen : r.Host.length > 0 := length_pos_of_ne_empty _ hhost
  have hs : SanitizeHostForHeader { r with Header := setRequiredSigningFields creds t r.Header } =
      { r with Header := setRequiredSigningFields creds t r.Header } := by
    simp [SanitizeHostForHeader, hhost, hport]
  simp only [Build, hs, if_pos hlen]

/-- The headers of the signed request: the required signing fields and the authorization. -/
theorem Build_header (creds : Credentials) (r : Request) (ph service region : String) (t : Time)
    (hport : portOnly r.Host = "") (hhost : r.Host ≠ "") :
    (Build creds r ph service region t).Request.Header =
      (setRequiredSigningFields creds t r.Header).assign authorizationHeader
        [buildAuthorizationHeader (creds.AccessKeyID ++ "/" ++ buildCredentialScope t region service)
          (buildCanonicalHeaders r.Host (setRequiredSigningFields creds t r.Header) r.ContentLength).2.1
          (buildSignature creds service region t (Build creds r ph service region t).StringToSign)] := by
  rw [Build_unfold creds r ph service region t hport hhost]

theorem Build_signedHeaders (creds : Credentials) (r : Request) (ph service region : String) (t : Time)
    (hport : portOnly r.Host = "") (hhost : r.Host ≠ "") :
    (Build creds r ph service region t).SignedHeaders =
      (buildCanonicalHeaders r.Host (setRequiredSigningFields creds t r.Header) r.ContentLength).1 := by
  rw [Build_unfold creds r ph service region t hport hhost]

theorem Build_request (creds : Credentials) (r : Request) (ph service region : String) (t : Time)
    (hport : portOnly r.Host = "") (hhost : r.Host ≠ "") :
    (Build creds r ph service region t).Request.Method = r.Method ∧
    (Build creds r ph service region t).Request.Host = r.Host ∧
    (Build creds r ph service region t).Request.URL.Host = r.URL.Host ∧
    (Build creds r ph service region t).Request.URL.Path = r.URL.Path ∧
    (Build creds r ph service region t).Request.URL.RawQuery = canonicalQuery r.URL.RawQuery ∧
    (Build creds r ph service region t).Request.Body = r.Body ∧
    (Build creds r ph service region t).Request.ContentLength = r.ContentLength := by
  rw [Build_unfold creds r ph service region t hport hhost]
  simp

theorem setRequired_token (creds : Credentials) (t : Time) (ua : String)
    (h : creds.SessionToken ≠ "") :
    setRequiredSigningFields creds t ⟨[("User-Agent", [ua])]⟩ =
      ⟨[("User-Agent", [ua]), ("X-Amz-Date", [t.Format TimeFormat]),
        ("X-Amz-Security-Token", [creds.SessionToken])]⟩ := by
  unfold setRequiredSigningFields
  rw [if_pos (length_pos_of_ne_empty _ h)]
  rfl

theorem setRequired_noToken (creds : Credentials) (t : Time) (ua : String)
    (h : creds.SessionToken = "") :
    setRequiredSigningFields creds t ⟨[("User-Agent", [ua])]⟩ =
      ⟨[("User-Agent", [ua]), ("X-Amz-Date", [t.Format TimeFormat])]⟩ := by
  unfold setRequiredSigningFields
  rw [if_neg (by rw [h]; decide)]
  rfl

set_option maxRecDepth 100000 in
theorem canonicalHeaders_body_token (host ua d tok : String) :
    (buildCanonicalHeaders host
      ⟨[("User-Agent", [ua]), ("X-Amz-Date", [d]), ("X-Amz-Security-Token", [tok])]⟩ 43).1 =
      ⟨[("host", [host]), ("content-length", ["43"]), ("x-amz-date", [d]),
        ("x-amz-security-token", [tok])]⟩ ∧
    (buildCanonicalHeaders host
      ⟨[("User-Agent", [ua]), ("X-Amz-Date", [d]), ("X-Amz-Security-Token", [tok])]⟩ 43).2.1 =
      "content-length;host;x-amz-date;x-amz-security-token" := by
  constructor <;> rfl

set_option maxRecDepth 100000 in
theorem canonicalHeaders_body_noToken (host ua d : String) :
    (buildCanonicalHeaders host ⟨[("User-Agent", [ua]), ("X-Amz-Date", [d])]⟩ 43).1 =
      ⟨[("host", [host]), ("content-length", ["43"]), ("x-amz-date", [d])]⟩ ∧
    (buildCanonicalHeaders host ⟨[("User-Agent", [ua]), ("X-Amz-Date", [d])]⟩ 43).2.1 =
      "content-length;host;x-amz-date" := by
  constructor <;> rfl

set_option maxRecDepth 100000 in
theorem canonicalHeaders_empty_token (host ua d tok : String) :
    (buildCanonicalHeaders host
      ⟨[("User-Agent", [ua]), ("X-Amz-Date", [d]), ("X-Amz-Security-Token", [tok])]⟩ 0).1 =
      ⟨[("host", [host]), ("x-amz-date", [d]), ("x-amz-security-token", [tok])]⟩ ∧
    (buildCanonicalHeaders host
      ⟨[("User-Agent", [ua]), ("X-Amz-Date", [d]), ("X-Amz-Security-Token", [tok])]⟩ 0).2.1 =
      "host;x-amz-date;x-amz-security-token" := by
  constructor <;> rfl

set_option maxRecDepth 100000 in
theorem canonicalHeaders_empty_noToken (host ua d : String) :
    (buildCanonicalHeaders host ⟨[("User-Agent", [ua]), ("X-Amz-Date", [d])]⟩ 0).1 =
      ⟨[("host", [host]), ("x-amz-date", [d])]⟩ ∧
    (buildCanonicalHeaders host ⟨[("User-Agent", [ua]), ("X-Amz-Date", [d])]⟩ 0).2.1 =
      "host;x-amz-date" := by
  constructor <;> rfl

end signer

theorem stsproof.sts_createRequest_eq : stsproof.createRequest =
    { Method := "POST", URL := ⟨"https", "sts.amazonaws.com", "/", ""⟩, Host := "sts.amazonaws.com",
      Header := ⟨[("User-Agent", ["cloudproof-go/0.1.0"])]⟩,
      Body := "Action=GetCallerIdentity&Version=2011-06-15", ContentLength := 43 } := by decide

theorem sts_port : portOnly "sts.amazonaws.com" = "" := by decide
theorem org_port : portOnly "organizations.us-east-1.amazonaws.com" = "" := by decide

namespace signer

/-- The headers that `Build` leaves on a request that had the `User-Agent` header only, read
through `Get` after any later `Set` of other keys. -/
theorem Build_header_userAgent (creds : Credentials) (r : Request) (ph service region ua : String)
    (t : Time) (hport : portOnly r.Host = "") (hhost : r.Host ≠ "")
    (hH : r.Header = ⟨[("User-Agent", [ua])]⟩) :
    ∃ auth : String,
      auth = buildAuthorizationHeader (creds.AccessKeyID ++ "/" ++ buildCredentialScope t region service)
          (buildCanonicalHeaders r.Host (setRequiredSigningFields creds t r.Header) r.ContentLength).2.1
          (buildSignature creds service region t (Build creds r ph service region t).StringToSign) ∧
      (Build creds r ph service region t).Request.Header =
        ⟨[("User-Agent", [ua]), ("X-Amz-Date", [t.Format TimeFormat])] ++
          (if creds.SessionToken = "" then [] else [("X-Amz-Security-Token", [creds.SessionToken])]) ++
          [("Authorization", [auth])]⟩ := by
  refine ⟨_, rfl, ?_⟩
  rw [Build_header creds r ph service region t hport hhost, hH]
  by_cases htok : creds.SessionToken = ""
  · rw [setRequired_noToken creds t ua htok, if_pos htok]
    rfl
  · rw [setRequired_token creds t ua htok, if_neg htok]
    rfl

end signer

/-- What `stsproof.NewWithOpts` computes from the credentials and the signing time. -/
theorem stsproof.sts_NewWithOpts_core (creds : signer.Credentials) (T : gotime.Time) :
    (do
      let req ← signer.SignHTTP creds stsproof.createRequest stsproof.payloadHash "sts" "us-east-1" T
      let req := { req with Header := req.Header.Set "Accept-Encoding" "identity" }
      let req := { req with Header := req.Header.Set "Content-Type" "application/x-www-form-urlencoded" }
      let req := { req with Header := req.Header.Set "Content-Length" (strconv.Itoa (byteLen stsproof.data.Encode)) }
      let req := { req with Header := req.Header.Del "Transfer-Encoding" }
      return ({ Signature := req.Header.Get "Authorization",
                Time := T,
                SecurityToken := req.Header.Get "X-Amz-Security-Token" } : stsproof.Proof)) =
    (.ok { Signature := (signer.Build creds stsproof.createRequest stsproof.payloadHash "sts" "us-east-1"
            T.UTC).Request.Header.Get "Authorization",
           Time := T,
           SecurityToken := creds.SessionToken } : Except Error stsproof.Proof) := by
  have hr := stsproof.sts_createRequest_eq
  obtain ⟨auth, -, hb⟩ := signer.Build_header_userAgent creds stsproof.createRequest
    stsproof.payloadHash "sts" "us-east-1" "cloudproof-go/0.1.0"
    T.UTC (by rw [hr]; exact sts_port) (by rw [hr]; decide) (by rw [hr])
  by_cases htok : creds.SessionToken = "" <;>
    simp [signer.SignHTTP, bind, Except.bind, pure, Except.pure,
      hb, htok, http.Header.Set, http.Header.assign, http.Header.Del, http.Header.Get, http.Header.values,
      http.canonicalKey_acceptEncoding, http.canonicalKey_contentType,
      http.canonicalKey_contentLength, http.canonicalKey_securityToken,
      http.canonicalKey_authorization, http.canonicalKey_transferEncoding]

/-- What `stsproof.NewWithOpts` returns once the configuration and the credentials are there. -/
theorem stsproof.sts_NewWithOpts_ok (env : Env) (opts : stsproof.Opts) (cfg : awssdk.Config)
    (creds : signer.Credentials) (hcfg : env.configOr opts.AWSConfig = .ok cfg)
    (hcreds : cfg.Credentials = .ok creds) :
    stsproof.NewWithOpts env opts = .ok
      { Signature := (signer.Build creds stsproof.createRequest stsproof.payloadHash "sts" "us-east-1"
          (if opts.Time.IsZero then env.Now else opts.Time).UTC).Request.Header.Get "Authorization",
        Time := if opts.Time.IsZero then env.Now else opts.Time,
        SecurityToken := creds.SessionToken } := by
  cases hz : opts.Time.IsZero
  · have hc := stsproof.sts_NewWithOpts_core creds opts.Time
    simp only [stsproof.NewWithOpts, hz, Bool.false_eq_true, if_false, hcfg, hcreds, bind,
      Except.bind]
    exact hc
  · have hc := stsproof.sts_NewWithOpts_core creds env.Now
    simp only [stsproof.NewWithOpts, hz, if_true, hcfg, hcreds, bind, Except.bind]
    exact hc


theorem orgproof.org_createRequest_eq : orgproof.createRequest =
    { Method := "POST", URL := ⟨"https", "organizations.us-east-1.amazonaws.com", "/", ""⟩,
      Host := "organizations.us-east-1.amazonaws.com",
      Header := ⟨[("User-Agent", ["cloudproof-go/0.1.0"])]⟩,
      Body := "", ContentLength := 0 } := by decide

theorem aws.identityCreateRequest_eq (o : aws.ProveOptions) : aws.identityCreateRequest o =
    { Method := "POST", URL := ⟨"https", "sts.amazonaws.com", "/", ""⟩, Host := "sts.amazonaws.com",
      Header := ⟨[("User-Agent", [o.useragent])]⟩,
      Body := "Action=GetCallerIdentity&Version=2011-06-15", ContentLength := 43 } := by
  rfl

theorem aws.orgCreateRequest_eq (o : aws.ProveOptions) : aws.orgCreateRequest o =
    { Method := "POST", URL := ⟨"https", "organizations.us-east-1.amazonaws.com", "/", ""⟩,
      Host := "organizations.us-east-1.amazonaws.com",
      Header := ⟨[("User-Agent", [o.useragent])]⟩,
      Body := "", ContentLength := 0 } := by
  rfl

/-- What `orgproof.NewWithOpts` computes from the credentials and the signing time. -/
theorem orgproof.org_NewWithOpts_core (creds : signer.Credentials) (T : gotime.Time) :
    (do
      let req ← signer.SignHTTP creds orgproof.createRequest orgproof.payloadHash "organizations" "us-east-1" T
      let req := { req with Header := req.Header.Set "X-Amz-Target" "AWSOrganizationsV20161128.DescribeOrganization" }
      let req := { req with Header := req.Header.Del "Transfer-Encoding" }
      return ({ Signature := req.Header.Get "Authorization",
                Time := T,
                SecurityToken := req.Header.Get "X-Amz-Security-Token" } : orgproof.OrganizationProof)) =
    (.ok { Signature := (signer.Build creds orgproof.createRequest orgproof.payloadHash "organizations"
            "us-east-1" T.UTC).Request.Header.Get "Authorization",
           Time := T,
           SecurityToken := creds.SessionToken } : Except Error orgproof.OrganizationProof) := by
  have hr := orgproof.org_createRequest_eq
  obtain ⟨auth, -, hb⟩ := signer.Build_header_userAgent creds orgproof.createRequest
    orgproof.payloadHash "organizations" "us-east-1" "cloudproof-go/0.1.0"
    T.UTC (by rw [hr]; exact org_port) (by rw [hr]; decide) (by rw [hr])
  by_cases htok : creds.SessionToken = "" <;>
    simp [signer.SignHTTP, bind, Except.bind, pure, Except.pure,
      hb, htok, http.Header.Set, http.Header.assign, http.Header.Del, http.Header.Get, http.Header.values,
      http.canonicalKey_amzTarget, http.canonicalKey_securityToken,
      http.canonicalKey_authorization, http.canonicalKey_transferEncoding]

/-- What `orgproof.NewWithOpts` returns once the configuration and the credentials are there. -/
theorem orgproof.org_NewWithOpts_ok (env : Env) (opts : orgproof.Opts) (cfg : awssdk.Config)
    (creds : signer.Credentials) (hcfg : env.configOr opts.AWSConfig = .ok cfg)
    (hcreds : cfg.Credentials = .ok creds) :
    orgproof.NewWithOpts env opts = .ok
      { Signature := (signer.Build creds orgproof.createRequest orgproof.payloadHash "organizations"
          "us-east-1" (if opts.Time.IsZero then env.Now else opts.Time).UTC).Request.Header.Get
            "Authorization",
        Time := if opts.Time.IsZero then env.Now else opts.Time,
        SecurityToken := creds.SessionToken } := by
  cases hz : opts.Time.IsZero
  · have hc := orgproof.org_NewWithOpts_core creds opts.Time
    simp only [orgproof.NewWithOpts, hz, Bool.false_eq_true, if_false, hcfg, hcreds, bind,
      Except.bind]
    exact hc
  · have hc := orgproof.org_NewWithOpts_core creds env.Now
    simp only [orgproof.NewWithOpts, hz, if_true, hcfg, hcreds, bind, Except.bind]
    exact hc

/-- The entries that the body of `aws.NewIdentityProof` computes for its composite literal, once
the configuration and the credentials are there. -/
theorem aws.identityProofLiteral_ok (env : Env) (opts : List aws.ProofOption)
    (cfg : awssdk.Config) (creds : signer.Credentials)
    (hcfg : env.configOr (aws.proveOptions env opts).cfg = .ok cfg)
    (hcreds : cfg.Credentials = .ok creds) :
    aws.identityProofLiteral env opts = .ok
      [("Signature", .str ((signer.Build creds
          (aws.identityCreateRequest (aws.proveOptions env opts))
          aws.identityPayloadHash "sts" "us-east-1"
          (aws.proveOptions env opts).time.UTC).Request.Header.Get "Authorization")),
        ("Time", .time (aws.proveOptions env opts).time),
        ("SecurityToken", .str creds.SessionToken)] := by
  have hr := aws.identityCreateRequest_eq (aws.proveOptions env opts)
  obtain ⟨auth, -, hb⟩ := signer.Build_header_userAgent creds
    (aws.identityCreateRequest (aws.proveOptions env opts))
    aws.identityPayloadHash "sts" "us-east-1" (aws.proveOptions env opts).useragent
    (aws.proveOptions env opts).time.UTC (by rw [hr]; exact sts_port)
    (by rw [hr]; show "sts.amazonaws.com" ≠ ""; decide) (by rw [hr])
  by_cases htok : creds.SessionToken = "" <;>
    simp [aws.identityProofLiteral, hcfg, hcreds, signer.SignHTTP, bind, Except.bind, pure,
      Except.pure,
      hb, htok, http.Header.Set, http.Header.assign, http.Header.Del, http.Header.Get, http.Header.values,
      http.canonicalKey_acceptEncoding, http.canonicalKey_contentType,
      http.canonicalKey_contentLength, http.canonicalKey_securityToken,
      http.canonicalKey_authorization, http.canonicalKey_transferEncoding]

/-- The compiler rejects `aws.NewIdentityProof` for the key `Signature` of its literal. -/
theorem aws.NewIdentityProof_rejected (env : Env) (opts : List aws.ProofOption) :
    aws.NewIdentityProof env opts = .rejected "Signature" := by
  rfl

/-- What `aws.NewOrgProof` returns once the configuration and the credentials are there. -/
theorem aws.NewOrgProof_ok (env : Env) (opts : List aws.ProofOption) (cfg : awssdk.Config)
    (creds : signer.Credentials) (hcfg : env.configOr (aws.proveOptions env opts).cfg = .ok cfg)
    (hcreds : cfg.Credentials = .ok creds) :
    aws.NewOrgProof env opts = .ok
      { Signature := (signer.Build creds (aws.orgCreateRequest (aws.proveOptions env opts))
          aws.orgPayloadHash "organizations" "us-east-1"
          (aws.proveOptions env opts).time.UTC).Request.Header.Get "Authorization",
        Time := (aws.proveOptions env opts).time,
        SecurityToken := creds.SessionToken } := by
  have hr := aws.orgCreateRequest_eq (aws.proveOptions env opts)
  obtain ⟨auth, -, hb⟩ := signer.Build_header_userAgent creds
    (aws.orgCreateRequest (aws.proveOptions env opts))
    aws.orgPayloadHash "organizations" "us-east-1" (aws.proveOptions env opts).useragent
    (aws.proveOptions env opts).time.UTC (by rw [hr]; exact org_port)
    (by rw [hr]; show "organizations.us-east-1.amazonaws.com" ≠ ""; decide) (by rw [hr])
  by_cases htok : creds.SessionToken = "" <;>
    simp [aws.NewOrgProof, hcfg, hcreds, signer.SignHTTP, bind, Except.bind, pure, Except.pure,
      hb, htok, http.Header.Set, http.Header.assign, http.Header.Del, http.Header.Get, http.Header.values,
      http.canonicalKey_amzTarget, http.canonicalKey_securityToken,
      http.canonicalKey_authorization, http.canonicalKey_transferEncoding]

/-! ## Helper lemmas: digests and the authorization value -/

theorem hex.digit_isLowerHex (n : Nat) : hex.isLowerHex (hex.digit n) = true := by
  have h : n % 16 < 16 := Nat.mod_lt _ (by decide)
  unfold hex.digit
  simp only []
  generalize n % 16 = k at h
  interval_cases k <;> decide

theorem hex.EncodeToString_length (bs : List Nat) :
    (hex.EncodeToString bs).length = 2 * bs.length := by
  unfold hex.EncodeToString
  simp only [String.length]
  induction bs with
  | nil => rfl
  | cons b bs ih => simp only [List.flatMap_cons, List.length_append, List.length_cons, ih,
      List.length_nil]; omega

theorem hex.EncodeToString_lower (bs : List Nat) :
    ∀ c ∈ (hex.EncodeToString bs).toList, hex.isLowerHex c = true := by
  unfold hex.EncodeToString
  intro c hc
  simp only [String.toList, List.mem_flatMap, List.mem_cons, List.mem_singleton,
    List.not_mem_nil, or_false] at hc
  obtain ⟨b, -, hb⟩ := hc
  rcases hb with rfl | rfl <;> exact hex.digit_isLowerHex _

theorem sha256.Sum256_length (msg : List Nat) : (sha256.Sum256 msg).length = 32 := by
  unfold sha256.Sum256
  simp only [List.length_append, sha256.wordBytes, List.length_cons, List.length_nil]

theorem hmac.SHA256_length (key data : List Nat) : (hmac.SHA256 key data).length = 32 := by
  unfold hmac.SHA256
  exact sha256.Sum256_length _

theorem signer.buildAuthorizationHeader_eq (ak date region service shs sig : String) :
    buildAuthorizationHeader (ak ++ "/" ++ strings.Join [date, region, service, "aws4_request"] "/")
        shs sig =
      "AWS4-HMAC-SHA256 Credential=" ++ ak ++ "/" ++ date ++ "/" ++ region ++ "/" ++ service ++
        "/aws4_request, SignedHeaders=" ++ shs ++ ", Signature=" ++ sig := by
  simp only [buildAuthorizationHeader, signingAlgorithm, strings.Join]
  apply String.ext
  simp only [String.data_append, List.append_assoc]
  rfl

/-- The `Authorization` header that `Build` leaves on a request that had the `User-Agent` header
only. -/
theorem signer.Build_authorization (creds : Credentials) (r : Request)
    (ph service region ua : String) (t : Time) (hport : portOnly r.Host = "") (hhost : r.Host ≠ "")
    (hH : r.Header = ⟨[("User-Agent", [ua])]⟩) :
    (Build creds r ph service region t).Request.Header.Get "Authorization" =
      "AWS4-HMAC-SHA256 Credential=" ++ creds.AccessKeyID ++ "/" ++ t.Format "20060102" ++ "/" ++
        region ++ "/" ++ service ++ "/aws4_request, SignedHeaders=" ++
        (buildCanonicalHeaders r.Host (setRequiredSigningFields creds t r.Header) r.ContentLength).2.1 ++
        ", Signature=" ++
        buildSignature creds service region t (Build creds r ph service region t).StringToSign := by
  obtain ⟨auth, ha, hb⟩ := Build_header_userAgent creds r ph service region ua t hport hhost hH
  have hg : (Build creds r ph service region t).Request.Header.Get "Authorization" = auth := by
    rw [hb]
    by_cases htok : creds.SessionToken = "" <;>
      simp [htok, Header.Get, Header.values, canonicalKey_authorization]
  rw [hg, ha]
  exact buildAuthorizationHeader_eq _ _ _ _ _ _

/-- The signed-header list of a request with a body of 43 bytes. -/
theorem signer.signedHeaders_body (creds : Credentials) (t : Time) (host ua : String) :
    (buildCanonicalHeaders host (setRequiredSigningFields creds t ⟨[("User-Agent", [ua])]⟩) 43).2.1 =
      (if creds.SessionToken = "" then "content-length;host;x-amz-date"
       else "content-length;host;x-amz-date;x-amz-security-token") := by
  by_cases htok : creds.SessionToken = ""
  · rw [setRequired_noToken creds t ua htok, if_pos htok]
    exact (canonicalHeaders_body_noToken _ _ _).2
  · rw [setRequired_token creds t ua htok, if_neg htok]
    exact (canonicalHeaders_body_token _ _ _ _).2

/-- The signed-header list of a request without a body. -/
theorem signer.signedHeaders_empty (creds : Credentials) (t : Time) (host ua : String) :
    (buildCanonicalHeaders host (setRequiredSigningFields creds t ⟨[("User-Agent", [ua])]⟩) 0).2.1 =
      (if creds.SessionToken = "" then "host;x-amz-date"
       else "host;x-amz-date;x-amz-security-token") := by
  by_cases htok : creds.SessionToken = ""
  · rw [setRequired_noToken creds t ua htok, if_pos htok]
    exact (canonicalHeaders_empty_noToken _ _ _).2
  · rw [setRequired_token creds t ua htok, if_neg htok]
    exact (canonicalHeaders_empty_token _ _ _ _).2

/-- The signature of the signer is 64 lower-case hexadecimal digits. -/
theorem signer.buildSignature_hex (creds : Credentials) (service region : String) (t : Time)
    (strToSign : String) :
    (buildSignature creds service region t strToSign).length = 64 ∧
    ∀ c ∈ (buildSignature creds service region t strToSign).toList, hex.isLowerHex c = true := by
  unfold buildSignature
  exact ⟨by rw [hex.EncodeToString_length, hmac.SHA256_length], hex.EncodeToString_lower _⟩

theorem signer.regroup_sts (ak date shs sig : String) :
    "AWS4-HMAC-SHA256 Credential=" ++ ak ++ "/" ++ date ++ "/" ++ "us-east-1" ++ "/" ++ "sts" ++
        "/aws4_request, SignedHeaders=" ++ shs ++ ", Signature=" ++ sig =
      "AWS4-HMAC-SHA256 Credential=" ++ ak ++ "/" ++ date ++
        "/us-east-1/sts/aws4_request, SignedHeaders=" ++ shs ++ ", Signature=" ++ sig := by
  apply String.ext
  simp only [String.data_append, List.append_assoc]
  rfl

theorem signer.regroup_org (ak date shs sig : String) :
    "AWS4-HMAC-SHA256 Credential=" ++ ak ++ "/" ++ date ++ "/" ++ "us-east-1" ++ "/" ++
        "organizations" ++ "/aws4_request, SignedHeaders=" ++ shs ++ ", Signature=" ++ sig =
      "AWS4-HMAC-SHA256 Credential=" ++ ak ++ "/" ++ date ++
        "/us-east-1/organizations/aws4_request, SignedHeaders=" ++ shs ++ ", Signature=" ++ sig := by
  apply String.ext
  simp only [String.data_append, List.append_assoc]
  rfl

/-- The `Authorization` value of a signed identity-lookup request. -/
theorem signer.identity_authorization (creds : Credentials) (r : Request) (ph ua : String)
    (T : Time) (hhost : r.Host = "sts.amazonaws.com")
    (hH : r.Header = ⟨[("User-Agent", [ua])]⟩) (hlen : r.ContentLength = 43) :
    ∃ sig : String, sig.length = 64 ∧ (∀ c ∈ sig.toList, hex.isLowerHex c = true) ∧
      (Build creds r ph "sts" "us-east-1" T).Request.Header.Get "Authorization" =
        "AWS4-HMAC-SHA256 Credential=" ++ creds.AccessKeyID ++ "/" ++ T.Format "20060102" ++
          "/us-east-1/sts/aws4_request, SignedHeaders=" ++
          (if creds.SessionToken = "" then "content-length;host;x-amz-date"
           else "content-length;host;x-amz-date;x-amz-security-token") ++
          ", Signature=" ++ sig := by
  have hx := buildSignature_hex creds "sts" "us-east-1" T
    (Build creds r ph "sts" "us-east-1" T).StringToSign
  refine ⟨_, hx.1, hx.2, ?_⟩
  rw [Build_authorization creds r ph "sts" "us-east-1" ua T (by rw [hhost]; exact sts_port)
    (by rw [hhost]; decide) hH, hH, hlen, signedHeaders_body]
  exact regroup_sts _ _ _ _

/-- The `Authorization` value of a signed organization-lookup request. -/
theorem signer.organization_authorization (creds : Credentials) (r : Request) (ph ua : String)
    (T : Time) (hhost : r.Host = "organizations.us-east-1.amazonaws.com")
    (hH : r.Header = ⟨[("User-Agent", [ua])]⟩) (hlen : r.ContentLength = 0) :
    ∃ sig : String, sig.length = 64 ∧ (∀ c ∈ sig.toList, hex.isLowerHex c = true) ∧
      (Build creds r ph "organizations" "us-east-1" T).Request.Header.Get "Authorization" =
        "AWS4-HMAC-SHA256 Credential=" ++ creds.AccessKeyID ++ "/" ++ T.Format "20060102" ++
          "/us-east-1/organizations/aws4_request, SignedHeaders=" ++
          (if creds.SessionToken = "" then "host;x-amz-date"
           else "host;x-amz-date;x-amz-security-token") ++
          ", Signature=" ++ sig := by
  have hx := buildSignature_hex creds "organizations" "us-east-1" T
    (Build creds r ph "organizations" "us-east-1" T).StringToSign
  refine ⟨_, hx.1, hx.2, ?_⟩
  rw [Build_authorization creds r ph "organizations" "us-east-1" ua T
    (by rw [hhost]; exact org_port) (by rw [hhost]; decide) hH, hH, hlen, signedHeaders_empty]
  exact regroup_org _ _ _ _

/-! ## Helper lemmas: signed and replayed headers, responses -/

theorem lower_userAgent : strings.ToLower "User-Agent" = "user-agent" := by decide
theorem lower_acceptEncoding : strings.ToLower "Accept-Encoding" = "accept-encoding" := by decide
theorem lower_contentType : strings.ToLower "Content-Type" = "content-type" := by decide
theorem lower_contentLength : strings.ToLower "Content-Length" = "content-length" := by decide
theorem lower_securityToken : strings.ToLower "X-Amz-Security-Token" = "x-amz-security-token" := by decide
theorem lower_amzDate : strings.ToLower "X-Amz-Date" = "x-amz-date" := by decide
theorem lower_authorization : strings.ToLower "Authorization" = "authorization" := by decide
theorem lower_amzTarget : strings.ToLower "X-Amz-Target" = "x-amz-target" := by decide

/-- The headers that are signed in the identity-lookup request. -/
theorem stsproof.signedHeaders_entries (creds : Credentials) (T : Time) :
    (Build creds stsproof.createRequest stsproof.payloadHash "sts" "us-east-1" T).SignedHeaders.entries =
      [("host", ["sts.amazonaws.com"]), ("content-length", ["43"]),
        ("x-amz-date", [T.Format "20060102T150405Z"])] ++
      (if creds.SessionToken = "" then [] else [("x-amz-security-token", [creds.SessionToken])]) := by
  have hr := stsproof.sts_createRequest_eq
  rw [Build_signedHeaders creds _ _ _ _ _ (by rw [hr]; exact sts_port) (by rw [hr]; decide), hr]
  by_cases htok : creds.SessionToken = ""
  · rw [setRequired_noToken creds T _ htok, if_pos htok, (canonicalHeaders_body_noToken _ _ _).1]
    rfl
  · rw [setRequired_token creds T _ htok, if_neg htok, (canonicalHeaders_body_token _ _ _ _).1]
    rfl

theorem stsproof.verifyRequest_fields (ip : stsproof.Proof) (c : Client) :
    (stsproof.verifyRequest ip ⟨c, ""⟩).Method = "POST" ∧
    (stsproof.verifyRequest ip ⟨c, ""⟩).Host = "sts.amazonaws.com" ∧
    (stsproof.verifyRequest ip ⟨c, ""⟩).URL = ⟨"https", "sts.amazonaws.com", "/", ""⟩ ∧
    (stsproof.verifyRequest ip ⟨c, ""⟩).Body = "Action=GetCallerIdentity&Version=2011-06-15" ∧
    (stsproof.verifyRequest ip ⟨c, ""⟩).ContentLength = 43 := by
  refine ⟨?_, ?_, ?_, ?_, ?_⟩ <;> rfl

/-- Every header signed at creation is on the request replayed by `stsproof`, with its value. -/
theorem stsproof.signed_headers_replayed (creds : Credentials) (T : Time) (sig : String)
    (c : Client) (name : String) (vals : List String)
    (h : (name, vals) ∈ (Build creds stsproof.createRequest stsproof.payloadHash "sts" "us-east-1"
      T.UTC).SignedHeaders.entries) :
    (stsproof.verifyRequest ⟨sig, T, creds.SessionToken⟩ ⟨c, ""⟩).headerValues name = some vals := by
  obtain ⟨-, hHost, -, -, hLen⟩ := stsproof.verifyRequest_fields ⟨sig, T, creds.SessionToken⟩ c
  have hH := stsproof.sts_verifyRequest_header ⟨sig, T, creds.SessionToken⟩ ⟨c, ""⟩
  rw [stsproof.signedHeaders_entries] at h
  by_cases htok : creds.SessionToken = ""
  · simp only [htok, if_true, List.append_nil, List.mem_cons, Prod.mk.injEq, List.mem_nil_iff,
      or_false] at h
    rcases h with ⟨rfl, rfl⟩ | ⟨rfl, rfl⟩ | ⟨rfl, rfl⟩
    · simp [Request.headerValues, hHost]
    · simp [Request.headerValues, hLen]; decide
    · simp [Request.headerValues, hH, lower_userAgent, lower_acceptEncoding, lower_contentType,
        lower_contentLength, lower_securityToken, lower_amzDate]
  · simp only [htok, if_false, List.mem_append, List.mem_cons, Prod.mk.injEq, List.mem_nil_iff,
      or_false] at h
    rcases h with (⟨rfl, rfl⟩ | ⟨rfl, rfl⟩ | ⟨rfl, rfl⟩) | ⟨rfl, rfl⟩
    · simp [Request.headerValues, hHost]
    · simp [Request.headerValues, hLen]; decide
    · simp [Request.headerValues, hH, lower_userAgent, lower_acceptEncoding, lower_contentType,
        lower_contentLength, lower_securityToken, lower_amzDate]
    · simp [Request.headerValues, hH, lower_userAgent, lower_acceptEncoding, lower_contentType,
        lower_contentLength, lower_securityToken, lower_amzDate]


/-- The headers that are signed in the organization-lookup request of package `aws`. -/
theorem aws.orgSignedHeaders_entries (creds : Credentials) (o : aws.ProveOptions) (T : Time) :
    (Build creds (aws.orgCreateRequest o) aws.orgPayloadHash "organizations" "us-east-1"
        T).SignedHeaders.entries =
      [("host", ["organizations.us-east-1.amazonaws.com"]),
        ("x-amz-date", [T.Format "20060102T150405Z"])] ++
      (if creds.SessionToken = "" then [] else [("x-amz-security-token", [creds.SessionToken])]) := by
  have hr := aws.orgCreateRequest_eq o
  rw [Build_signedHeaders creds _ _ _ _ _ (by rw [hr]; exact org_port)
    (by rw [hr]; show "organizations.us-east-1.amazonaws.com" ≠ ""; decide), hr]
  by_cases htok : creds.SessionToken = ""
  · rw [setRequired_noToken creds T _ htok, if_pos htok, (canonicalHeaders_empty_noToken _ _ _).1]
    rfl
  · rw [setRequired_token creds T _ htok, if_neg htok, (canonicalHeaders_empty_token _ _ _ _).1]
    rfl

theorem aws.orgVerifyRequest_fields (op : aws.OrganisationProof) (o : aws.IdentityVerifyOptions) :
    (aws.orgVerifyRequest op o).Method = "POST" ∧
    (aws.orgVerifyRequest op o).Host = "organizations.us-east-1.amazonaws.com" ∧
    (aws.orgVerifyRequest op o).URL = ⟨"https", "organizations.us-east-1.amazonaws.com", "/", ""⟩ ∧
    (aws.orgVerifyRequest op o).Body = "" ∧
    (aws.orgVerifyRequest op o).ContentLength = 0 := by
  refine ⟨?_, ?_, ?_, ?_, ?_⟩ <;> rfl

/-- Every header signed at creation is on the request replayed by `aws.OrganisationProof.Verify`,
with its value. -/
theorem aws.org_signed_headers_replayed (creds : Credentials) (po : aws.ProveOptions) (T : Time)
    (sig : String) (o : aws.IdentityVerifyOptions) (name : String) (vals : List String)
    (h : (name, vals) ∈ (Build creds (aws.orgCreateRequest po) aws.orgPayloadHash "organizations"
      "us-east-1" T.UTC).SignedHeaders.entries) :
    (aws.orgVerifyRequest ⟨sig, T, creds.SessionToken⟩ o).headerValues name = some vals := by
  obtain ⟨-, hHost, -, -, -⟩ := aws.orgVerifyRequest_fields ⟨sig, T, creds.SessionToken⟩ o
  have hH := aws.orgVerifyRequest_header ⟨sig, T, creds.SessionToken⟩ o
  rw [aws.orgSignedHeaders_entries] at h
  by_cases htok : creds.SessionToken = ""
  · simp only [htok, if_true, List.append_nil, List.mem_cons, Prod.mk.injEq, List.mem_nil_iff,
      or_false] at h
    rcases h with ⟨rfl, rfl⟩ | ⟨rfl, rfl⟩
    · simp [Request.headerValues, hHost]
    · simp [Request.headerValues, hH, lower_userAgent, lower_contentType, lower_amzTarget,
        lower_securityToken, lower_amzDate]
  · simp only [htok, if_false, List.mem_append, List.mem_cons, Prod.mk.injEq, List.mem_nil_iff,
      or_false] at h
    rcases h with (⟨rfl, rfl⟩ | ⟨rfl, rfl⟩) | ⟨rfl, rfl⟩
    · simp [Request.headerValues, hHost]
    · simp [Request.headerValues, hH, lower_userAgent, lower_contentType, lower_amzTarget,
        lower_securityToken, lower_amzDate]
    · simp [Request.headerValues, hH, lower_userAgent, lower_contentType, lower_amzTarget,
        lower_securityToken, lower_amzDate]


/-- What the identity verifier of `stsproof` returns for a response. -/
theorem stsproof.VerifyWithOpts_response (ip : stsproof.Proof) (opts : stsproof.VerifyOpts)
    (resp : Response) (h : opts.Client.Do (stsproof.verifyRequest ip opts) = .ok resp) :
    ip.VerifyWithOpts opts =
      match resp.Body with
      | .error e => .error e
      | .ok body =>
        match xml.Unmarshal body with
        | .error e => .error e
        | .ok res => .ok ⟨res.GetCallerIdentityResult.ARN, res.GetCallerIdentityResult.UserID,
            res.GetCallerIdentityResult.Account⟩ := by
  simp only [stsproof.Proof.VerifyWithOpts, h, bind, Except.bind, pure, Except.pure]
  cases resp.Body with
  | error e => rfl
  | ok body =>
    simp only []
    cases xml.Unmarshal body <;> rfl

/-- What the identity verifier of `aws` returns for a response. -/
theorem aws.IdentityProof.Verify_response (env : Env) (ip : aws.IdentityProof)
    (opts : List aws.IdentityVerifyOption) (resp : Response)
    (h : (aws.verifyOptions env opts).client.Do
      (aws.identityVerifyRequest ip (aws.verifyOptions env opts)) = .ok resp) :
    ip.Verify env opts =
      match resp.Body with
      | .error e => .error e
      | .ok body =>
        match xml.Unmarshal body with
        | .error e => .error e
        | .ok res => .ok ⟨res.GetCallerIdentityResult.ARN, res.GetCallerIdentityResult.UserID,
            res.GetCallerIdentityResult.Account⟩ := by
  simp only [aws.IdentityProof.Verify, h, bind, Except.bind, pure, Except.pure]
  cases resp.Body with
  | error e => rfl
  | ok body =>
    simp only []
    cases xml.Unmarshal body <;> rfl

/-- What the organization verifier of `orgproof` returns for a response whose status is not
200. -/
theorem orgproof.VerifyWithOpts_failed (op : orgproof.OrganizationProof)
    (opts : orgproof.VerifyOpts) (resp : Response)
    (h : opts.Client.Do (orgproof.verifyRequest op opts) = .ok resp)
    (hc : resp.StatusCode ≠ 200) :
    op.VerifyWithOpts opts =
      match resp.Body with
      | .error err => .error ("error while reading response body from failed API call (code " ++
          strconv.Itoa resp.StatusCode ++ "): " ++ err)
      | .ok resbody => .error ("AWS Organizations API call failed with code " ++
          strconv.Itoa resp.StatusCode ++ ": " ++ resbody) := by
  have hne : (resp.StatusCode != StatusOK) = true := by simpa [StatusOK] using hc
  simp only [orgproof.OrganizationProof.VerifyWithOpts, h, bind, Except.bind, hne, if_true]

/-- What the organization verifier of `orgproof` returns for a response of status 200. -/
theorem orgproof.org_VerifyWithOpts_ok (op : orgproof.OrganizationProof)
    (opts : orgproof.VerifyOpts) (resp : Response)
    (h : opts.Client.Do (orgproof.verifyRequest op opts) = .ok resp)
    (hc : resp.StatusCode = 200) :
    op.VerifyWithOpts opts =
      match resp.Body with
      | .error e => .error e
      | .ok body =>
        match json.Decode body with
        | .error e => .error e
        | .ok res => .ok
          { ARN := res.Organization.Arn,
            ID := res.Organization.ID,
            AvailablePolicyTypes := orgproof.policyTypes res.Organization.AvailablePolicyTypes,
            FeatureSet := res.Organization.FeatureSet,
            MainAccountARN := res.Organization.MasterAccountArn,
            MainAccountEmail := res.Organization.MasterAccountEmail,
            MainAccountID := res.Organization.MasterAccountID } := by
  have hne : (resp.StatusCode != StatusOK) = false := by simp [StatusOK, hc]
  simp only [orgproof.OrganizationProof.VerifyWithOpts, h, bind, Except.bind, hne,
    Bool.false_eq_true, if_false, pure, Except.pure]
  cases resp.Body with
  | error e => rfl
  | ok body =>
    simp only []
    cases json.Decode body <;> rfl

/-- What the organization verifier of `aws` returns for a response whose status is not 200. -/
theorem aws.OrganisationProof.Verify_failed (env : Env) (op : aws.OrganisationProof)
    (opts : List aws.IdentityVerifyOption) (resp : Response)
    (h : (aws.verifyOptions env opts).client.Do
      (aws.orgVerifyRequest op (aws.verifyOptions env opts)) = .ok resp)
    (hc : resp.StatusCode ≠ 200) :
    op.Verify env opts =
      match resp.Body with
      | .error err => .error ("error while reading response body from failed API call (code " ++
          strconv.Itoa resp.StatusCode ++ "): " ++ err)
      | .ok resbody => .error ("AWS Organizations API call failed with code " ++
          strconv.Itoa resp.StatusCode ++ ": " ++ resbody) := by
  have hne : (resp.StatusCode != StatusOK) = true := by simpa [StatusOK] using hc
  simp only [aws.OrganisationProof.Verify, h, bind, Except.bind, hne, if_true]

/-- What the organization verifier of `aws` returns for a response of status 200. -/
theorem aws.OrganisationProof.Verify_ok (env : Env) (op : aws.OrganisationProof)
    (opts : List aws.IdentityVerifyOption) (resp : Response)
    (h : (aws.verifyOptions env opts).client.Do
      (aws.orgVerifyRequest op (aws.verifyOptions env opts)) = .ok resp)
    (hc : resp.StatusCode = 200) :
    op.Verify env opts =
      match resp.Body with
      | .error e => .error e
      | .ok body =>
        match json.Decode body with
        | .error e => .error e
        | .ok res => .ok
          { ARN := res.Organization.Arn,
            ID := res.Organization.ID,
            AvailablePolicyTypes := aws.policyTypes res.Organization.AvailablePolicyTypes,
            FeatureSet := res.Organization.FeatureSet,
            MainAccountARN := res.Organization.MasterAccountArn,
            MainAccountEmail := res.Organization.MasterAccountEmail,
            MainAccountID := res.Organization.MasterAccountID } := by
  have hne : (resp.StatusCode != StatusOK) = false := by simp [StatusOK, hc]
  simp only [aws.OrganisationProof.Verify, h, bind, Except.bind, hne,
    Bool.false_eq_true, if_false, pure, Except.pure]
  cases resp.Body with
  | error e => rfl
  | ok body =>
    simp only []
    cases json.Decode body <;> rfl

/-! ## What the signature does not cover -/

/-- The signer does not read the `User-Agent` header. -/
theorem signer.canonicalHeaders_skip_userAgent (host ua : String)
    (rest : List (String × List String)) (n : Int) :
    buildCanonicalHeaders host ⟨("User-Agent", [ua]) :: rest⟩ n =
      buildCanonicalHeaders host ⟨rest⟩ n := by
  have hi : IgnoredHeaders.contains "User-Agent" = true := by decide
  unfold buildCanonicalHeaders
  simp only [collectHeaders, hi, if_true]

/-- The required signing fields are added behind the `User-Agent` header. -/
theorem signer.setRequired_cons (creds : Credentials) (t : Time) :
    ∃ rest : List (String × List String),
      ∀ ua : String, setRequiredSigningFields creds t ⟨[("User-Agent", [ua])]⟩ =
        ⟨("User-Agent", [ua]) :: rest⟩ := by
  by_cases htok : creds.SessionToken = ""
  · exact ⟨_, fun ua => setRequired_noToken creds t ua htok⟩
  · exact ⟨_, fun ua => setRequired_token creds t ua htok⟩

/-- The `Authorization` value does not depend on the `User-Agent` header of the request. -/
theorem signer.authorization_userAgent (creds : Credentials) (r1 r2 : Request)
    (ph service region ua1 ua2 : String) (t : Time)
    (hport : portOnly r1.Host = "") (hhost : r1.Host ≠ "")
    (h1 : r1.Header = ⟨[("User-Agent", [ua1])]⟩) (h2 : r2 = { r1 with Header := ⟨[("User-Agent", [ua2])]⟩ }) :
    (Build creds r1 ph service region t).Request.Header.Get "Authorization" =
      (Build creds r2 ph service region t).Request.Header.Get "Authorization" := by
  subst h2
  obtain ⟨a1, ha1, hb1⟩ := Build_header_userAgent creds r1 ph service region ua1 t hport hhost h1
  obtain ⟨a2, ha2, hb2⟩ := Build_header_userAgent creds
    { r1 with Header := ⟨[("User-Agent", [ua2])]⟩ } ph service region ua2 t hport hhost rfl
  obtain ⟨rest, hrest⟩ := setRequired_cons creds t
  have hg1 : (Build creds r1 ph service region t).Request.Header.Get "Authorization" = a1 := by
    rw [hb1]
    by_cases htok : creds.SessionToken = "" <;>
      simp [htok, Header.Get, Header.values, canonicalKey_authorization]
  have hg2 : (Build creds { r1 with Header := ⟨[("User-Agent", [ua2])]⟩ } ph service region
      t).Request.Header.Get "Authorization" = a2 := by
    rw [hb2]
    by_cases htok : creds.SessionToken = "" <;>
      simp [htok, Header.Get, Header.values, canonicalKey_authorization]
  rw [hg1, hg2, ha1, ha2,
    Build_unfold creds r1 ph service region t hport hhost,
    Build_unfold creds { r1 with Header := ⟨[("User-Agent", [ua2])]⟩ } ph service region t hport hhost]
  simp only [h1, hrest, canonicalHeaders_skip_userAgent]


/-- The headers that are signed in the organization-lookup request of `orgproof`. -/
theorem orgproof.org_signedHeaders_entries (creds : Credentials) (T : Time) :
    (Build creds orgproof.createRequest orgproof.payloadHash "organizations" "us-east-1"
        T).SignedHeaders.entries =
      [("host", ["organizations.us-east-1.amazonaws.com"]),
        ("x-amz-date", [T.Format "20060102T150405Z"])] ++
      (if creds.SessionToken = "" then [] else [("x-amz-security-token", [creds.SessionToken])]) := by
  have hr := orgproof.org_createRequest_eq
  rw [Build_signedHeaders creds _ _ _ _ _ (by rw [hr]; exact org_port) (by rw [hr]; decide), hr]
  by_cases htok : creds.SessionToken = ""
  · rw [setRequired_noToken creds T _ htok, if_pos htok, (canonicalHeaders_empty_noToken _ _ _).1]
    rfl
  · rw [setRequired_token creds T _ htok, if_neg htok, (canonicalHeaders_empty_token _ _ _ _).1]
    rfl

/-- Setting `X-Amz-Target` on a signed request leaves its `Authorization` header as it is. -/
theorem signer.authorization_after_target (creds : Credentials) (r : Request)
    (ph service region ua v : String) (t : Time) (hport : portOnly r.Host = "") (hhost : r.Host ≠ "")
    (hH : r.Header = ⟨[("User-Agent", [ua])]⟩) :
    ((Build creds r ph service region t).Request.Header.Set "X-Amz-Target" v).Get "Authorization" =
      (Build creds r ph service region t).Request.Header.Get "Authorization" := by
  obtain ⟨auth, -, hb⟩ := Build_header_userAgent creds r ph service region ua t hport hhost hH
  rw [hb]
  by_cases htok : creds.SessionToken = "" <;>
    simp [htok, Header.Set, Header.assign, Header.Get, Header.values, canonicalKey_authorization,
      canonicalKey_amzTarget]

/-! ## The JSON names of the proof fields -/

/-- Serialising a proof whose time has the RFC 3339 text `text`. -/
theorem json.marshalProof_ok (sigKey tokKey sig tok text : String) (t : Time)
    (hm : t.MarshalJSON = .ok text) :
    json.marshalProof sigKey tokKey ⟨sig, t, tok⟩ =
      .ok (.object [(sigKey, .string sig), ("time", .string text), (tokKey, .string tok)]) := by
  show (match t.MarshalJSON with
    | .error e => Except.error ("json: error calling MarshalJSON for type time.Time: " ++ e)
    | .ok text => Except.ok (json.Value.object [(sigKey, .string sig), ("time", .string text),
        (tokKey, .string tok)])) = _
  rw [hm]

/-- Decoding an object with the three members of a proof whose names are the ones of the
struct. -/
theorem json.unmarshalProof_same (k1 k3 sig tok text : String) (t : Time)
    (h1 : json.keyIs k1 k1 = true) (h21 : json.keyIs "time" k1 = false)
    (h31 : json.keyIs k3 k1 = false) (h32 : json.keyIs k3 "time" = false)
    (h3 : json.keyIs k3 k3 = true) (hu : Time.UnmarshalJSON text = .ok t) :
    json.unmarshalProof k1 k3
        (.object [(k1, .string sig), ("time", .string text), (k3, .string tok)]) =
      .ok ⟨sig, t, tok⟩ := by
  have h2 : json.keyIs "time" "time" = true := by decide
  simp only [json.unmarshalProof, json.fillProof, h1, h21, h2, h31, h32, h3, json.decodeString,
    json.decodeTime, hu, if_true, Bool.false_eq_true, if_false]

/-- Decoding an object whose third member has a name that the struct does not have: the
session token stays empty. -/
theorem json.unmarshalProof_otherToken (k1 k3 k3o sig tok text : String) (t : Time)
    (h1 : json.keyIs k1 k1 = true) (h21 : json.keyIs "time" k1 = false)
    (h31 : json.keyIs k3o k1 = false) (h32 : json.keyIs k3o "time" = false)
    (h3 : json.keyIs k3o k3 = false) (hu : Time.UnmarshalJSON text = .ok t) :
    json.unmarshalProof k1 k3
        (.object [(k1, .string sig), ("time", .string text), (k3o, .string tok)]) =
      .ok ⟨sig, t, ""⟩ := by
  have h2 : json.keyIs "time" "time" = true := by decide
  simp only [json.unmarshalProof, json.fillProof, h1, h21, h2, h31, h32, h3, json.decodeString,
    json.decodeTime, hu, if_true, Bool.false_eq_true, if_false]

/-- Decoding an object whose first member has a name that the struct does not have: the
`Authorization` value stays empty. -/
theorem json.unmarshalProof_otherSignature (k1 k3 k1o sig tok text : String) (t : Time)
    (h1 : json.keyIs k1o k1 = false) (h12 : json.keyIs k1o "time" = false)
    (h13 : json.keyIs k1o k3 = false) (h21 : json.keyIs "time" k1 = false)
    (h31 : json.keyIs k3 k1 = false) (h32 : json.keyIs k3 "time" = false)
    (h3 : json.keyIs k3 k3 = true) (hu : Time.UnmarshalJSON text = .ok t) :
    json.unmarshalProof k1 k3
        (.object [(k1o, .string sig), ("time", .string text), (k3, .string tok)]) =
      .ok ⟨"", t, tok⟩ := by
  have h2 : json.keyIs "time" "time" = true := by decide
  simp only [json.unmarshalProof, json.fillProof, h1, h12, h13, h21, h2, h31, h32, h3,
    json.decodeString, json.decodeTime, hu, if_true, Bool.false_eq_true, if_false]

/-- Decoding an object of which only the member `time` has a name of the struct. -/
theorem json.unmarshalProof_otherBoth (k1 k3 k1o k3o sig tok text : String) (t : Time)
    (h1 : json.keyIs k1o k1 = false) (h12 : json.keyIs k1o "time" = false)
    (h13 : json.keyIs k1o k3 = false) (h21 : json.keyIs "time" k1 = false)
    (h31 : json.keyIs k3o k1 = false) (h32 : json.keyIs k3o "time" = false)
    (h3 : json.keyIs k3o k3 = false) (hu : Time.UnmarshalJSON text = .ok t) :
    json.unmarshalProof k1 k3
        (.object [(k1o, .string sig), ("time", .string text), (k3o, .string tok)]) =
      .ok ⟨"", t, ""⟩ := by
  have h2 : json.keyIs "time" "time" = true := by decide
  simp only [json.unmarshalProof, json.fillProof, h1, h12, h13, h21, h2, h31, h32, h3,
    json.decodeString, json.decodeTime, hu, if_true, Bool.false_eq_true, if_false]

/-! ## Decoding the organization response -/

/-- The copy loop of `orgproof` keeps the entries and their order. -/
theorem orgproof.org_policyTypes_map (items : List json.PolicyType) :
    orgproof.policyTypes items = items.map fun a => ⟨a.Status, a.Type_⟩ := by
  have h : ∀ (acc : List orgproof.AvailablePolicyType),
      items.foldl (fun apts a => apts ++ [{ Status := a.Status, Type_ := a.Type_ }]) acc =
        acc ++ items.map fun a => ⟨a.Status, a.Type_⟩ := by
    induction items with
    | nil => intro acc; simp
    | cons a rest ih => intro acc; simp [ih]
  simpa [orgproof.policyTypes] using h []

/-- The copy loop of `aws` keeps the entries and their order. -/
theorem aws.aws_policyTypes_map (items : List json.PolicyType) :
    aws.policyTypes items = items.map fun a => ⟨a.Status, a.Type_⟩ := by
  have h : ∀ (acc : List aws.AvailablePolicyType),
      items.foldl (fun apts a => apts ++ [{ Status := a.Status, Type_ := a.Type_ }]) acc =
        acc ++ items.map fun a => ⟨a.Status, a.Type_⟩ := by
    induction items with
    | nil => intro acc; simp
    | cons a rest ih => intro acc; simp [ih]
  simpa [aws.policyTypes] using h []

/-- The decoder joins the two `\u` escapes of a surrogate pair into one character, and gives
the replacement character for a surrogate that has no partner. -/
theorem json.parse_surrogates :
    json.parse "\"\\ud83d\\ude00 \\ud83d \\ude00x\"" =
      .ok (.string (String.mk [Char.ofNat 0x1F600, ' ', Char.ofNat 0xFFFD, ' ',
        Char.ofNat 0xFFFD, 'x'])) := by
  rfl

namespace json

theorem valuesOf_cons (name k : String) (v : Value) (rest : List (String × Value)) :
    valuesOf name ((k, v) :: rest) =
      if keyIs k name then v :: valuesOf name rest else valuesOf name rest := by
  unfold valuesOf
  by_cases h : keyIs k name = true
  · simp [List.filter_cons, h]
  · simp [List.filter_cons, h]

/-- A key selects one field at most. -/
theorem keyIs_excl (k a b : String) (h : keyIs k a = true) (hab : keyIs a b = false) :
    keyIs k b = false := by
  cases hb : keyIs k b with
  | false => rfl
  | true =>
    simp only [keyIs, beq_iff_eq] at h hb
    have : keyIs a b = true := by simp only [keyIs, beq_iff_eq]; exact h.symm.trans hb
    rw [this] at hab
    exact absurd hab (by decide)

theorem decodeString_isString (field old : String) (v : Value) (h : isString v = true) :
    decodeString field old v = .ok (storeString old v) := by
  cases v <;> first | rfl | (simp [isString] at h)

/-- The decoder on an object whose members `Status` and `Type` are strings: each field has the
string of the last member of its name. -/
theorem fillPolicyType_strings (m : List (String × Value)) :
    ∀ r : PolicyType, ((valuesOf "Status" m).all isString) = true →
      ((valuesOf "Type" m).all isString) = true →
      fillPolicyType r m = .ok ⟨(valuesOf "Status" m).foldl storeString r.Status,
        (valuesOf "Type" m).foldl storeString r.Type_⟩ := by
  induction m with
  | nil => intro r _ _; rfl
  | cons kv rest ih =>
    obtain ⟨k, v⟩ := kv
    intro r hS hT
    rw [fillPolicyType]
    by_cases hk : keyIs k "Status" = true
    · have e := keyIs_excl k "Status" "Type" hk (by decide)
      simp only [valuesOf_cons, hk, e, if_true, Bool.false_eq_true, if_false, List.all_cons,
        Bool.and_eq_true, List.foldl_cons] at hS hT ⊢
      rw [decodeString_isString _ _ _ hS.1]
      exact ih _ hS.2 hT
    · have hk2 : keyIs k "Status" = false := by simpa using hk
      by_cases hk3 : keyIs k "Type" = true
      · simp only [valuesOf_cons, hk2, hk3, if_true, Bool.false_eq_true, if_false, List.all_cons,
          Bool.and_eq_true, List.foldl_cons] at hS hT ⊢
        rw [decodeString_isString _ _ _ hT.1]
        exact ih _ hS hT.2
      · have hk4 : keyIs k "Type" = false := by simpa using hk3
        simp only [valuesOf_cons, hk2, hk4, Bool.false_eq_true, if_false] at hS hT ⊢
        exact ih _ hS hT

/-- What an item of `AvailablePolicyTypes` with the status and the type `st` is: an object
with one member `Status` and one member `Type`, which are these strings. -/
theorem decodePolicyTypes_items (items : List Value) (pts : List (String × String))
    (h : List.Forall₂ (fun item st => ∃ m, item = Value.object m ∧
      valuesOf "Status" m = [.string st.1] ∧ valuesOf "Type" m = [.string st.2]) items pts) :
    decodePolicyTypes [] items = .ok (pts.map fun st => ⟨st.1, st.2⟩) := by
  induction h with
  | nil => rfl
  | cons hx _ ih =>
    obtain ⟨m, rfl, hS, hT⟩ := hx
    simp only [decodePolicyTypes, List.headD_nil, List.tail_nil, List.map_cons]
    rw [fillPolicyType_strings m PolicyType.zero (by rw [hS]; rfl) (by rw [hT]; rfl), hS, hT]
    simp only [ih]
    rfl


/-- The decoder on the members of an `Organization` object that has no member
`AvailablePolicyTypes` and whose members of the name of a string field are strings. -/
theorem fillOrganization_strings (ms : List (String × Value)) :
    ∀ (r : OrganizationFields) (spare : List PolicyType),
      ((valuesOf "Arn" ms).all isString) = true →
      ((valuesOf "FeatureSet" ms).all isString) = true →
      ((valuesOf "Id" ms).all isString) = true →
      ((valuesOf "MasterAccountArn" ms).all isString) = true →
      ((valuesOf "MasterAccountEmail" ms).all isString) = true →
      ((valuesOf "MasterAccountId" ms).all isString) = true →
      valuesOf "AvailablePolicyTypes" ms = [] →
      fillOrganization r spare ms = .ok
        ({ Arn := (valuesOf "Arn" ms).foldl storeString r.Arn,
           AvailablePolicyTypes := r.AvailablePolicyTypes,
           FeatureSet := (valuesOf "FeatureSet" ms).foldl storeString r.FeatureSet,
           ID := (valuesOf "Id" ms).foldl storeString r.ID,
           MasterAccountArn := (valuesOf "MasterAccountArn" ms).foldl storeString r.MasterAccountArn,
           MasterAccountEmail := (valuesOf "MasterAccountEmail" ms).foldl storeString r.MasterAccountEmail,
           MasterAccountID := (valuesOf "MasterAccountId" ms).foldl storeString r.MasterAccountID }, spare) := by
  induction ms with
  | nil => intro r spare _ _ _ _ _ _ _; rfl
  | cons kv rest ih =>
    obtain ⟨k, v⟩ := kv
    intro r spare h1 h2 h3 h4 h5 h6 h7

    by_cases hk : keyIs k "Arn" = true
    · simp only [fillOrganization, valuesOf_cons, hk, (keyIs_excl k "Arn" "AvailablePolicyTypes" hk (by decide)), (keyIs_excl k "Arn" "FeatureSet" hk (by decide)), (keyIs_excl k "Arn" "Id" hk (by decide)), (keyIs_excl k "Arn" "MasterAccountArn" hk (by decide)), (keyIs_excl k "Arn" "MasterAccountEmail" hk (by decide)), (keyIs_excl k "Arn" "MasterAccountId" hk (by decide)),
        if_true, Bool.false_eq_true, if_false, List.all_cons, Bool.and_eq_true,
        List.foldl_cons] at h1 h2 h3 h4 h5 h6 h7 ⊢
      rw [decodeString_isString _ _ _ h1.1]
      exact ih _ _ h1.2 h2 h3 h4 h5 h6 h7
    · have n0 : keyIs k "Arn" = false := by simpa using hk
      clear hk
      by_cases hk : keyIs k "AvailablePolicyTypes" = true
      · simp only [valuesOf_cons, hk, if_true] at h7
        exact absurd h7 (by simp)
      · have n1 : keyIs k "AvailablePolicyTypes" = false := by simpa using hk
        clear hk
        by_cases hk : keyIs k "FeatureSet" = true
        · simp only [fillOrganization, valuesOf_cons, hk, (keyIs_excl k "FeatureSet" "Arn" hk (by decide)), (keyIs_excl k "FeatureSet" "AvailablePolicyTypes" hk (by decide)), (keyIs_excl k "FeatureSet" "Id" hk (by decide)), (keyIs_excl k "FeatureSet" "MasterAccountArn" hk (by decide)), (keyIs_excl k "FeatureSet" "MasterAccountEmail" hk (by decide)), (keyIs_excl k "FeatureSet" "MasterAccountId" hk (by decide)),
            if_true, Bool.false_eq_true, if_false, List.all_cons, Bool.and_eq_true,
            List.foldl_cons] at h1 h2 h3 h4 h5 h6 h7 ⊢
          rw [decodeString_isString _ _ _ h2.1]
          exact ih _ _ h1 h2.2 h3 h4 h5 h6 h7
        · have n2 : keyIs k "FeatureSet" = false := by simpa using hk
          clear hk
          by_cases hk : keyIs k "Id" = true
          · simp only [fillOrganization, valuesOf_cons, hk, (keyIs_excl k "Id" "Arn" hk (by decide)), (keyIs_excl k "Id" "AvailablePolicyTypes" hk (by decide)), (keyIs_excl k "Id" "FeatureSet" hk (by decide)), (keyIs_excl k "Id" "MasterAccountArn" hk (by decide)), (keyIs_excl k "Id" "MasterAccountEmail" hk (by decide)), (keyIs_excl k "Id" "MasterAccountId" hk (by decide)),
              if_true, Bool.false_eq_true, if_false, List.all_cons, Bool.and_eq_true,
              List.foldl_cons] at h1 h2 h3 h4 h5 h6 h7 ⊢
            rw [decodeString_isString _ _ _ h3.1]
            exact ih _ _ h1 h2 h3.2 h4 h5 h6 h7
          · have n3 : keyIs k "Id" = false := by simpa using hk
            clear hk
            by_cases hk : keyIs k "MasterAccountArn" = true
            · simp only [fillOrganization, valuesOf_cons, hk, (keyIs_excl k "MasterAccountArn" "Arn" hk (by decide)), (keyIs_excl k "MasterAccountArn" "AvailablePolicyTypes" hk (by decide)), (keyIs_excl k "MasterAccountArn" "FeatureSet" hk (by decide)), (keyIs_excl k "MasterAccountArn" "Id" hk (by decide)), (keyIs_excl k "MasterAccountArn" "MasterAccountEmail" hk (by decide)), (keyIs_excl k "MasterAccountArn" "MasterAccountId" hk (by decide)),
                if_true, Bool.false_eq_true, if_false, List.all_cons, Bool.and_eq_true,
                List.foldl_cons] at h1 h2 h3 h4 h5 h6 h7 ⊢
              rw [decodeString_isString _ _ _ h4.1]
              exact ih _ _ h1 h2 h3 h4.2 h5 h6 h7
            · have n4 : keyIs k "MasterAccountArn" = false := by simpa using hk
              clear hk
              by_cases hk : keyIs k "MasterAccountEmail" = true
              · simp only [fillOrganization, valuesOf_cons, hk, (keyIs_excl k "MasterAccountEmail" "Arn" hk (by decide)), (keyIs_excl k "MasterAccountEmail" "AvailablePolicyTypes" hk (by decide)), (keyIs_excl k "MasterAccountEmail" "FeatureSet" hk (by decide)), (keyIs_excl k "MasterAccountEmail" "Id" hk (by decide)), (keyIs_excl k "MasterAccountEmail" "MasterAccountArn" hk (by decide)), (keyIs_excl k "MasterAccountEmail" "MasterAccountId" hk (by decide)),
                  if_true, Bool.false_eq_true, if_false, List.all_cons, Bool.and_eq_true,
                  List.foldl_cons] at h1 h2 h3 h4 h5 h6 h7 ⊢
                rw [decodeString_isString _ _ _ h5.1]
                exact ih _ _ h1 h2 h3 h4 h5.2 h6 h7
              · have n5 : keyIs k "MasterAccountEmail" = false := by simpa using hk
                clear hk
                by_cases hk : keyIs k "MasterAccountId" = true
                · simp only [fillOrganization, valuesOf_cons, hk, (keyIs_excl k "MasterAccountId" "Arn" hk (by decide)), (keyIs_excl k "MasterAccountId" "AvailablePolicyTypes" hk (by decide)), (keyIs_excl k "MasterAccountId" "FeatureSet" hk (by decide)), (keyIs_excl k "MasterAccountId" "Id" hk (by decide)), (keyIs_excl k "MasterAccountId" "MasterAccountArn" hk (by decide)), (keyIs_excl k "MasterAccountId" "MasterAccountEmail" hk (by decide)),
                    if_true, Bool.false_eq_true, if_false, List.all_cons, Bool.and_eq_true,
                    List.foldl_cons] at h1 h2 h3 h4 h5 h6 h7 ⊢
                  rw [decodeString_isString _ _ _ h6.1]
                  exact ih _ _ h1 h2 h3 h4 h5 h6.2 h7
                · have n6 : keyIs k "MasterAccountId" = false := by simpa using hk
                  clear hk
                  simp only [fillOrganization, valuesOf_cons, n0, n1, n2, n3, n4, n5, n6, Bool.false_eq_true, if_false] at h1 h2 h3 h4 h5 h6 h7 ⊢
                  exact ih _ _ h1 h2 h3 h4 h5 h6 h7

/-- The decoder on the members of an `Organization` object that has one member
`AvailablePolicyTypes`, an array, and whose members of the name of a string field are
strings, when the slice is empty before. -/
theorem fillOrganization_one (ms : List (String × Value)) (items : List Value)
    (ps : List PolicyType) (hdec : decodePolicyTypes [] items = .ok ps) :
    ∀ (r : OrganizationFields), r.AvailablePolicyTypes = [] →
      ((valuesOf "Arn" ms).all isString) = true →
      ((valuesOf "FeatureSet" ms).all isString) = true →
      ((valuesOf "Id" ms).all isString) = true →
      ((valuesOf "MasterAccountArn" ms).all isString) = true →
      ((valuesOf "MasterAccountEmail" ms).all isString) = true →
      ((valuesOf "MasterAccountId" ms).all isString) = true →
      valuesOf "AvailablePolicyTypes" ms = [.array items] →
      fillOrganization r [] ms = .ok
        ({ Arn := (valuesOf "Arn" ms).foldl storeString r.Arn,
           AvailablePolicyTypes := ps,
           FeatureSet := (valuesOf "FeatureSet" ms).foldl storeString r.FeatureSet,
           ID := (valuesOf "Id" ms).foldl storeString r.ID,
           MasterAccountArn := (valuesOf "MasterAccountArn" ms).foldl storeString r.MasterAccountArn,
           MasterAccountEmail := (valuesOf "MasterAccountEmail" ms).foldl storeString r.MasterAccountEmail,
           MasterAccountID := (valuesOf "MasterAccountId" ms).foldl storeString r.MasterAccountID }, []) := by
  induction ms with
  | nil => intro r _ _ _ _ _ _ _ h7; exact absurd h7 (by simp [valuesOf])
  | cons kv rest ih =>
    obtain ⟨k, v⟩ := kv
    intro r hr h1 h2 h3 h4 h5 h6 h7

    by_cases hk : keyIs k "Arn" = true
    · simp only [fillOrganization, valuesOf_cons, hk, (keyIs_excl k "Arn" "AvailablePolicyTypes" hk (by decide)), (keyIs_excl k "Arn" "FeatureSet" hk (by decide)), (keyIs_excl k "Arn" "Id" hk (by decide)), (keyIs_excl k "Arn" "MasterAccountArn" hk (by decide)), (keyIs_excl k "Arn" "MasterAccountEmail" hk (by decide)), (keyIs_excl k "Arn" "MasterAccountId" hk (by decide)),
        if_true, Bool.false_eq_true, if_false, List.all_cons, Bool.and_eq_true,
        List.foldl_cons] at h1 h2 h3 h4 h5 h6 h7 ⊢
      rw [decodeString_isString _ _ _ h1.1]
      exact ih _ hr h1.2 h2 h3 h4 h5 h6 h7
    · have n0 : keyIs k "Arn" = false := by simpa using hk
      clear hk
      by_cases hk : keyIs k "AvailablePolicyTypes" = true
      · simp only [valuesOf_cons, hk, (keyIs_excl k "AvailablePolicyTypes" "Arn" hk (by decide)), (keyIs_excl k "AvailablePolicyTypes" "FeatureSet" hk (by decide)), (keyIs_excl k "AvailablePolicyTypes" "Id" hk (by decide)), (keyIs_excl k "AvailablePolicyTypes" "MasterAccountArn" hk (by decide)), (keyIs_excl k "AvailablePolicyTypes" "MasterAccountEmail" hk (by decide)), (keyIs_excl k "AvailablePolicyTypes" "MasterAccountId" hk (by decide)),
          if_true, Bool.false_eq_true, if_false, List.cons.injEq] at h1 h2 h3 h4 h5 h6 h7
        obtain ⟨rfl, h7⟩ := h7
        have hps : items.isEmpty = true → ps = [] := by
          intro he
          cases items with
          | nil => simpa [decodePolicyTypes] using hdec.symm
          | cons a l => exact absurd he (by simp)
        simp only [fillOrganization, valuesOf_cons, hk, (keyIs_excl k "AvailablePolicyTypes" "Arn" hk (by decide)), (keyIs_excl k "AvailablePolicyTypes" "FeatureSet" hk (by decide)), (keyIs_excl k "AvailablePolicyTypes" "Id" hk (by decide)), (keyIs_excl k "AvailablePolicyTypes" "MasterAccountArn" hk (by decide)), (keyIs_excl k "AvailablePolicyTypes" "MasterAccountEmail" hk (by decide)), (keyIs_excl k "AvailablePolicyTypes" "MasterAccountId" hk (by decide)),
          if_true, Bool.false_eq_true, if_false, hr, List.nil_append, hdec, List.drop_nil]
        by_cases he : items.isEmpty = true
        · rw [if_pos he, fillOrganization_strings rest _ _ h1 h2 h3 h4 h5 h6 h7, hps he]
        · rw [if_neg he, fillOrganization_strings rest _ _ h1 h2 h3 h4 h5 h6 h7]
      · have n1 : keyIs k "AvailablePolicyTypes" = false := by simpa using hk
        clear hk
        by_cases hk : keyIs k "FeatureSet" = true
        · simp only [fillOrganization, valuesOf_cons, hk, (keyIs_excl k "FeatureSet" "Arn" hk (by decide)), (keyIs_excl k "FeatureSet" "AvailablePolicyTypes" hk (by decide)), (keyIs_excl k "FeatureSet" "Id" hk (by decide)), (keyIs_excl k "FeatureSet" "MasterAccountArn" hk (by decide)), (keyIs_excl k "FeatureSet" "MasterAccountEmail" hk (by decide)), (keyIs_excl k "FeatureSet" "MasterAccountId" hk (by decide)),
            if_true, Bool.false_eq_true, if_false, List.all_cons, Bool.and_eq_true,
            List.foldl_cons] at h1 h2 h3 h4 h5 h6 h7 ⊢
          rw [decodeString_isString _ _ _ h2.1]
          exact ih _ hr h1 h2.2 h3 h4 h5 h6 h7
        · have n2 : keyIs k "FeatureSet" = false := by simpa using hk
          clear hk
          by_cases hk : keyIs k "Id" = true
          · simp only [fillOrganization, valuesOf_cons, hk, (keyIs_excl k "Id" "Arn" hk (by decide)), (keyIs_excl k "Id" "AvailablePolicyTypes" hk (by decide)), (keyIs_excl k "Id" "FeatureSet" hk (by decide)), (keyIs_excl k "Id" "MasterAccountArn" hk (by decide)), (keyIs_excl k "Id" "MasterAccountEmail" hk (by decide)), (keyIs_excl k "Id" "MasterAccountId" hk (by decide)),
              if_true, Bool.false_eq_true, if_false, List.all_cons, Bool.and_eq_true,
              List.foldl_cons] at h1 h2 h3 h4 h5 h6 h7 ⊢
            rw [decodeString_isString _ _ _ h3.1]
            exact ih _ hr h1 h2 h3.2 h4 h5 h6 h7
          · have n3 : keyIs k "Id" = false := by simpa using hk
            clear hk
            by_cases hk : keyIs k "MasterAccountArn" = true
            · simp only [fillOrganization, valuesOf_cons, hk, (keyIs_excl k "MasterAccountArn" "Arn" hk (by decide)), (keyIs_excl k "MasterAccountArn" "AvailablePolicyTypes" hk (by decide)), (keyIs_excl k "MasterAccountArn" "FeatureSet" hk (by decide)), (keyIs_excl k "MasterAccountArn" "Id" hk (by decide)), (keyIs_excl k "MasterAccountArn" "MasterAccountEmail" hk (by decide)), (keyIs_excl k "MasterAccountArn" "MasterAccountId" hk (by decide)),
                if_true, Bool.false_eq_true, if_false, List.all_cons, Bool.and_eq_true,
                List.foldl_cons] at h1 h2 h3 h4 h5 h6 h7 ⊢
              rw [decodeString_isString _ _ _ h4.1]
              exact ih _ hr h1 h2 h3 h4.2 h5 h6 h7
            · have n4 : keyIs k "MasterAccountArn" = false := by simpa using hk
              clear hk
              by_cases hk : keyIs k "MasterAccountEmail" = true
              · simp only [fillOrganization, valuesOf_cons, hk, (keyIs_excl k "MasterAccountEmail" "Arn" hk (by decide)), (keyIs_excl k "MasterAccountEmail" "AvailablePolicyTypes" hk (by decide)), (keyIs_excl k "MasterAccountEmail" "FeatureSet" hk (by decide)), (keyIs_excl k "MasterAccountEmail" "Id" hk (by decide)), (keyIs_excl k "MasterAccountEmail" "MasterAccountArn" hk (by decide)), (keyIs_excl k "MasterAccountEmail" "MasterAccountId" hk (by decide)),
                  if_true, Bool.false_eq_true, if_false, List.all_cons, Bool.and_eq_true,
                  List.foldl_cons] at h1 h2 h3 h4 h5 h6 h7 ⊢
                rw [decodeString_isString _ _ _ h5.1]
                exact ih _ hr h1 h2 h3 h4 h5.2 h6 h7
              · have n5 : keyIs k "MasterAccountEmail" = false := by simpa using hk
                clear hk
                by_cases hk : keyIs k "MasterAccountId" = true
                · simp only [fillOrganization, valuesOf_cons, hk, (keyIs_excl k "MasterAccountId" "Arn" hk (by decide)), (keyIs_excl k "MasterAccountId" "AvailablePolicyTypes" hk (by decide)), (keyIs_excl k "MasterAccountId" "FeatureSet" hk (by decide)), (keyIs_excl k "MasterAccountId" "Id" hk (by decide)), (keyIs_excl k "MasterAccountId" "MasterAccountArn" hk (by decide)), (keyIs_excl k "MasterAccountId" "MasterAccountEmail" hk (by decide)),
                    if_true, Bool.false_eq_true, if_false, List.all_cons, Bool.and_eq_true,
                    List.foldl_cons] at h1 h2 h3 h4 h5 h6 h7 ⊢
                  rw [decodeString_isString _ _ _ h6.1]
                  exact ih _ hr h1 h2 h3 h4 h5 h6.2 h7
                · have n6 : keyIs k "MasterAccountId" = false := by simpa using hk
                  clear hk
                  simp only [fillOrganization, valuesOf_cons, n0, n1, n2, n3, n4, n5, n6, Bool.false_eq_true, if_false] at h1 h2 h3 h4 h5 h6 h7 ⊢
                  exact ih _ hr h1 h2 h3 h4 h5 h6 h7


/-- The decoder on the members of a top-level object that has no member `Organization`. -/
theorem fillResponse_none (top : List (String × Value)) :
    ∀ (r : DescribeOrganizationResponse) (spare : List PolicyType),
      valuesOf "Organization" top = [] → fillResponse r spare top = .ok r := by
  induction top with
  | nil => intro r spare _; rfl
  | cons kv rest ih =>
    obtain ⟨k, v⟩ := kv
    intro r spare h
    by_cases hk : keyIs k "Organization" = true
    · simp only [valuesOf_cons, hk, if_true] at h
      exact absurd h (by simp)
    · have n : keyIs k "Organization" = false := by simpa using hk
      simp only [fillResponse, valuesOf_cons, n, Bool.false_eq_true, if_false] at h ⊢
      exact ih _ _ h

/-- The decoder on the members of a top-level object that has one member `Organization`, an
object that the decoder stores as `o`. -/
theorem fillResponse_one (top ms : List (String × Value)) (o : OrganizationFields)
    (spare2 : List PolicyType)
    (hfill : fillOrganization OrganizationFields.zero [] ms = .ok (o, spare2)) :
    valuesOf "Organization" top = [.object ms] →
      fillResponse DescribeOrganizationResponse.zero [] top = .ok ⟨o⟩ := by
  induction top with
  | nil => intro h; exact absurd h (by simp [valuesOf])
  | cons kv rest ih =>
    obtain ⟨k, v⟩ := kv
    intro h
    by_cases hk : keyIs k "Organization" = true
    · simp only [valuesOf_cons, hk, if_true, List.cons.injEq] at h
      obtain ⟨rfl, h⟩ := h
      simp only [fillResponse, hk, if_true, DescribeOrganizationResponse.zero, hfill]
      exact fillResponse_none rest _ _ h
    · have n : keyIs k "Organization" = false := by simpa using hk
      simp only [fillResponse, valuesOf_cons, n, Bool.false_eq_true, if_false] at h ⊢
      exact ih h

/-- The decoder on a body whose JSON value is an object with one member `Organization`, an
object with one member of each name of the struct, of the type of its field. -/
theorem Decode_organization (body : String) (top ms : List (String × Value))
    (items : List Value) (arn id fs maa mae mai : String) (pts : List (String × String))
    (hbody : parse body = .ok (.object top))
    (horg : valuesOf "Organization" top = [.object ms])
    (harn : valuesOf "Arn" ms = [.string arn])
    (hid : valuesOf "Id" ms = [.string id])
    (hapt : valuesOf "AvailablePolicyTypes" ms = [.array items])
    (hitems : List.Forall₂ (fun item st => ∃ m, item = Value.object m ∧
      valuesOf "Status" m = [.string st.1] ∧ valuesOf "Type" m = [.string st.2]) items pts)
    (hfs : valuesOf "FeatureSet" ms = [.string fs])
    (hmaa : valuesOf "MasterAccountArn" ms = [.string maa])
    (hmae : valuesOf "MasterAccountEmail" ms = [.string mae])
    (hmai : valuesOf "MasterAccountId" ms = [.string mai]) :
    Decode body = .ok ⟨⟨arn, pts.map fun st => ⟨st.1, st.2⟩, fs, id, maa, mae, mai⟩⟩ := by
  have hfill := fillOrganization_one ms items _ (decodePolicyTypes_items items pts hitems)
    OrganizationFields.zero rfl (by rw [harn]; rfl) (by rw [hfs]; rfl) (by rw [hid]; rfl)
    (by rw [hmaa]; rfl) (by rw [hmae]; rfl) (by rw [hmai]; rfl) hapt
  rw [harn, hfs, hid, hmaa, hmae, hmai] at hfill
  simp only [Decode, hbody]
  exact fillResponse_one top ms _ _ hfill horg

end json

/-! ## Bodies that the JSON decoder rejects -/

namespace json

theorem outermost_cons (f g : Frame) (rest : List Frame) :
    outermost (f :: g :: rest) = outermost (g :: rest) := by
  simp [outermost, List.getLast?_cons_cons]

theorem outermost_head (f g : Frame) (rest : List Frame) (h : f.isArray = g.isArray) :
    outermost (f :: rest) = outermost (g :: rest) := by
  cases rest with
  | nil => simp [outermost, h]
  | cons x xs => rw [outermost_cons, outermost_cons]

theorem outermost_replace (f g : Frame) (rest : List Frame) (b : Bool)
    (h : outermost (f :: rest) = some b) (hfg : g.isArray = f.isArray) :
    outermost (g :: rest) = some b :=
  (outermost_head g f rest hfg).trans h

theorem outermost_push (f : Frame) (stack : List Frame) (b : Bool)
    (h : outermost stack = some b) : outermost (f :: stack) = some b := by
  cases stack with
  | nil => simp [outermost] at h
  | cons x xs => rw [outermost_cons]; exact h

theorem keeps_next (b : Bool) (c : Char) (stp : Step) (stack : List Frame)
    (h : outermost stack = some b) : (Outcome.next ⟨stp, stack⟩).keeps b c = true := by
  simp [Outcome.keeps, h]

/-- A complete value inside an array or an object leaves the outermost frame as it is. -/
theorem complete_keeps (b : Bool) (c : Char) (v : Value) (stack : List Frame)
    (h : outermost stack = some b) : (complete v stack).keeps b c = true := by
  cases stack with
  | nil => simp [outermost] at h
  | cons f rest =>
    cases f with
    | array items =>
      exact keeps_next b c _ _ (outermost_replace _ _ rest b h rfl)
    | object ms phase =>
      cases phase <;> exact keeps_next b c _ _ (outermost_replace _ _ rest b h rfl)

theorem completeString_keeps (b : Bool) (c : Char) (s : String) (stack : List Frame)
    (h : outermost stack = some b) : (completeString s stack).keeps b c = true := by
  cases stack with
  | nil => simp [outermost] at h
  | cons f rest =>
    cases f with
    | array items => exact complete_keeps b c (.string s) _ h
    | object ms phase =>
      cases phase with
      | key => exact keeps_next b c _ _ (outermost_replace _ _ rest b h rfl)
      | colon k => exact complete_keeps b c (.string s) _ h
      | value k => exact complete_keeps b c (.string s) _ h
      | next => exact complete_keeps b c (.string s) _ h

/-- The end of an array or of an object: the value goes into the frame around it, or it is
the top-level value. -/
theorem complete_pop (b : Bool) (c : Char) (v : Value) (f : Frame) (rest : List Frame)
    (h : outermost (f :: rest) = some b)
    (hv : rest = [] → (if b then isOther v else c == '\x7d') = true) :
    (complete v rest).keeps b c = true := by
  cases rest with
  | nil => exact hv rfl
  | cons x xs => exact complete_keeps b c v _ ((outermost_cons f x xs).symm.trans h)

theorem endValue_keeps (b : Bool) (c : Char) (stack : List Frame)
    (h : outermost stack = some b) : (endValue stack c).keeps b c = true := by
  cases stack with
  | nil => simp [outermost] at h
  | cons f rest =>
    simp only [endValue]
    split
    · exact keeps_next b c _ _ h
    · cases f with
      | array items =>
        simp only []
        split
        · exact keeps_next b c _ _ h
        · split
          · refine complete_pop b c _ _ rest h (fun hr => ?_)
            subst hr
            have hb : b = true := by simpa [outermost, Frame.isArray] using h.symm
            subst hb
            rfl
          · rfl
      | object ms phase =>
        cases phase with
        | key => rfl
        | value k => rfl
        | colon k =>
          simp only []
          split
          · exact keeps_next b c _ _ (outermost_replace _ _ rest b h rfl)
          · rfl
        | next =>
          simp only []
          split
          · exact keeps_next b c _ _ (outermost_replace _ _ rest b h rfl)
          · split
            · rename_i hc
              refine complete_pop b c _ _ rest h (fun hr => ?_)
              subst hr
              have hb : b = false := by simpa [outermost, Frame.isArray] using h.symm
              subst hb
              simpa using hc
            · rfl

theorem push_keeps (b : Bool) (c : Char) (f : Frame) (stp : Step) (stack : List Frame)
    (h : outermost stack = some b) : (push c f stp stack).keeps b c = true := by
  simp only [push]
  split
  · exact keeps_next b c _ _ (outermost_push f stack b h)
  · rfl

theorem beginValue_keeps (b : Bool) (c : Char) (stack : List Frame)
    (h : outermost stack = some b) : (beginValue stack c).keeps b c = true := by
  simp only [beginValue]
  repeat' split
  all_goals first
    | exact keeps_next b c _ _ h
    | exact push_keeps b c _ _ _ h
    | rfl

theorem beginString_keeps (b : Bool) (c : Char) (stack : List Frame)
    (h : outermost stack = some b) : (beginString stack c).keeps b c = true := by
  simp only [beginString]
  repeat' split
  all_goals first
    | exact keeps_next b c _ _ h
    | rfl

theorem endNumber_keeps (b : Bool) (c : Char) (acc : List Char) (stack : List Frame)
    (h : outermost stack = some b) : (endNumber acc stack c).keeps b c = true := by
  have hk := complete_keeps b c (.number (String.mk acc.reverse)) stack h
  simp only [endNumber]
  cases hc : complete (.number (String.mk acc.reverse)) stack with
  | next s =>
    rw [hc] at hk
    simp only []
    exact endValue_keeps b c _ (by simpa [Outcome.keeps] using hk)
  | done v => rw [hc] at hk; exact hk
  | fail msg => rfl

theorem afterDigits_keeps (b : Bool) (c : Char) (acc : List Char) (stack : List Frame)
    (dot : Bool) (h : outermost stack = some b) :
    (afterDigits acc stack c dot).keeps b c = true := by
  simp only [afterDigits]
  repeat' split
  all_goals first
    | exact keeps_next b c _ _ h
    | exact endNumber_keeps b c _ _ h

/-- A step of the scanner inside an array or an object leaves the outermost frame as it is,
unless it ends the top-level value. -/
theorem step_keeps (b : Bool) (c : Char) (st : State) (h : outermost st.stack = some b) :
    (step st c).keeps b c = true := by
  obtain ⟨stp, stack⟩ := st
  simp only [] at h
  cases stp with
  | beginValue => exact beginValue_keeps b c _ h
  | beginValueOrEmpty =>
    simp only [step]
    repeat' split
    all_goals first
      | exact keeps_next b c _ _ h
      | exact endValue_keeps b c _ h
      | exact beginValue_keeps b c _ h
  | beginStringOrEmpty =>
    simp only [step]
    split
    · exact keeps_next b c _ _ h
    · split
      · split
        · rename_i stk ms ph rest
          exact endValue_keeps b c _ (outermost_replace _ _ rest b h rfl)
        · exact endValue_keeps b c _ h
      · exact beginString_keeps b c _ h
  | beginString => exact beginString_keeps b c _ h
  | endValue => exact endValue_keeps b c _ h
  | inString acc =>
    simp only [step]
    repeat' split
    all_goals first
      | exact keeps_next b c _ _ h
      | exact completeString_keeps b c _ _ h
      | rfl
  | inStringEsc acc =>
    simp only [step]
    repeat' split
    all_goals first
      | exact keeps_next b c _ _ h
      | rfl
  | inStringEscU n acc =>
    simp only [step]
    repeat' split
    all_goals first
      | exact keeps_next b c _ _ h
      | rfl
  | neg acc =>
    simp only [step]
    repeat' split
    all_goals first
      | exact keeps_next b c _ _ h
      | rfl
  | zero acc => exact afterDigits_keeps b c _ _ _ h
  | int acc =>
    simp only [step]
    split
    · exact keeps_next b c _ _ h
    · exact afterDigits_keeps b c _ _ _ h
  | dot acc =>
    simp only [step]
    split
    · exact keeps_next b c _ _ h
    · rfl
  | dot0 acc =>
    simp only [step]
    split
    · exact keeps_next b c _ _ h
    · exact afterDigits_keeps b c _ _ _ h
  | e acc =>
    simp only [step]
    repeat' split
    all_goals first
      | exact keeps_next b c _ _ h
      | rfl
  | eSign acc =>
    simp only [step]
    split
    · exact keeps_next b c _ _ h
    · rfl
  | e0 acc =>
    simp only [step]
    split
    · exact keeps_next b c _ _ h
    · exact endNumber_keeps b c _ _ h
  | lit v name todo =>
    simp only [step]
    cases todo with
    | nil => exact complete_keeps b c _ _ h
    | cons x more =>
      simp only []
      repeat' split
      all_goals first
        | exact keeps_next b c _ _ h
        | exact complete_keeps b c _ _ h
        | rfl

end json

namespace json

theorem readsOther_of_keeps (c : Char) (out : Outcome) (h : out.keeps true c = true) :
    out.readsOther = true := by
  cases out with
  | next s =>
    have : outermost s.stack = some true := by simpa [Outcome.keeps] using h
    simp [Outcome.readsOther, State.readsOther, this]
  | done v => simpa [Outcome.keeps, Outcome.readsOther] using h
  | fail msg => rfl

theorem readsOther_next (stp : Step) (h : stp.readsOther = true) :
    (Outcome.next ⟨stp, []⟩).readsOther = true := by
  simpa [Outcome.readsOther, State.readsOther, outermost] using h

theorem endNumber_nil (acc : List Char) (c : Char) :
    (endNumber acc [] c).readsOther = true := rfl

theorem afterDigits_nil (acc : List Char) (c : Char) (dot : Bool) :
    (afterDigits acc [] c dot).readsOther = true := by
  simp only [afterDigits]
  repeat' split
  all_goals first
    | exact readsOther_next _ rfl
    | exact endNumber_nil _ _

/-- A step of the scanner in a top-level value that is neither an object nor `null`. -/
theorem step_readsOther (st : State) (c : Char) (h : st.readsOther = true) :
    (step st c).readsOther = true := by
  obtain ⟨stp, stack⟩ := st
  cases ho : outermost stack with
  | some b =>
    have hb : b = true := by simpa [State.readsOther, ho] using h
    subst hb
    exact readsOther_of_keeps c _ (step_keeps true c _ ho)
  | none =>
    have hs : stack = [] := by
      cases stack with
      | nil => rfl
      | cons f rest => simp [outermost] at ho
    subst hs
    have hstp : stp.readsOther = true := by simpa [State.readsOther, ho] using h
    cases stp with
    | beginValue => simp [Step.readsOther] at hstp
    | beginValueOrEmpty => simp [Step.readsOther] at hstp
    | beginStringOrEmpty => simp [Step.readsOther] at hstp
    | beginString => simp [Step.readsOther] at hstp
    | endValue => simp [Step.readsOther] at hstp
    | inString acc =>
      simp only [step]
      repeat' split
      all_goals first
        | exact readsOther_next _ rfl
        | rfl
    | inStringEsc acc =>
      simp only [step]
      repeat' split
      all_goals first
        | exact readsOther_next _ rfl
        | rfl
    | inStringEscU n acc =>
      simp only [step]
      repeat' split
      all_goals first
        | exact readsOther_next _ rfl
        | rfl
    | neg acc =>
      simp only [step]
      repeat' split
      all_goals first
        | exact readsOther_next _ rfl
        | rfl
    | zero acc => exact afterDigits_nil _ _ _
    | int acc =>
      simp only [step]
      split
      · exact readsOther_next _ rfl
      · exact afterDigits_nil _ _ _
    | dot acc =>
      simp only [step]
      split
      · exact readsOther_next _ rfl
      · rfl
    | dot0 acc =>
      simp only [step]
      split
      · exact readsOther_next _ rfl
      · exact afterDigits_nil _ _ _
    | e acc =>
      simp only [step]
      repeat' split
      all_goals first
        | exact readsOther_next _ rfl
        | rfl
    | eSign acc =>
      simp only [step]
      split
      · exact readsOther_next _ rfl
      · rfl
    | e0 acc =>
      simp only [step]
      split
      · exact readsOther_next _ rfl
      · exact endNumber_nil _ _
    | lit v name todo =>
      have hv : isOther v = true := by
        simp [Step.readsOther] at hstp
        exact hstp.1
      simp only [step]
      cases todo with
      | nil => exact hv
      | cons x more =>
        simp only []
        split
        · split
          · exact hv
          · rename_i hm
            refine readsOther_next _ ?_
            simp [Step.readsOther, hv, hm]
        · rfl

/-- The end of the stream gives a value only for a number. -/
theorem atEnd_isOther (st : State) (v : Value) (h : atEnd st = .ok v) : isOther v = true := by
  obtain ⟨stp, stack⟩ := st
  cases stack with
  | nil =>
    cases stp <;> simp [atEnd] at h <;> subst h <;> rfl
  | cons f rest => simp [atEnd] at h

/-- The value of a scan in a top-level value that is neither an object nor `null` is neither
of them. -/
theorem run_readsOther (cs : List Char) (st : State) (h : st.readsOther = true) (v : Value)
    (hv : run st cs = .ok v) : isOther v = true := by
  induction cs generalizing st with
  | nil => exact atEnd_isOther st v hv
  | cons c rest ih =>
    have hs := step_readsOther st c h
    simp only [run] at hv
    cases hc : step st c with
    | next s =>
      rw [hc] at hs hv
      exact ih s hs hv
    | done w =>
      rw [hc] at hs hv
      simp only [Except.ok.injEq] at hv
      subst hv
      exact hs
    | fail msg =>
      rw [hc] at hv
      simp at hv

/-- A scan inside an object whose text has no closing brace does not end. -/
theorem run_unclosed (cs : List Char) (st : State) (h : outermost st.stack = some false)
    (hc : ∀ c ∈ cs, c ≠ '\x7d') : ∃ e, run st cs = .error e := by
  induction cs generalizing st with
  | nil =>
    obtain ⟨stp, stack⟩ := st
    cases stack with
    | nil => simp [outermost] at h
    | cons f rest => exact ⟨_, by cases stp <;> rfl⟩
  | cons c rest ih =>
    have hs := step_keeps false c st h
    have hne : c ≠ '\x7d' := hc c (List.mem_cons_self _ _)
    simp only [run]
    cases hstep : step st c with
    | next s =>
      rw [hstep] at hs
      simp only []
      exact ih s (by simpa [Outcome.keeps] using hs) (fun x hx => hc x (List.mem_cons_of_mem _ hx))
    | done w =>
      rw [hstep] at hs
      simp [Outcome.keeps] at hs
      exact absurd hs hne
    | fail msg => exact ⟨_, rfl⟩

/-- The scanner skips the white space before the value. -/
theorem run_dropWhile (cs : List Char) :
    run ⟨.beginValue, []⟩ cs = run ⟨.beginValue, []⟩ (cs.dropWhile isSpace) := by
  induction cs with
  | nil => rfl
  | cons c rest ih =>
    by_cases hsp : isSpace c = true
    · rw [List.dropWhile_cons_of_pos hsp, ← ih]
      simp only [run, step, beginValue, hsp, if_true]
    · rw [List.dropWhile_cons_of_neg hsp]

theorem dropWhile_nil_of_all (cs : List Char) (h : cs.all isSpace = true) :
    cs.dropWhile isSpace = [] := by
  induction cs with
  | nil => rfl
  | cons c rest ih =>
    simp only [List.all_cons, Bool.and_eq_true] at h
    rw [List.dropWhile_cons_of_pos h.1]
    exact ih h.2

theorem dropWhile_head (cs : List Char) (c : Char) (rest : List Char)
    (h : cs.dropWhile isSpace = c :: rest) : isSpace c = false ∧ ∀ x ∈ rest, x ∈ cs := by
  induction cs with
  | nil => simp at h
  | cons d more ih =>
    by_cases hsp : isSpace d = true
    · rw [List.dropWhile_cons_of_pos hsp] at h
      obtain ⟨h1, h2⟩ := ih h
      exact ⟨h1, fun x hx => List.mem_cons_of_mem _ (h2 x hx)⟩
    · rw [List.dropWhile_cons_of_neg hsp] at h
      simp only [List.cons.injEq] at h
      obtain ⟨h1, h2⟩ := h
      subst h1 h2
      exact ⟨by simpa using hsp, fun x hx => List.mem_cons_of_mem _ hx⟩

/-- The first character of a value that is neither an object nor `null`. -/
theorem beginValue_readsOther (c : Char) (h1 : c ≠ '\x7b') (h2 : c ≠ 'n')
    (h3 : isSpace c = false) : (step ⟨.beginValue, []⟩ c).readsOther = true := by
  have e1 : (c == '\x7b') = false := by simpa using h1
  have e2 : (c == 'n') = false := by simpa using h2
  simp only [step, beginValue, h3, e1, e2, Bool.false_eq_true, if_false]
  repeat' split
  all_goals first
    | exact readsOther_next _ rfl
    | rfl

/-- A text that begins with `n` and not with `null` is no value. -/
theorem run_notNull (rest : List Char) (h : ¬ ['n', 'u', 'l', 'l'].isPrefixOf rest = true) :
    ∀ r, rest = 'n' :: r → ∃ e, run ⟨.beginValue, []⟩ rest = .error e := by
  intro r hr
  subst hr
  have hn : step ⟨.beginValue, []⟩ 'n' = .next ⟨.lit .null "null" ['u', 'l', 'l'], []⟩ := by
    rfl
  simp only [run, hn]
  cases r with
  | nil => exact ⟨_, rfl⟩
  | cons a r1 =>
    by_cases ha : a = 'u'
    · subst ha
      have h1 : step ⟨.lit .null "null" ['u', 'l', 'l'], []⟩ 'u' =
          .next ⟨.lit .null "null" ['l', 'l'], []⟩ := by rfl
      simp only [run, h1]
      cases r1 with
      | nil => exact ⟨_, rfl⟩
      | cons b r2 =>
        by_cases hb : b = 'l'
        · subst hb
          have h2 : step ⟨.lit .null "null" ['l', 'l'], []⟩ 'l' =
              .next ⟨.lit .null "null" ['l'], []⟩ := by rfl
          simp only [run, h2]
          cases r2 with
          | nil => exact ⟨_, rfl⟩
          | cons d r3 =>
            by_cases hd : d = 'l'
            · subst hd
              exact absurd (by simp [List.isPrefixOf]) h
            · have hd2 : (d == 'l') = false := by simpa using hd
              exact ⟨_, by simp only [run, step, hd2, Bool.false_eq_true, if_false]; rfl⟩
        · have hb2 : (b == 'l') = false := by simpa using hb
          exact ⟨_, by simp only [run, step, hb2, Bool.false_eq_true, if_false]; rfl⟩
    · have ha2 : (a == 'u') = false := by simpa using ha
      exact ⟨_, by simp only [run, step, ha2, Bool.false_eq_true, if_false]; rfl⟩

/-- The decoder reports an error for a text that begins, after white space, neither with
`null` nor with an opening brace that a closing brace follows. -/
theorem Decode_noObject (data : String)
    (hnull : ¬ "null".toList.isPrefixOf (data.toList.dropWhile isSpace) = true)
    (hobj : (data.toList.dropWhile isSpace).head? = some '\x7b' → ∀ c ∈ data.toList, c ≠ '\x7d') :
    ∃ e, Decode data = .error e := by
  have hparse : (∃ e, parse data = .error e) ∨ (∃ v, parse data = .ok v ∧ isOther v = true) := by
    simp only [parse]
    by_cases hall : data.toList.all isSpace = true
    · rw [if_pos hall]; exact Or.inl ⟨_, rfl⟩
    · rw [if_neg hall, run_dropWhile]
      cases hd : data.toList.dropWhile isSpace with
      | nil => exact Or.inl ⟨_, rfl⟩
      | cons c rest =>
        obtain ⟨hsp, hmem⟩ := dropWhile_head _ c rest hd
        by_cases hbrace : c = '\x7b'
        · subst hbrace
          have hno : ∀ x ∈ rest, x ≠ '\x7d' := fun x hx => hobj (by rw [hd]; rfl) x (hmem x hx)
          have h0 : step ⟨.beginValue, []⟩ '\x7b' =
              .next ⟨.beginStringOrEmpty, [.object [] .key]⟩ := by rfl
          simp only [run, h0]
          exact Or.inl (run_unclosed rest _ rfl hno)
        · by_cases hn : c = 'n'
          · subst hn
            rw [hd] at hnull
            exact Or.inl (run_notNull _ hnull rest rfl)
          · have hs := beginValue_readsOther c hbrace hn hsp
            simp only [run]
            cases hstep : step ⟨.beginValue, []⟩ c with
            | next s =>
              rw [hstep] at hs
              simp only []
              cases hr : run s rest with
              | error e => exact Or.inl ⟨_, rfl⟩
              | ok v => exact Or.inr ⟨v, rfl, run_readsOther rest s hs v hr⟩
            | done v =>
              rw [hstep] at hs
              exact Or.inr ⟨v, rfl, hs⟩
            | fail msg => exact Or.inl ⟨_, rfl⟩
  rcases hparse with ⟨e, he⟩ | ⟨v, hv, ho⟩
  · exact ⟨e, by simp only [Decode, he]⟩
  · simp only [Decode, hv]
    cases v with
    | null => simp [isOther] at ho
    | object ms => simp [isOther] at ho
    | bool b => exact ⟨_, rfl⟩
    | number t => exact ⟨_, rfl⟩
    | string s => exact ⟨_, rfl⟩
    | array items => exact ⟨_, rfl⟩

end json

/-! ## Decoding the caller-identity response -/

/-- The XML decoder reads comments, CDATA sections and character references. -/
theorem xml.Unmarshal_markup :
    xml.Unmarshal "<r><!-- c --><GetCallerIdentityResult><Arn><![CDATA[a<b]]>&#65;&#x42;</Arn></GetCallerIdentityResult></r>" =
      .ok ⟨⟨"a<bAB", "", ""⟩, ⟨""⟩⟩ := by
  decide

namespace xml

/-- The decoder on the children of a `GetCallerIdentityResult` element: each field has the
character data of the last child of its name. -/
theorem fillResult_fold (kids : List Node) :
    ∀ r : CallerIdentityResult, fillResult r kids =
      ⟨((elementsNamed "Arn" kids).map charData).foldl (fun _ x => x) r.ARN,
        ((elementsNamed "UserId" kids).map charData).foldl (fun _ x => x) r.UserID,
        ((elementsNamed "Account" kids).map charData).foldl (fun _ x => x) r.Account⟩ := by
  induction kids with
  | nil => intro r; rfl
  | cons n rest ih =>
    intro r
    cases n with
    | text t => simp only [fillResult, elementsNamed]; exact ih r
    | elem name ch =>
      by_cases h1 : name = "Arn"
      · subst h1
        simp only [fillResult, elementsNamed, beq_self_eq_true, if_true,
          (show ("Arn" == "UserId") = false from by decide),
          (show ("Arn" == "Account") = false from by decide), Bool.false_eq_true, if_false,
          List.map_cons, List.foldl_cons]
        exact ih _
      · by_cases h2 : name = "UserId"
        · subst h2
          simp only [fillResult, elementsNamed, beq_self_eq_true, if_true,
            (show ("UserId" == "Arn") = false from by decide),
            (show ("UserId" == "Account") = false from by decide), Bool.false_eq_true, if_false,
            List.map_cons, List.foldl_cons]
          exact ih _
        · by_cases h3 : name = "Account"
          · subst h3
            simp only [fillResult, elementsNamed, beq_self_eq_true, if_true,
              (show ("Account" == "Arn") = false from by decide),
              (show ("Account" == "UserId") = false from by decide), Bool.false_eq_true,
              if_false, List.map_cons, List.foldl_cons]
            exact ih _
          · have n1 : (name == "Arn") = false := by simpa using h1
            have n2 : (name == "UserId") = false := by simpa using h2
            have n3 : (name == "Account") = false := by simpa using h3
            simp only [fillResult, elementsNamed, n1, n2, n3, Bool.false_eq_true, if_false]
            exact ih _

/-- The decoder on the children of the root element: the result part of `res` is filled from
the children of every `GetCallerIdentityResult` element in turn. -/
theorem fillResponse_result (kids : List Node) :
    ∀ r : CallerIdentityResponse, (fillResponse r kids).GetCallerIdentityResult =
      (elementsNamed "GetCallerIdentityResult" kids).foldl fillResult
        r.GetCallerIdentityResult := by
  induction kids with
  | nil => intro r; rfl
  | cons n rest ih =>
    intro r
    cases n with
    | text t => simp only [fillResponse, elementsNamed]; exact ih r
    | elem name ch =>
      by_cases h1 : name = "GetCallerIdentityResult"
      · subst h1
        simp only [fillResponse, elementsNamed, beq_self_eq_true, if_true, List.foldl_cons]
        exact ih _
      · have n1 : (name == "GetCallerIdentityResult") = false := by simpa using h1
        by_cases h2 : name = "ResponseMetadata"
        · subst h2
          simp only [fillResponse, elementsNamed, n1, beq_self_eq_true, if_true,
            Bool.false_eq_true, if_false]
          exact ih _
        · have n2 : (name == "ResponseMetadata") = false := by simpa using h2
          simp only [fillResponse, elementsNamed, n1, n2, Bool.false_eq_true, if_false]
          exact ih _

/-- The decoder on a body whose root element has one child `GetCallerIdentityResult`, which
has one child `Arn`, one child `UserId` and one child `Account`. -/
theorem Unmarshal_result (body rootName a u c : String) (kids rkids : List Node)
    (hbody : parse body = .ok (.elem rootName kids))
    (hres : elementsNamed "GetCallerIdentityResult" kids = [rkids])
    (ha : (elementsNamed "Arn" rkids).map charData = [a])
    (hu : (elementsNamed "UserId" rkids).map charData = [u])
    (hc : (elementsNamed "Account" rkids).map charData = [c]) :
    ∃ res : CallerIdentityResponse, Unmarshal body = .ok res ∧
      res.GetCallerIdentityResult = ⟨a, u, c⟩ := by
  refine ⟨fillResponse CallerIdentityResponse.zero kids, by simp only [Unmarshal, hbody], ?_⟩
  rw [fillResponse_result, hres, List.foldl_cons, List.foldl_nil, fillResult_fold, ha, hu, hc]
  rfl

end xml

/-! ## Bodies that the XML decoder rejects -/

namespace xml

/-- In a run of character data a character other than `<` completes no token. -/
theorem textStep_plain (acc : List Char) (b0 b1 : Char) (la : Nat) (c : Char)
    (hc : (c == '<') = false) :
    (∃ msg, textStep .plain acc b0 b1 la c = .fail msg) ∨
      (∃ m2, textStep .plain acc b0 b1 la c = .next m2 [] ∧ m2.inCharData = true) := by
  unfold textStep
  simp only [hc, Bool.false_eq_true, if_false]
  by_cases h1 : (b0 == ']' && b1 == ']' && c == '>') = true
  · rw [if_pos h1]; exact Or.inl ⟨_, rfl⟩
  · rw [if_neg h1]
    by_cases h2 : (c == '&') = true
    · rw [if_pos h2]; exact Or.inr ⟨_, rfl, rfl⟩
    · rw [if_neg h2]; exact Or.inr ⟨_, rfl, rfl⟩

/-- In character data a character other than `<` completes no token. -/
theorem step_inCharData (m : Mode) (line : Nat) (c : Char) (hm : m.inCharData = true)
    (hc : (c == '<') = false) :
    (∃ msg, step m line c = .fail msg) ∨
      (∃ m2, step m line c = .next m2 [] ∧ m2.inCharData = true) := by
  cases m with
  | top =>
    simp only [step, hc, Bool.false_eq_true, if_false]
    exact textStep_plain _ _ _ _ c hc
  | text k acc b0 b1 =>
    cases k with
    | plain =>
      simp only [step]
      exact textStep_plain _ _ _ _ c hc
    | attr q s n => exact absurd hm (by simp [Mode.inCharData])
    | cdata => exact absurd hm (by simp [Mode.inCharData])
  | entAmp k acc =>
    cases k with
    | plain =>
      simp only [step]
      split
      · exact Or.inr ⟨_, rfl, rfl⟩
      · split
        · exact Or.inr ⟨_, rfl, rfl⟩
        · split <;> exact Or.inl ⟨_, rfl⟩
    | attr q s n => exact absurd hm (by simp [Mode.inCharData])
    | cdata => exact absurd hm (by simp [Mode.inCharData])
  | entName k acc name =>
    cases k with
    | plain =>
      simp only [step]
      split
      · exact Or.inr ⟨_, rfl, rfl⟩
      · split
        · split
          · exact Or.inr ⟨_, rfl, rfl⟩
          · exact Or.inl ⟨_, rfl⟩
        · exact Or.inl ⟨_, rfl⟩
    | attr q s n => exact absurd hm (by simp [Mode.inCharData])
    | cdata => exact absurd hm (by simp [Mode.inCharData])
  | entHash k acc =>
    cases k with
    | plain =>
      simp only [step]
      split
      · exact Or.inr ⟨_, rfl, rfl⟩
      · split
        · exact Or.inr ⟨_, rfl, rfl⟩
        · split <;> exact Or.inl ⟨_, rfl⟩
    | attr q s n => exact absurd hm (by simp [Mode.inCharData])
    | cdata => exact absurd hm (by simp [Mode.inCharData])
  | entNum k acc hx digits =>
    cases k with
    | plain =>
      simp only [step]
      split
      · exact Or.inr ⟨_, rfl, rfl⟩
      · split
        · split
          · exact Or.inr ⟨_, rfl, rfl⟩
          · exact Or.inl ⟨_, rfl⟩
        · exact Or.inl ⟨_, rfl⟩
    | attr q s n => exact absurd hm (by simp [Mode.inCharData])
    | cdata => exact absurd hm (by simp [Mode.inCharData])
  | _ => exact absurd hm (by simp [Mode.inCharData])

/-- At the end of the input in character data there is no start tag. -/
theorem root_atEnd_inCharData (m : Mode) (line : Nat) (hm : m.inCharData = true) :
    ∃ e, root (atEnd m line) = .error e := by
  cases m with
  | top => exact ⟨_, rfl⟩
  | text k acc b0 b1 =>
    cases k with
    | plain =>
      simp only [atEnd]
      cases checkText line acc with
      | error e => exact ⟨_, rfl⟩
      | ok d => exact ⟨_, rfl⟩
    | attr q s n => exact absurd hm (by simp [Mode.inCharData])
    | cdata => exact absurd hm (by simp [Mode.inCharData])
  | entAmp k acc => exact ⟨_, rfl⟩
  | entName k acc name => exact ⟨_, rfl⟩
  | entHash k acc => exact ⟨_, rfl⟩
  | entNum k acc hx digits => exact ⟨_, rfl⟩
  | _ => exact absurd hm (by simp [Mode.inCharData])

/-- A text without `<` has no root element. -/
theorem root_scan_inCharData (l : List Char) :
    ∀ (m : Mode) (line : Nat), m.inCharData = true → (∀ c ∈ l, (c == '<') = false) →
      ∃ e, root (scan m line l) = .error e := by
  induction l with
  | nil => intro m line hm _; exact root_atEnd_inCharData m line hm
  | cons c rest ih =>
    intro m line hm hl
    have hc := hl c (List.mem_cons_self _ _)
    have hrest : ∀ d ∈ rest, (d == '<') = false := fun d hd => hl d (List.mem_cons_of_mem _ hd)
    rcases step_inCharData m line c hm hc with ⟨msg, h⟩ | ⟨m2, h, hm2⟩
    · exact ⟨msg, by simp only [scan, h]; rfl⟩
    · obtain ⟨e, he⟩ := ih m2 (if c == '\n' then line + 1 else line) hm2 hrest
      exact ⟨e, by simp only [scan, h, List.nil_append]; exact he⟩

/-- The decoder rejects a body without `<`. -/
theorem Unmarshal_noElement (body : String) (h : ∀ c ∈ body.toList, (c == '<') = false) :
    ∃ e, Unmarshal body = .error e := by
  obtain ⟨e, he⟩ := root_scan_inCharData body.toList .top 1 rfl h
  exact ⟨e, by simp only [Unmarshal, parse, he]⟩

end xml

namespace xml

theorem endText_closesNone (k : TextKind) (line : Nat) (acc : List Char) (after : Mode)
    (h : after.closing = false) : (endText k line acc after).closesNone = true := by
  simp only [endText]
  cases checkText line acc with
  | error e => rfl
  | ok data =>
    cases k with
    | plain => simp [Outcome.closesNone, h, Token.isEnd]
    | cdata => simp [Outcome.closesNone, h, Token.isEnd]
    | attr q s n => rfl

theorem textStep_closesNone (k : TextKind) (acc : List Char) (b0 b1 : Char) (la : Nat)
    (c : Char) : (textStep k acc b0 b1 la c).closesNone = true := by
  cases k with
  | plain =>
    simp only [textStep]
    repeat' split
    all_goals first
      | rfl
      | exact endText_closesNone _ _ _ _ rfl
  | cdata =>
    simp only [textStep]
    repeat' split
    all_goals first
      | rfl
      | exact endText_closesNone _ _ _ _ rfl
  | attr q s n =>
    simp only [textStep]
    repeat' split
    all_goals first
      | rfl
      | exact endText_closesNone _ _ _ _ rfl

theorem attrsStep_closesNone (space name : String) (line : Nat) (c : Char)
    (hc : (c == '/') = false) : (attrsStep space name line c).closesNone = true := by
  simp only [attrsStep, hc, Bool.false_eq_true, if_false]
  repeat' split
  all_goals rfl

theorem attrEqStep_closesNone (space name : String) (line : Nat) (c : Char) :
    (attrEqStep space name line c).closesNone = true := by
  simp only [attrEqStep]
  repeat' split
  all_goals rfl

theorem piBodyStep_closesNone (target : String) (acc : List Char) (b0 c : Char) :
    (piBodyStep target acc b0 c).closesNone = true := by
  simp only [piBodyStep]
  repeat' split
  all_goals rfl

theorem dirHandle_closesNone (inquote : Option Char) (depth : Nat) (c : Char) :
    (dirHandle inquote depth c).closesNone = true := by
  cases inquote with
  | none =>
    simp only [dirHandle]
    repeat' split
    all_goals rfl
  | some q =>
    simp only [dirHandle]
    repeat' split
    all_goals rfl

/-- Outside an end tag a character other than `/` closes no element. -/
theorem step_closesNone (m : Mode) (line : Nat) (c : Char) (hm : m.closing = false)
    (hc : (c == '/') = false) : (step m line c).closesNone = true := by
  cases m with
  | top =>
    simp only [step]
    split
    · rfl
    · exact textStep_closesNone _ _ _ _ _ _
  | text k acc b0 b1 => exact textStep_closesNone _ _ _ _ _ _
  | entAmp k acc =>
    simp only [step]
    repeat' split
    all_goals rfl
  | entName k acc name =>
    simp only [step]
    repeat' split
    all_goals rfl
  | entHash k acc =>
    simp only [step]
    repeat' split
    all_goals rfl
  | entNum k acc hx digits =>
    simp only [step]
    repeat' split
    all_goals rfl
  | lt =>
    simp only [step, hc, Bool.false_eq_true, if_false]
    repeat' split
    all_goals rfl
  | endStart => simp [Mode.closing] at hm
  | endName name => simp [Mode.closing] at hm
  | endSpace space name => simp [Mode.closing] at hm
  | piStart =>
    simp only [step]
    repeat' split
    all_goals rfl
  | piTarget name =>
    simp only [step]
    repeat' split
    all_goals rfl
  | piSpace target =>
    simp only [step]
    repeat' split
    all_goals rfl
  | piBody target acc b0 => exact piBodyStep_closesNone _ _ _ _
  | bang =>
    simp only [step]
    repeat' split
    all_goals rfl
  | bangDash =>
    simp only [step]
    repeat' split
    all_goals rfl
  | comment b0 b1 =>
    simp only [step]
    repeat' split
    all_goals rfl
  | cdataOpen todo =>
    cases todo with
    | nil => rfl
    | cons x more =>
      simp only [step]
      repeat' split
      all_goals rfl
  | directive inquote depth =>
    simp only [step]
    split
    · rfl
    · exact dirHandle_closesNone _ _ _
  | dirLt todo depth =>
    cases todo with
    | nil =>
      simp only [step]
      exact dirHandle_closesNone _ _ _
    | cons x more =>
      simp only [step]
      repeat' split
      all_goals first
        | rfl
        | exact dirHandle_closesNone _ _ _
  | dirComment b0 b1 depth =>
    simp only [step]
    repeat' split
    all_goals rfl
  | startName name =>
    simp only [step]
    repeat' split
    all_goals first
      | rfl
      | exact attrsStep_closesNone _ _ _ _ hc
  | attrs space name => exact attrsStep_closesNone _ _ _ _ hc
  | slash space name => simp [Mode.closing] at hm
  | attrName space name attr =>
    simp only [step]
    repeat' split
    all_goals first
      | rfl
      | exact attrEqStep_closesNone _ _ _ _
  | attrEq space name => exact attrEqStep_closesNone _ _ _ _
  | attrVal space name =>
    simp only [step]
    repeat' split
    all_goals rfl

/-- The end of the input closes no element. -/
theorem atEnd_noEnd (m : Mode) (line : Nat) : ∀ t ∈ atEnd m line, t.isEnd = false := by
  cases m with
  | text k acc b0 b1 =>
    cases k with
    | plain =>
      simp only [atEnd]
      cases checkText line acc <;> simp [Token.isEnd]
    | cdata => simp [atEnd, Token.isEnd]
    | attr q s n =>
      simp only [atEnd]
      cases checkText line acc <;> simp [Token.isEnd]
  | _ => simp [atEnd, Token.isEnd]

/-- The tokens of a text without `/` hold no end of an element. -/
theorem scan_noEnd (cs : List Char) (m : Mode) (line : Nat) (hm : m.closing = false)
    (hcs : ∀ c ∈ cs, c ≠ '/') : ∀ t ∈ scan m line cs, t.isEnd = false := by
  induction cs generalizing m line with
  | nil => exact atEnd_noEnd m line
  | cons c rest ih =>
    have hc : (c == '/') = false := by simpa using hcs c (List.mem_cons_self _ _)
    have hs := step_closesNone m line c hm hc
    simp only [scan]
    cases hstep : step m line c with
    | fail msg => simp [Token.isEnd]
    | next m2 out =>
      rw [hstep] at hs
      simp only [Outcome.closesNone, Bool.and_eq_true, Bool.not_eq_true', List.all_eq_true] at hs
      intro t ht
      rcases List.mem_append.mp ht with h1 | h2
      · exact hs.2 t h1
      · exact ih m2 _ hs.1 (fun x hx => hcs x (List.mem_cons_of_mem _ hx)) t h2

/-- Without the end of an element no element is complete. -/
theorem build_noEnd (ts : List Token) (stack : List (String × String × List Node))
    (h : ∀ t ∈ ts, t.isEnd = false) : ∃ e, build stack ts = .error e := by
  induction ts generalizing stack with
  | nil => exact ⟨_, by simp only [build]; rfl⟩
  | cons t rest ih =>
    have hr : ∀ t ∈ rest, t.isEnd = false := fun x hx => h x (List.mem_cons_of_mem _ hx)
    cases t with
    | malformed msg => exact ⟨_, by simp only [build]; rfl⟩
    | eof line => exact ⟨_, by simp only [build]; rfl⟩
    | other => simpa [build] using ih stack hr
    | StartElement space n => simpa [build] using ih _ hr
    | CharData text =>
      cases stack with
      | nil => simpa [build] using ih _ hr
      | cons f more =>
        obtain ⟨sp, n, kids⟩ := f
        simpa [build] using ih _ hr
    | EndElement space n line =>
      have := h _ (List.mem_cons_self _ _)
      simp [Token.isEnd] at this

theorem root_noEnd (ts : List Token) (h : ∀ t ∈ ts, t.isEnd = false) :
    ∃ e, root ts = .error e := by
  induction ts with
  | nil => exact ⟨_, rfl⟩
  | cons t rest ih =>
    have hr : ∀ t ∈ rest, t.isEnd = false := fun x hx => h x (List.mem_cons_of_mem _ hx)
    cases t with
    | malformed msg => exact ⟨_, rfl⟩
    | eof line => exact ⟨_, rfl⟩
    | other => simpa [root] using ih hr
    | StartElement space n => simpa [root] using build_noEnd rest _ hr
    | CharData text => simpa [root] using ih hr
    | EndElement space n line => exact ⟨_, rfl⟩

/-- The decoder reports an error for a text without `/`: it holds no complete element. -/
theorem Unmarshal_noClose (body : String) (h : ∀ c ∈ body.toList, c ≠ '/') :
    ∃ e, Unmarshal body = .error e := by
  obtain ⟨e, he⟩ := root_noEnd _ (scan_noEnd body.toList .top 1 rfl h)
  exact ⟨e, by simp only [Unmarshal, parse, he]⟩

end xml

/-! ## The claims -/

/-- C1: for every credential set and every signing time, the request that
`stsproof.Proof.VerifyWithOpts` builds, with no URL override, from the proof that
`stsproof.NewWithOpts` returns agrees with the request that was signed on everything the
signature covers: the method `POST`, the host `sts.amazonaws.com`, the path `/`, the empty
query, the body (whose hash is the signed payload hash), and the value of every signed header:
`host`, `content-length`, `x-amz-date` and, for a non-empty token, `x-amz-security-token`. -/
theorem replay_agrees_with_signed_request (env : Env) (cfg : awssdk.Config) (creds : Credentials)
    (opts : stsproof.Opts) (c : Client)
    (hcfg : env.configOr opts.AWSConfig = .ok cfg) (hcreds : cfg.Credentials = .ok creds) :
    ∃ p : stsproof.Proof, stsproof.NewWithOpts env opts = .ok p ∧
      p.Signature = (Build creds stsproof.createRequest stsproof.payloadHash "sts" "us-east-1"
        (if opts.Time.IsZero then env.Now else opts.Time).UTC).Request.Header.Get "Authorization" ∧
      (Build creds stsproof.createRequest stsproof.payloadHash "sts" "us-east-1"
        (if opts.Time.IsZero then env.Now else opts.Time).UTC).Request.Method = "POST" ∧
      (stsproof.verifyRequest p ⟨c, ""⟩).Method = "POST" ∧
      (Build creds stsproof.createRequest stsproof.payloadHash "sts" "us-east-1"
        (if opts.Time.IsZero then env.Now else opts.Time).UTC).Request.Host = "sts.amazonaws.com" ∧
      (stsproof.verifyRequest p ⟨c, ""⟩).Host = "sts.amazonaws.com" ∧
      (Build creds stsproof.createRequest stsproof.payloadHash "sts" "us-east-1"
        (if opts.Time.IsZero then env.Now else opts.Time).UTC).Request.URL =
          ⟨"https", "sts.amazonaws.com", "/", ""⟩ ∧
      (stsproof.verifyRequest p ⟨c, ""⟩).URL = ⟨"https", "sts.amazonaws.com", "/", ""⟩ ∧
      (stsproof.verifyRequest p ⟨c, ""⟩).Body =
        (Build creds stsproof.createRequest stsproof.payloadHash "sts" "us-east-1"
          (if opts.Time.IsZero then env.Now else opts.Time).UTC).Request.Body ∧
      stsproof.payloadHash =
        hex.EncodeToString (sha256.Sum256 (bytesOf (stsproof.verifyRequest p ⟨c, ""⟩).Body)) ∧
      (Build creds stsproof.createRequest stsproof.payloadHash "sts" "us-east-1"
        (if opts.Time.IsZero then env.Now else opts.Time).UTC).SignedHeaders.entries.map Prod.fst =
          ["host", "content-length", "x-amz-date"] ++
            (if creds.SessionToken = "" then [] else ["x-amz-security-token"]) ∧
      ∀ name vals, (name, vals) ∈ (Build creds stsproof.createRequest stsproof.payloadHash "sts"
          "us-east-1" (if opts.Time.IsZero then env.Now else opts.Time).UTC).SignedHeaders.entries →
        (stsproof.verifyRequest p ⟨c, ""⟩).headerValues name = some vals := by
  have hr := stsproof.sts_createRequest_eq
  obtain ⟨hm, hh, -, hp, hq, hb, -⟩ := Build_request creds stsproof.createRequest
    stsproof.payloadHash "sts" "us-east-1" (if opts.Time.IsZero then env.Now else opts.Time).UTC
    (by rw [hr]; exact sts_port) (by rw [hr]; decide)
  have hu := Build_unfold creds stsproof.createRequest
    stsproof.payloadHash "sts" "us-east-1" (if opts.Time.IsZero then env.Now else opts.Time).UTC
    (by rw [hr]; exact sts_port) (by rw [hr]; decide)
  refine ⟨_, stsproof.sts_NewWithOpts_ok env opts cfg creds hcfg hcreds, rfl, ?_, rfl, ?_, rfl, ?_, rfl,
    ?_, ?_, ?_, fun name vals h => stsproof.signed_headers_replayed creds _ _ c name vals h⟩
  · rw [hm, hr]
  · rw [hh, hr]
  · rw [hu, hr]; rfl
  · rw [hb, hr]; rfl
  · rfl
  · rw [stsproof.signedHeaders_entries]
    by_cases htok : creds.SessionToken = "" <;> simp [htok]


/-- C1 (witness): the claim at the stub credentials of `cptest` and the signing time
1970-01-01T00:00:01Z; the signed `x-amz-date` value is on the replayed request. -/
theorem replay_agrees_with_signed_request_witness :
    (Env.offline (Unix 0 0 0)).configOr (some cptest.Config) = .ok cptest.Config ∧
    cptest.Config.Credentials = .ok ⟨"AKID", "SECRET", "SESSION"⟩ ∧
    ∃ p : stsproof.Proof,
      stsproof.NewWithOpts (Env.offline (Unix 0 0 0)) ⟨some cptest.Config, Unix 1 0 0⟩ = .ok p ∧
      (stsproof.verifyRequest p ⟨stubClient 200 "", ""⟩).Method = "POST" ∧
      (stsproof.verifyRequest p ⟨stubClient 200 "", ""⟩).Host = "sts.amazonaws.com" := by
  obtain ⟨p, h1, -, -, h2, -, h3, -⟩ := replay_agrees_with_signed_request
    (Env.offline (Unix 0 0 0)) cptest.Config ⟨"AKID", "SECRET", "SESSION"⟩
    ⟨some cptest.Config, Unix 1 0 0⟩ (stubClient 200 "") rfl rfl
  exact ⟨rfl, rfl, p, h1, h2, h3⟩

/-- C2 (the code at the failing input): the identity verifiers do not look at the status of the
response. Their result is the same for every status; for status 403 with a well-formed XML
error document they return a zero-valued `Identity` and no error, and for status 403 with the
body `AccessDenied` they return the error `EOF` of the XML decoder, which carries neither the
status nor the body. -/
theorem identity_verifiers_ignore_status :
    (∀ (ip : stsproof.Proof) (url : String) (code : Int) (body : String),
      ip.VerifyWithOpts ⟨stubClient code body, url⟩ = ip.VerifyWithOpts ⟨stubClient 200 body, url⟩) ∧
    (∀ (env : Env) (ip : aws.IdentityProof) (code : Int) (body : String),
      ip.Verify env [aws.WithClient (stubClient code body)] =
        ip.Verify env [aws.WithClient (stubClient 200 body)]) ∧
    (∀ (ip : stsproof.Proof),
      ip.VerifyWithOpts ⟨stubClient 403 fixtures.stsErrorBody, ""⟩ = .ok ⟨"", "", ""⟩) ∧
    (∀ (env : Env) (ip : aws.IdentityProof),
      ip.Verify env [aws.WithClient (stubClient 403 fixtures.stsErrorBody)] = .ok ⟨"", "", ""⟩) ∧
    (∀ (ip : stsproof.Proof),
      ip.VerifyWithOpts ⟨stubClient 403 "AccessDenied", ""⟩ = .error "EOF") ∧
    (∀ (env : Env) (ip : aws.IdentityProof),
      ip.Verify env [aws.WithClient (stubClient 403 "AccessDenied")] = .error "EOF") := by
  have hx : xml.Unmarshal fixtures.stsErrorBody = .ok xml.CallerIdentityResponse.zero := by decide
  have hy : xml.Unmarshal "AccessDenied" = .error "EOF" := by decide
  refine ⟨fun ip url code body => ?_, fun env ip code body => ?_, fun ip => ?_, fun env ip => ?_,
    fun ip => ?_, fun env ip => ?_⟩
  · rw [stsproof.VerifyWithOpts_response ip _ ⟨code, .ok body⟩ rfl,
      stsproof.VerifyWithOpts_response ip _ ⟨200, .ok body⟩ rfl]
  · rw [aws.IdentityProof.Verify_response env ip [aws.WithClient (stubClient code body)]
        ⟨code, .ok body⟩ rfl,
      aws.IdentityProof.Verify_response env ip [aws.WithClient (stubClient 200 body)]
        ⟨200, .ok body⟩ rfl]
  · rw [stsproof.VerifyWithOpts_response ip _ ⟨403, .ok fixtures.stsErrorBody⟩ rfl]
    simp only [hx]
    rfl
  · rw [aws.IdentityProof.Verify_response env ip
      [aws.WithClient (stubClient 403 fixtures.stsErrorBody)] ⟨403, .ok fixtures.stsErrorBody⟩ rfl]
    simp only [hx]
    rfl
  · rw [stsproof.VerifyWithOpts_response ip _ ⟨403, .ok "AccessDenied"⟩ rfl]
    simp only [hy]
  · rw [aws.IdentityProof.Verify_response env ip [aws.WithClient (stubClient 403 "AccessDenied")]
      ⟨403, .ok "AccessDenied"⟩ rfl]
    simp only [hy]

/-- C3: for every response with a status code `c` other than 200 and a readable body `b`, the
organization verifiers `aws.OrganisationProof.Verify` and
`orgproof.OrganizationProof.VerifyWithOpts` return no `Organization` and the error
`AWS Organizations API call failed with code <c>: <b>`, whatever the body is, so without
decoding it. -/
theorem organization_verifiers_reject_non_200 (env : Env) (c : Int) (b : String)
    (op : orgproof.OrganizationProof) (opts : orgproof.VerifyOpts)
    (aop : aws.OrganisationProof) (aopts : List aws.IdentityVerifyOption) (hc : c ≠ 200) :
    (opts.Client.Do (orgproof.verifyRequest op opts) = .ok ⟨c, .ok b⟩ →
      op.VerifyWithOpts opts =
        .error ("AWS Organizations API call failed with code " ++ strconv.Itoa c ++ ": " ++ b)) ∧
    ((aws.verifyOptions env aopts).client.Do
        (aws.orgVerifyRequest aop (aws.verifyOptions env aopts)) = .ok ⟨c, .ok b⟩ →
      aop.Verify env aopts =
        .error ("AWS Organizations API call failed with code " ++ strconv.Itoa c ++ ": " ++ b)) :=
  ⟨fun h => orgproof.VerifyWithOpts_failed op opts ⟨c, .ok b⟩ h hc,
    fun h => aws.OrganisationProof.Verify_failed env aop aopts ⟨c, .ok b⟩ h hc⟩

/-- C3 (witness): a stub transport that answers 403 with the body `AccessDenied`. -/
theorem organization_verifiers_reject_non_200_witness :
    (403 : Int) ≠ 200 ∧
    (⟨"sig", Unix 0 0 0, "tok"⟩ : orgproof.OrganizationProof).VerifyWithOpts
        ⟨stubClient 403 "AccessDenied", ""⟩ =
      .error "AWS Organizations API call failed with code 403: AccessDenied" ∧
    (⟨"sig", Unix 0 0 0, "tok"⟩ : aws.OrganisationProof).Verify (Env.offline (Unix 0 0 0))
        [aws.WithClient (stubClient 403 "AccessDenied")] =
      .error "AWS Organizations API call failed with code 403: AccessDenied" :=
  ⟨by decide,
    (organization_verifiers_reject_non_200 (Env.offline (Unix 0 0 0)) 403 "AccessDenied"
      ⟨"sig", Unix 0 0 0, "tok"⟩ ⟨stubClient 403 "AccessDenied", ""⟩
      ⟨"sig", Unix 0 0 0, "tok"⟩ [aws.WithClient (stubClient 403 "AccessDenied")] (by decide)).1 rfl,
    (organization_verifiers_reject_non_200 (Env.offline (Unix 0 0 0)) 403 "AccessDenied"
      ⟨"sig", Unix 0 0 0, "tok"⟩ ⟨stubClient 403 "AccessDenied", ""⟩
      ⟨"sig", Unix 0 0 0, "tok"⟩ [aws.WithClient (stubClient 403 "AccessDenied")] (by decide)).2 rfl⟩

/-- C4 (counterexample): for a status-200 response with the body `<a/>` the identity verifier
returns a zero-valued `Identity` and no error, and for the body of an empty JSON object, or
the body `null`, the organization verifier returns a zero-valued `Organization` and no
error. A body need not be well-formed for this: the decoders read no further than the end of
the first element or JSON value, so the same holds for the bodies `<a/>not xml <` and
`{}]]garbage{`. -/
theorem verify_accepts_body_without_result :
    (⟨"sig", Unix 0 0 0, "tok"⟩ : stsproof.Proof).VerifyWithOpts ⟨stubClient 200 "<a/>", ""⟩ =
      .ok ⟨"", "", ""⟩ ∧
    (⟨"sig", Unix 0 0 0, "tok"⟩ : orgproof.OrganizationProof).VerifyWithOpts
      ⟨stubClient 200 "\x7b\x7d", ""⟩ = .ok ⟨"", "", [], "", "", "", ""⟩ ∧
    (⟨"sig", Unix 0 0 0, "tok"⟩ : orgproof.OrganizationProof).VerifyWithOpts
      ⟨stubClient 200 "null", ""⟩ = .ok ⟨"", "", [], "", "", "", ""⟩ ∧
    (⟨"sig", Unix 0 0 0, "tok"⟩ : stsproof.Proof).VerifyWithOpts
      ⟨stubClient 200 "<a/>not xml <", ""⟩ = .ok ⟨"", "", ""⟩ ∧
    (⟨"sig", Unix 0 0 0, "tok"⟩ : orgproof.OrganizationProof).VerifyWithOpts
      ⟨stubClient 200 "\x7b\x7d]]garbage\x7b", ""⟩ = .ok ⟨"", "", [], "", "", "", ""⟩ := by
  refine ⟨?_, ?_, ?_, ?_, ?_⟩ <;> decide

/-- C4 (amended): for every status-200 response with the body `body`, each verifier returns an
error exactly when the decoder reports one for `body`, and then it returns that error and no
`Identity` or `Organization`. The XML decoder reports an error for every body in which no
element is closed, that is for a body without `<` or without `/`; the JSON decoder reports an
error for every body that begins, after white space, neither with the name `null` nor with an
opening brace that a closing brace follows somewhere: an empty body, text that does not
begin with `null`, a number, a string, an array, an object without a closing brace. -/
theorem verify_returns_decode_error (env : Env) (body : String)
    (ip : stsproof.Proof) (sopts : stsproof.VerifyOpts)
    (aip : aws.IdentityProof) (aopts : List aws.IdentityVerifyOption)
    (op : orgproof.OrganizationProof) (oopts : orgproof.VerifyOpts)
    (aop : aws.OrganisationProof) (oaopts : List aws.IdentityVerifyOption)
    (hs : sopts.Client.Do (stsproof.verifyRequest ip sopts) = .ok ⟨200, .ok body⟩)
    (ha : (aws.verifyOptions env aopts).client.Do
      (aws.identityVerifyRequest aip (aws.verifyOptions env aopts)) = .ok ⟨200, .ok body⟩)
    (ho : oopts.Client.Do (orgproof.verifyRequest op oopts) = .ok ⟨200, .ok body⟩)
    (hao : (aws.verifyOptions env oaopts).client.Do
      (aws.orgVerifyRequest aop (aws.verifyOptions env oaopts)) = .ok ⟨200, .ok body⟩) :
    (∀ e, (ip.VerifyWithOpts sopts = .error e ↔ xml.Unmarshal body = .error e) ∧
      (aip.Verify env aopts = .error e ↔ xml.Unmarshal body = .error e) ∧
      (op.VerifyWithOpts oopts = .error e ↔ json.Decode body = .error e) ∧
      (aop.Verify env oaopts = .error e ↔ json.Decode body = .error e)) ∧
    (((∀ c ∈ body.toList, c ≠ '<') ∨ (∀ c ∈ body.toList, c ≠ '/')) →
      ∃ e, xml.Unmarshal body = .error e ∧ ip.VerifyWithOpts sopts = .error e ∧
        aip.Verify env aopts = .error e) ∧
    (¬ "null".toList.isPrefixOf (body.toList.dropWhile json.isSpace) = true →
      ((body.toList.dropWhile json.isSpace).head? = some '\x7b' →
        ∀ c ∈ body.toList, c ≠ '\x7d') →
      ∃ e, json.Decode body = .error e ∧ op.VerifyWithOpts oopts = .error e ∧
        aop.Verify env oaopts = .error e) := by
  have h1 := stsproof.VerifyWithOpts_response ip sopts _ hs
  have h2 := aws.IdentityProof.Verify_response env aip aopts _ ha
  have h3 := orgproof.org_VerifyWithOpts_ok op oopts _ ho rfl
  have h4 := aws.OrganisationProof.Verify_ok env aop oaopts _ hao rfl
  simp only [] at h1 h2 h3 h4
  refine ⟨fun e => ⟨?_, ?_, ?_, ?_⟩, fun hx => ?_, fun hnull hobj => ?_⟩
  · rw [h1]; cases xml.Unmarshal body <;> simp
  · rw [h2]; cases xml.Unmarshal body <;> simp
  · rw [h3]; cases json.Decode body <;> simp
  · rw [h4]; cases json.Decode body <;> simp
  · have hd : ∃ e, xml.Unmarshal body = .error e := by
      rcases hx with hlt | hsl
      · exact xml.Unmarshal_noElement body (fun c hc => by simpa using hlt c hc)
      · exact xml.Unmarshal_noClose body hsl
    obtain ⟨e, he⟩ := hd
    exact ⟨e, he, by rw [h1, he], by rw [h2, he]⟩
  · obtain ⟨e, he⟩ := json.Decode_noObject body hnull hobj
    exact ⟨e, he, by rw [h3, he], by rw [h4, he]⟩

/-- C4 (witness): a stub transport that answers 200 with the unparsable body `not xml <`,
which has no `/`, begins with `n` and not with `null`, and has no brace: each verifier returns
the error of its decoder. -/
theorem verify_returns_decode_error_witness :
    (⟨"sig", Unix 0 0 0, "tok"⟩ : stsproof.Proof).VerifyWithOpts
      ⟨stubClient 200 "not xml <", ""⟩ = .error "XML syntax error on line 1: unexpected EOF" ∧
    (⟨"", Time.zero, ""⟩ : aws.IdentityProof).Verify (Env.offline (Unix 0 0 0))
      [aws.WithClient (stubClient 200 "not xml <")] =
        .error "XML syntax error on line 1: unexpected EOF" ∧
    (⟨"sig", Unix 0 0 0, "tok"⟩ : orgproof.OrganizationProof).VerifyWithOpts
      ⟨stubClient 200 "not xml <", ""⟩ =
        .error "invalid character 'o' in literal null (expecting 'u')" ∧
    (⟨"", Time.zero, ""⟩ : aws.OrganisationProof).Verify (Env.offline (Unix 0 0 0))
      [aws.WithClient (stubClient 200 "not xml <")] =
        .error "invalid character 'o' in literal null (expecting 'u')" := by
  have h := verify_returns_decode_error (Env.offline (Unix 0 0 0)) "not xml <"
    ⟨"sig", Unix 0 0 0, "tok"⟩ ⟨stubClient 200 "not xml <", ""⟩
    ⟨"", Time.zero, ""⟩ [aws.WithClient (stubClient 200 "not xml <")]
    ⟨"sig", Unix 0 0 0, "tok"⟩ ⟨stubClient 200 "not xml <", ""⟩
    ⟨"", Time.zero, ""⟩ [aws.WithClient (stubClient 200 "not xml <")] rfl rfl rfl rfl
  obtain ⟨e, he, hs, ha⟩ := h.2.1 (Or.inr (by decide))
  obtain ⟨e2, he2, ho, hao⟩ := h.2.2 (by decide) (by decide)
  have hx : xml.Unmarshal "not xml <" = .error "XML syntax error on line 1: unexpected EOF" := by
    decide
  have hj : json.Decode "not xml <" =
      .error "invalid character 'o' in literal null (expecting 'u')" := by decide
  rw [hx] at he
  rw [hj] at he2
  cases he
  cases he2
  exact ⟨hs, ha, ho, hao⟩

/-- C5 (amended): for every proof whose timestamp `T` has a UTC year from 0 to 9999, the
`X-Amz-Date` header that each verifier attaches is `T` converted to UTC and formatted as
`YYYYMMDDTHHMMSSZ`, with a four-digit year and two-digit month, day, hour, minute and second;
it is the same string for every timestamp of the same Unix second, whatever its time zone and
its sub-second part, and it does not depend on the environment, the wall clock included. -/
theorem x_amz_date_of_proof_time (env : Env) (T : Time) (sig tok : String)
    (sopts : stsproof.VerifyOpts) (oopts : orgproof.VerifyOpts)
    (aopts : List aws.IdentityVerifyOption)
    (h0 : 0 ≤ T.UTC.Year) (h1 : T.UTC.Year ≤ 9999) :
    (stsproof.verifyRequest ⟨sig, T, tok⟩ sopts).Header.Get "X-Amz-Date" =
      T.UTC.Format "20060102T150405Z" ∧
    (orgproof.verifyRequest ⟨sig, T, tok⟩ oopts).Header.Get "X-Amz-Date" =
      T.UTC.Format "20060102T150405Z" ∧
    (aws.identityVerifyRequest ⟨sig, T, tok⟩ (aws.verifyOptions env aopts)).Header.Get "X-Amz-Date" =
      T.UTC.Format "20060102T150405Z" ∧
    (aws.orgVerifyRequest ⟨sig, T, tok⟩ (aws.verifyOptions env aopts)).Header.Get "X-Amz-Date" =
      T.UTC.Format "20060102T150405Z" ∧
    T.UTC.Format "20060102T150405Z" =
      String.mk [digitChar (T.UTC.Year.toNat / 1000), digitChar (T.UTC.Year.toNat / 100),
        digitChar (T.UTC.Year.toNat / 10), digitChar T.UTC.Year.toNat,
        digitChar (T.UTC.Month / 10), digitChar T.UTC.Month,
        digitChar (T.UTC.Day / 10), digitChar T.UTC.Day, 'T',
        digitChar (T.UTC.Hour / 10), digitChar T.UTC.Hour,
        digitChar (T.UTC.Minute / 10), digitChar T.UTC.Minute,
        digitChar (T.UTC.Second / 10), digitChar T.UTC.Second, 'Z'] ∧
    (∀ T2 : Time, T2.unix = T.unix →
      T2.UTC.Format "20060102T150405Z" = T.UTC.Format "20060102T150405Z") :=
  ⟨stsproof.sts_verifyRequest_amzDate _ _, orgproof.org_verifyRequest_amzDate _ _,
    aws.identityVerifyRequest_amzDate _ _, aws.orgVerifyRequest_amzDate _ _,
    format_amz_digits _ h0 h1, fun T2 h => format_utc_congr T2 T _ h⟩

/-- C5 (witness): the header of a proof made at the Unix epoch in a zone one hour east of
UTC. -/
theorem x_amz_date_of_proof_time_witness :
    0 ≤ (Unix 0 0 3600).UTC.Year ∧ (Unix 0 0 3600).UTC.Year ≤ 9999 ∧
    (stsproof.verifyRequest ⟨"sig", Unix 0 0 3600, "tok"⟩ ⟨stubClient 200 "", ""⟩).Header.Get
      "X-Amz-Date" = (Unix 0 0 3600).UTC.Format "20060102T150405Z" ∧
    (Unix 0 0 3600).UTC.Format "20060102T150405Z" = "19700101T000000Z" :=
  ⟨by decide, by decide,
    (x_amz_date_of_proof_time (Env.offline (Unix 0 0 0)) (Unix 0 0 3600) "sig" "tok"
      ⟨stubClient 200 "", ""⟩ ⟨stubClient 200 "", ""⟩ [] (by decide) (by decide)).1,
    by decide⟩

/-- C5 (counterexample): for the timestamp 10000-01-01T00:00:00Z the `X-Amz-Date` header has a
five-digit year, 17 characters in all. -/
theorem x_amz_date_five_digit_year :
    (stsproof.verifyRequest ⟨"sig", Unix 253402300800 0 0, "tok"⟩
      ⟨stubClient 200 "", ""⟩).Header.Get "X-Amz-Date" = "100000101T000000Z" ∧
    ((stsproof.verifyRequest ⟨"sig", Unix 253402300800 0 0, "tok"⟩
      ⟨stubClient 200 "", ""⟩).Header.Get "X-Amz-Date").length ≠ 16 := by
  rw [stsproof.sts_verifyRequest_amzDate]
  decide

set_option maxRecDepth 1000000 in
/-- C6 (counterexample): for the stub credentials of `cptest` and the signing time
10000-01-01T00:00:00Z, the `Authorization` value of the proof that `stsproof.NewWithOpts`
returns has the nine-character date `100000101`, which is no `YYYYMMDD`. -/
theorem authorization_date_five_digit_year :
    stsproof.NewWithOpts (Env.offline (Unix 0 0 0)) ⟨some cptest.Config, Unix 253402300800 0 0⟩ =
      .ok { Signature := "AWS4-HMAC-SHA256 Credential=AKID/100000101/us-east-1/sts/aws4_request, SignedHeaders=content-length;host;x-amz-date;x-amz-security-token, Signature=7ef5dc65bf49ab70e99538a30f35d607bf5d449a2b5cc1d643467c1128bf772b",
            Time := Unix 253402300800 0 0,
            SecurityToken := "SESSION" } ∧
    (Unix 253402300800 0 0).UTC.Format "20060102" = "100000101" ∧
    ((Unix 253402300800 0 0).UTC.Format "20060102").length = 9 := by
  decide

/-- C6 (amended): for every credential set and every signing time `T` whose UTC year is from 0
to 9999, the `Authorization` value of the proof that `stsproof.NewWithOpts` returns is
`AWS4-HMAC-SHA256 Credential=<accessKey>/<date>/us-east-1/sts/aws4_request,
SignedHeaders=<list>, Signature=<64 lower-case hex digits>`, where the date is the eight digits
`YYYYMMDD` of the civil date of the day of `T` in UTC (the same for every time of the same Unix
second, whatever its zone), and the list is
`content-length;host;x-amz-date;x-amz-security-token` for a non-empty session token and
`content-length;host;x-amz-date` for an empty one. The value that the body of
`aws.NewIdentityProof` computes under the key `Signature` of its literal has the same form. -/
theorem identity_authorization_value (env : Env) (cfg : awssdk.Config) (creds : Credentials)
    (T : Time) (c : Option awssdk.Config) (aopts : List aws.ProofOption)
    (hcreds : cfg.Credentials = .ok creds) (hz : T.IsZero = false)
    (h0 : 0 ≤ (civil (T.unix / 86400)).1) (h1 : (civil (T.unix / 86400)).1 ≤ 9999) :
    (env.configOr c = .ok cfg →
      ∃ sig : String, sig.length = 64 ∧ (∀ x ∈ sig.toList, hex.isLowerHex x = true) ∧
        stsproof.NewWithOpts env ⟨c, T⟩ = .ok
          { Signature :=
              "AWS4-HMAC-SHA256 Credential=" ++ creds.AccessKeyID ++ "/" ++
                String.mk [digitChar ((civil (T.unix / 86400)).1.toNat / 1000),
                  digitChar ((civil (T.unix / 86400)).1.toNat / 100),
                  digitChar ((civil (T.unix / 86400)).1.toNat / 10),
                  digitChar (civil (T.unix / 86400)).1.toNat,
                  digitChar ((civil (T.unix / 86400)).2.1 / 10),
                  digitChar (civil (T.unix / 86400)).2.1,
                  digitChar ((civil (T.unix / 86400)).2.2 / 10),
                  digitChar (civil (T.unix / 86400)).2.2] ++
                "/us-east-1/sts/aws4_request, SignedHeaders=" ++
                (if creds.SessionToken = "" then "content-length;host;x-amz-date"
                 else "content-length;host;x-amz-date;x-amz-security-token") ++
                ", Signature=" ++ sig,
            Time := T,
            SecurityToken := creds.SessionToken }) ∧
    (env.configOr (aws.proveOptions env aopts).cfg = .ok cfg →
      (aws.proveOptions env aopts).time = T →
      ∃ sig : String, sig.length = 64 ∧ (∀ x ∈ sig.toList, hex.isLowerHex x = true) ∧
        aws.identityProofLiteral env aopts = .ok
          [("Signature", .str (
              "AWS4-HMAC-SHA256 Credential=" ++ creds.AccessKeyID ++ "/" ++
                String.mk [digitChar ((civil (T.unix / 86400)).1.toNat / 1000),
                  digitChar ((civil (T.unix / 86400)).1.toNat / 100),
                  digitChar ((civil (T.unix / 86400)).1.toNat / 10),
                  digitChar (civil (T.unix / 86400)).1.toNat,
                  digitChar ((civil (T.unix / 86400)).2.1 / 10),
                  digitChar (civil (T.unix / 86400)).2.1,
                  digitChar ((civil (T.unix / 86400)).2.2 / 10),
                  digitChar (civil (T.unix / 86400)).2.2] ++
                "/us-east-1/sts/aws4_request, SignedHeaders=" ++
                (if creds.SessionToken = "" then "content-length;host;x-amz-date"
                 else "content-length;host;x-amz-date;x-amz-security-token") ++
                ", Signature=" ++ sig)),
            ("Time", .time T),
            ("SecurityToken", .str creds.SessionToken)]) := by
  have hdate := format_short_digits T h0 h1
  constructor
  · intro hcfg
    obtain ⟨sig, s1, s2, s3⟩ := identity_authorization creds stsproof.createRequest
      stsproof.payloadHash "cloudproof-go/0.1.0" T.UTC
      (by rw [stsproof.sts_createRequest_eq]) (by rw [stsproof.sts_createRequest_eq])
      (by rw [stsproof.sts_createRequest_eq])
    rw [hdate] at s3
    have e := stsproof.sts_NewWithOpts_ok env ⟨c, T⟩ cfg creds hcfg hcreds
    simp only [hz, Bool.false_eq_true, if_false] at e
    exact ⟨sig, s1, s2, by rw [e, s3]⟩
  · intro hcfg ht
    obtain ⟨sig, s1, s2, s3⟩ := identity_authorization creds
      (aws.identityCreateRequest (aws.proveOptions env aopts))
      aws.identityPayloadHash (aws.proveOptions env aopts).useragent T.UTC
      (by rw [aws.identityCreateRequest_eq]) (by rw [aws.identityCreateRequest_eq])
      (by rw [aws.identityCreateRequest_eq])
    rw [hdate] at s3
    have e := aws.identityProofLiteral_ok env aopts cfg creds hcfg hcreds
    rw [ht] at e
    exact ⟨sig, s1, s2, by rw [e, s3]⟩

set_option maxRecDepth 1000000 in
/-- C6 (witness): the amended claim at the stub credentials of `cptest` and the signing time
1970-01-01T00:00:01Z in a zone one hour west of UTC, where the date on the local clock is
1969-12-31: the date of the `Authorization` value is `19700101`. -/
theorem identity_authorization_value_witness :
    cptest.Config.Credentials = .ok ⟨"AKID", "SECRET", "SESSION"⟩ ∧
    (Unix 1 0 (-3600)).IsZero = false ∧
    civil ((Unix 1 0 (-3600)).unix / 86400) = (1970, 1, 1) ∧
    (Unix 1 0 (-3600)).Format "20060102" = "19691231" ∧
    (Env.offline (Unix 0 0 0)).configOr (some cptest.Config) = .ok cptest.Config ∧
    (∃ sig : String, sig.length = 64 ∧ (∀ x ∈ sig.toList, hex.isLowerHex x = true) ∧
      stsproof.NewWithOpts (Env.offline (Unix 0 0 0)) ⟨some cptest.Config, Unix 1 0 (-3600)⟩ = .ok
        { Signature :=
            "AWS4-HMAC-SHA256 Credential=" ++ "AKID" ++ "/" ++ "19700101" ++
              "/us-east-1/sts/aws4_request, SignedHeaders=" ++
              "content-length;host;x-amz-date;x-amz-security-token" ++
              ", Signature=" ++ sig,
          Time := Unix 1 0 (-3600),
          SecurityToken := "SESSION" }) ∧
    stsproof.NewWithOpts (Env.offline (Unix 0 0 0)) ⟨some cptest.Config, Unix 1 0 (-3600)⟩ = .ok
      { Signature := "AWS4-HMAC-SHA256 Credential=AKID/19700101/us-east-1/sts/aws4_request, SignedHeaders=content-length;host;x-amz-date;x-amz-security-token, Signature=03fabf0e4a4900cea295f8462baa5684d9a5645d7f8bc2ba4caa67bee322a134",
        Time := Unix 1 0 (-3600),
        SecurityToken := "SESSION" } :=
  ⟨rfl, by decide, by decide, by decide, rfl,
    (identity_authorization_value (Env.offline (Unix 0 0 0)) cptest.Config
      ⟨"AKID", "SECRET", "SESSION"⟩ (Unix 1 0 (-3600)) (some cptest.Config) [] rfl (by decide)
      (by decide) (by decide)).1 rfl,
    by decide⟩

set_option maxRecDepth 1000000 in
/-- C7: `aws.NewIdentityProof` returns no proof, whatever its arguments: the composite literal
that ends it sets a field `Signature`, and `IdentityProof` has the fields `AuthHeader`, `Time`
and `SecurityToken` only, so the compiler rejects the function. For the stub credentials of
`cptest` (access key `AKID`, secret `SECRET`, session token `SESSION`) and the signing time
Unix epoch 0, the value that the body computes under the key `Signature` is the known vector
that the test reads from `AuthHeader`, whatever the environment and the time zone of the
signing time; the canonical request and the string to sign are the ones of SigV4 over the
identity-lookup request. -/
theorem identity_proof_literal_rejected (env : Env) (opts : List aws.ProofOption) (off : Int) :
    aws.NewIdentityProof env opts = .rejected "Signature" ∧
    aws.identityProofLiteralKeys = ["Signature", "Time", "SecurityToken"] ∧
    aws.IdentityProof.fieldNames = ["AuthHeader", "Time", "SecurityToken"] ∧
    aws.identityProofLiteral env [aws.WithTime (Unix 0 0 off), aws.WithConfig cptest.Config] = .ok
      [("Signature", .str "AWS4-HMAC-SHA256 Credential=AKID/19700101/us-east-1/sts/aws4_request, SignedHeaders=content-length;host;x-amz-date;x-amz-security-token, Signature=d154575f065814e849ddedecca60086221043973e620076fd561fb70dd440320"),
        ("Time", .time (Unix 0 0 off)),
        ("SecurityToken", .str "SESSION")] ∧
    (Build ⟨"AKID", "SECRET", "SESSION"⟩
        (aws.identityCreateRequest ⟨none, Unix 0 0 0, "commonfate-cloudattest/0.1.0"⟩)
        aws.identityPayloadHash "sts" "us-east-1" (Unix 0 0 0)).CanonicalString =
      "POST\n/\n\ncontent-length:43\nhost:sts.amazonaws.com\nx-amz-date:19700101T000000Z\nx-amz-security-token:SESSION\n\ncontent-length;host;x-amz-date;x-amz-security-token\nab821ae955788b0e33ebd34c208442ccfc2d406e2edc5e7a39bd6458fbb4f843" ∧
    (Build ⟨"AKID", "SECRET", "SESSION"⟩
        (aws.identityCreateRequest ⟨none, Unix 0 0 0, "commonfate-cloudattest/0.1.0"⟩)
        aws.identityPayloadHash "sts" "us-east-1" (Unix 0 0 0)).StringToSign =
      "AWS4-HMAC-SHA256\n19700101T000000Z\n19700101/us-east-1/sts/aws4_request\n40bef359d17aeac605b41c78fddeeb02a81e9f9ffe56953c60a5c26acdfcfd96" := by
  have hv : (Build ⟨"AKID", "SECRET", "SESSION"⟩
      (aws.identityCreateRequest ⟨some cptest.Config, Unix 0 0 0, "commonfate-cloudattest/0.1.0"⟩)
      aws.identityPayloadHash "sts" "us-east-1" (Unix 0 0 0)).Request.Header.Get "Authorization" =
      "AWS4-HMAC-SHA256 Credential=AKID/19700101/us-east-1/sts/aws4_request, SignedHeaders=content-length;host;x-amz-date;x-amz-security-token, Signature=d154575f065814e849ddedecca60086221043973e620076fd561fb70dd440320" := by
    decide
  refine ⟨aws.NewIdentityProof_rejected env opts, rfl, rfl, ?_, by decide, by decide⟩
  rw [aws.identityProofLiteral_ok env [aws.WithTime (Unix 0 0 off), aws.WithConfig cptest.Config]
    cptest.Config ⟨"AKID", "SECRET", "SESSION"⟩ rfl rfl]
  exact congrArg (fun a => Except.ok [("Signature", aws.FieldValue.str a),
    ("Time", aws.FieldValue.time (Unix 0 0 off)), ("SecurityToken", aws.FieldValue.str "SESSION")]) hv

/-- C8: for every non-zero `opts.Time` and every configuration whose credentials provider
returns credentials, `stsproof.NewWithOpts` and `orgproof.NewWithOpts` return a proof whose
`Time` is `opts.Time`, whose `SecurityToken` is the session token and whose `Signature` is the
`Authorization` header that the signer computes for that time; when `opts.Time` is the zero
time, the current time of the environment takes its place in all three. -/
theorem proof_records_signing_time (env : Env) (cfg : awssdk.Config) (creds : Credentials)
    (sopts : stsproof.Opts) (oopts : orgproof.Opts) (hcreds : cfg.Credentials = .ok creds) :
    (env.configOr sopts.AWSConfig = .ok cfg →
      (sopts.Time.IsZero = false →
        stsproof.NewWithOpts env sopts = .ok
          { Signature := (Build creds stsproof.createRequest stsproof.payloadHash "sts" "us-east-1"
              sopts.Time.UTC).Request.Header.Get "Authorization",
            Time := sopts.Time,
            SecurityToken := creds.SessionToken }) ∧
      (sopts.Time.IsZero = true →
        stsproof.NewWithOpts env sopts = .ok
          { Signature := (Build creds stsproof.createRequest stsproof.payloadHash "sts" "us-east-1"
              env.Now.UTC).Request.Header.Get "Authorization",
            Time := env.Now,
            SecurityToken := creds.SessionToken })) ∧
    (env.configOr oopts.AWSConfig = .ok cfg →
      (oopts.Time.IsZero = false →
        orgproof.NewWithOpts env oopts = .ok
          { Signature := (Build creds orgproof.createRequest orgproof.payloadHash "organizations"
              "us-east-1" oopts.Time.UTC).Request.Header.Get "Authorization",
            Time := oopts.Time,
            SecurityToken := creds.SessionToken }) ∧
      (oopts.Time.IsZero = true →
        orgproof.NewWithOpts env oopts = .ok
          { Signature := (Build creds orgproof.createRequest orgproof.payloadHash "organizations"
              "us-east-1" env.Now.UTC).Request.Header.Get "Authorization",
            Time := env.Now,
            SecurityToken := creds.SessionToken })) := by
  refine ⟨fun hcfg => ⟨fun hz => ?_, fun hz => ?_⟩, fun hcfg => ⟨fun hz => ?_, fun hz => ?_⟩⟩
  · rw [stsproof.sts_NewWithOpts_ok env sopts cfg creds hcfg hcreds, hz]; rfl
  · rw [stsproof.sts_NewWithOpts_ok env sopts cfg creds hcfg hcreds, hz]; rfl
  · rw [orgproof.org_NewWithOpts_ok env oopts cfg creds hcfg hcreds, hz]; rfl
  · rw [orgproof.org_NewWithOpts_ok env oopts cfg creds hcfg hcreds, hz]; rfl

/-- C8 (witness): the claim at the stub credentials of `cptest` with the signing time
1970-01-01T00:00:01Z, and with the zero time. -/
theorem proof_records_signing_time_witness :
    cptest.Config.Credentials = .ok ⟨"AKID", "SECRET", "SESSION"⟩ ∧
    (Env.offline (Unix 5 0 0)).configOr (some cptest.Config) = .ok cptest.Config ∧
    (Unix 1 0 0).IsZero = false ∧ Time.zero.IsZero = true ∧
    stsproof.NewWithOpts (Env.offline (Unix 5 0 0)) ⟨some cptest.Config, Unix 1 0 0⟩ = .ok
      { Signature := (Build ⟨"AKID", "SECRET", "SESSION"⟩ stsproof.createRequest
          stsproof.payloadHash "sts" "us-east-1" (Unix 1 0 0).UTC).Request.Header.Get "Authorization",
        Time := Unix 1 0 0,
        SecurityToken := "SESSION" } ∧
    orgproof.NewWithOpts (Env.offline (Unix 5 0 0)) ⟨some cptest.Config, Time.zero⟩ = .ok
      { Signature := (Build ⟨"AKID", "SECRET", "SESSION"⟩ orgproof.createRequest
          orgproof.payloadHash "organizations" "us-east-1" (Unix 5 0 0).UTC).Request.Header.Get
            "Authorization",
        Time := Unix 5 0 0,
        SecurityToken := "SESSION" } :=
  ⟨rfl, rfl, by decide, by decide,
    ((proof_records_signing_time (Env.offline (Unix 5 0 0)) cptest.Config
      ⟨"AKID", "SECRET", "SESSION"⟩ ⟨some cptest.Config, Unix 1 0 0⟩
      ⟨some cptest.Config, Time.zero⟩ rfl).1 rfl).1 (by decide),
    ((proof_records_signing_time (Env.offline (Unix 5 0 0)) cptest.Config
      ⟨"AKID", "SECRET", "SESSION"⟩ ⟨some cptest.Config, Unix 1 0 0⟩
      ⟨some cptest.Config, Time.zero⟩ rfl).2 rfl).2 (by decide)⟩

/-- C9 (the code at the failing input): with an empty `VerifyOpts.URL`,
`orgproof.OrganizationProof.VerifyWithOpts` (and so `Verify`) sends the replay request to
`https://sts.amazonaws.com/`, host `sts.amazonaws.com`, and not to the endpoint
`https://organizations.us-east-1.amazonaws.com/` that `orgproof.NewWithOpts` signed for. -/
theorem org_verify_default_url_is_sts (op : orgproof.OrganizationProof) (c : Client) :
    (orgproof.verifyRequest op ⟨c, ""⟩).URL = url.Parse "https://sts.amazonaws.com/" ∧
    (orgproof.verifyRequest op ⟨c, ""⟩).Host = "sts.amazonaws.com" ∧
    orgproof.createRequest.URL = url.Parse "https://organizations.us-east-1.amazonaws.com/" ∧
    orgproof.createRequest.Host = "organizations.us-east-1.amazonaws.com" ∧
    (orgproof.verifyRequest op ⟨c, ""⟩).Host ≠ orgproof.createRequest.Host ∧
    op.VerifyWithOpts ⟨⟨fun r => .error r.URL.Host⟩, ""⟩ = .error "sts.amazonaws.com" ∧
    (∀ env : Env, op.Verify env = op.VerifyWithOpts ⟨env.DefaultClient, ""⟩) := by
  refine ⟨rfl, rfl, rfl, rfl, ?_, rfl, fun _ => rfl⟩
  show "sts.amazonaws.com" ≠ "organizations.us-east-1.amazonaws.com"
  decide

set_option maxRecDepth 1000000 in
/-- C10 (counterexample): for the stub credentials of `cptest` and the signing time
1970-01-01T00:00:01Z, the headers that went into the signature of the identity-lookup proof
are `host`, `content-length`, `x-amz-date` and `x-amz-security-token`, while the request that
`Verify` replays carries, `Authorization` apart, `User-Agent`, `Accept-Encoding`,
`Content-Type`, `Content-Length`, `X-Amz-Security-Token` and `X-Amz-Date`: `Content-Type` is
attached at replay and was not signed. -/
theorem replay_headers_not_all_signed :
    stsproof.NewWithOpts (Env.offline (Unix 0 0 0)) ⟨some cptest.Config, Unix 1 0 0⟩ = .ok
      ⟨"AWS4-HMAC-SHA256 Credential=AKID/19700101/us-east-1/sts/aws4_request, SignedHeaders=content-length;host;x-amz-date;x-amz-security-token, Signature=03fabf0e4a4900cea295f8462baa5684d9a5645d7f8bc2ba4caa67bee322a134",
        Unix 1 0 0, "SESSION"⟩ ∧
    (Build ⟨"AKID", "SECRET", "SESSION"⟩ stsproof.createRequest stsproof.payloadHash "sts"
        "us-east-1" (Unix 1 0 0).UTC).SignedHeaders.entries.map Prod.fst =
      ["host", "content-length", "x-amz-date", "x-amz-security-token"] ∧
    ((stsproof.verifyRequest
        ⟨"AWS4-HMAC-SHA256 Credential=AKID/19700101/us-east-1/sts/aws4_request, SignedHeaders=content-length;host;x-amz-date;x-amz-security-token, Signature=03fabf0e4a4900cea295f8462baa5684d9a5645d7f8bc2ba4caa67bee322a134",
          Unix 1 0 0, "SESSION"⟩
        ⟨stubClient 200 "", ""⟩).Header.Del "Authorization").entries.map
          (fun kv => strings.ToLower kv.1) =
      ["user-agent", "accept-encoding", "content-type", "content-length", "x-amz-security-token",
        "x-amz-date"] ∧
    (Build ⟨"AKID", "SECRET", "SESSION"⟩ stsproof.createRequest stsproof.payloadHash "sts"
        "us-east-1" (Unix 1 0 0).UTC).SignedHeaders.values "content-type" = none ∧
    (stsproof.verifyRequest
        ⟨"AWS4-HMAC-SHA256 Credential=AKID/19700101/us-east-1/sts/aws4_request, SignedHeaders=content-length;host;x-amz-date;x-amz-security-token, Signature=03fabf0e4a4900cea295f8462baa5684d9a5645d7f8bc2ba4caa67bee322a134",
          Unix 1 0 0, "SESSION"⟩
        ⟨stubClient 200 "", ""⟩).headerValues "content-type" =
      some ["application/x-www-form-urlencoded"] := by
  refine ⟨by decide, by decide, by decide, by decide, by decide⟩

/-- C10 (amended): for both variants and for every credential set and signing time, every
header that went into the signature at creation (`host`, `x-amz-date`, `content-length` in the
identity-lookup variant, and `x-amz-security-token` for a non-empty session token) is on the
request that `Verify` replays, with the same value; the replayed request also carries a
`Content-Type` header, which is not among the signed headers. -/
theorem signed_headers_are_replayed (env : Env) (cfg : awssdk.Config) (creds : Credentials)
    (sopts : stsproof.Opts) (c : Client)
    (aopts : List aws.ProofOption) (vopts : List aws.IdentityVerifyOption)
    (hcreds : cfg.Credentials = .ok creds) :
    (env.configOr sopts.AWSConfig = .ok cfg →
      ∃ p : stsproof.Proof, stsproof.NewWithOpts env sopts = .ok p ∧
        (∀ name vals,
          (name, vals) ∈ (Build creds stsproof.createRequest stsproof.payloadHash "sts" "us-east-1"
            (if sopts.Time.IsZero then env.Now else sopts.Time).UTC).SignedHeaders.entries →
          (stsproof.verifyRequest p ⟨c, ""⟩).headerValues name = some vals) ∧
        (stsproof.verifyRequest p ⟨c, ""⟩).headerValues "content-type" =
          some ["application/x-www-form-urlencoded"] ∧
        (Build creds stsproof.createRequest stsproof.payloadHash "sts" "us-east-1"
          (if sopts.Time.IsZero then env.Now else sopts.Time).UTC).SignedHeaders.values
            "content-type" = none) ∧
    (env.configOr (aws.proveOptions env aopts).cfg = .ok cfg →
      ∃ p : aws.OrganisationProof, aws.NewOrgProof env aopts = .ok p ∧
        (∀ name vals,
          (name, vals) ∈ (Build creds (aws.orgCreateRequest (aws.proveOptions env aopts))
            aws.orgPayloadHash "organizations" "us-east-1"
            (aws.proveOptions env aopts).time.UTC).SignedHeaders.entries →
          (aws.orgVerifyRequest p (aws.verifyOptions env vopts)).headerValues name = some vals) ∧
        (aws.orgVerifyRequest p (aws.verifyOptions env vopts)).headerValues "content-type" =
          some ["application/x-amz-json-1.1"] ∧
        (Build creds (aws.orgCreateRequest (aws.proveOptions env aopts))
          aws.orgPayloadHash "organizations" "us-east-1"
          (aws.proveOptions env aopts).time.UTC).SignedHeaders.values "content-type" = none) := by
  constructor
  · intro hcfg
    refine ⟨_, stsproof.sts_NewWithOpts_ok env sopts cfg creds hcfg hcreds,
      fun name vals h => stsproof.signed_headers_replayed creds _ _ c name vals h, ?_, ?_⟩
    · simp [Request.headerValues, stsproof.sts_verifyRequest_header, lower_userAgent,
        lower_acceptEncoding, lower_contentType]
    · simp only [Header.values, stsproof.signedHeaders_entries]
      by_cases htok : creds.SessionToken = "" <;> simp [htok]
  · intro hcfg
    refine ⟨_, aws.NewOrgProof_ok env aopts cfg creds hcfg hcreds,
      fun name vals h => aws.org_signed_headers_replayed creds _ _ _ _ name vals h, ?_, ?_⟩
    · simp [Request.headerValues, aws.orgVerifyRequest_header, lower_contentType]
    · simp only [Header.values, aws.orgSignedHeaders_entries]
      by_cases htok : creds.SessionToken = "" <;> simp [htok]

/-- C10 (witness): the claim at the stub credentials of `cptest` and the signing time
1970-01-01T00:00:01Z. -/
theorem signed_headers_are_replayed_witness :
    cptest.Config.Credentials = .ok ⟨"AKID", "SECRET", "SESSION"⟩ ∧
    (Env.offline (Unix 0 0 0)).configOr (some cptest.Config) = .ok cptest.Config ∧
    ∃ p : stsproof.Proof,
      stsproof.NewWithOpts (Env.offline (Unix 0 0 0)) ⟨some cptest.Config, Unix 1 0 0⟩ = .ok p ∧
      (stsproof.verifyRequest p ⟨stubClient 200 "", ""⟩).headerValues "content-type" =
        some ["application/x-www-form-urlencoded"] := by
  obtain ⟨p, h1, -, h2, -⟩ := (signed_headers_are_replayed (Env.offline (Unix 0 0 0)) cptest.Config
    ⟨"AKID", "SECRET", "SESSION"⟩ ⟨some cptest.Config, Unix 1 0 0⟩ (stubClient 200 "") [] []
    rfl).1 rfl
  exact ⟨rfl, rfl, p, h1, h2⟩

/-- C11: for every ARN `a`, user id `u` and account `c`, when the transport answers with
status 200 and a body that the XML decoder reads as a document whose root element has one
child element `GetCallerIdentityResult`, which has one child element `Arn` with the character
data `a`, one `UserId` with `u` and one `Account` with `c`, the identity verifiers
`stsproof.Proof.VerifyWithOpts` and `aws.IdentityProof.Verify` return no error and the
`Identity` with `ARN` = `a`, `UserID` = `u` and `Account` = `c`, whatever the proof is. The
envelope is given by the tree of the document, so in any layout: white space, attributes,
further elements, the order of the three elements and what follows the root element are free,
and `a`, `u` and `c` are the character data after the entities have been replaced. -/
theorem identity_verifiers_decode_response (env : Env) (body rootName a u c : String)
    (kids rkids : List xml.Node)
    (ip : stsproof.Proof) (sopts : stsproof.VerifyOpts)
    (aip : aws.IdentityProof) (aopts : List aws.IdentityVerifyOption)
    (hbody : xml.parse body = .ok (.elem rootName kids))
    (hres : xml.elementsNamed "GetCallerIdentityResult" kids = [rkids])
    (ha : (xml.elementsNamed "Arn" rkids).map xml.charData = [a])
    (hu : (xml.elementsNamed "UserId" rkids).map xml.charData = [u])
    (hc : (xml.elementsNamed "Account" rkids).map xml.charData = [c]) :
    (sopts.Client.Do (stsproof.verifyRequest ip sopts) = .ok ⟨200, .ok body⟩ →
      ip.VerifyWithOpts sopts = .ok { ARN := a, UserID := u, Account := c }) ∧
    ((aws.verifyOptions env aopts).client.Do
        (aws.identityVerifyRequest aip (aws.verifyOptions env aopts)) = .ok ⟨200, .ok body⟩ →
      aip.Verify env aopts = .ok { ARN := a, UserID := u, Account := c }) := by
  obtain ⟨res, hd, hr⟩ := xml.Unmarshal_result body rootName a u c kids rkids hbody hres ha hu hc
  constructor
  · intro h
    rw [stsproof.VerifyWithOpts_response ip sopts _ h]
    simp only [hd, hr]
  · intro h
    rw [aws.IdentityProof.Verify_response env aip aopts _ h]
    simp only [hd, hr]

set_option maxRecDepth 1000000 in
/-- C11 (witness): a stub transport that answers 200 with the body of `TestVerify`, for the
verifier of `stsproof`, and with a body in the layout of STS, in which the three elements come
in another order and the ARN has a character entity, for the verifier of `aws` and the zero
proof. -/
theorem identity_verifiers_decode_response_witness :
    (⟨"sig", Unix 0 0 0, "tok"⟩ : stsproof.Proof).VerifyWithOpts
        ⟨stubClient 200 fixtures.testVerifyBody, ""⟩ =
      .ok { ARN := "arn:aws:sts::123456789012:assumed-role/test-role/test-session",
            UserID := "ABCDEFG12345:user-name", Account := "123456789012" } ∧
    (⟨"", Time.zero, ""⟩ : aws.IdentityProof).Verify (Env.offline (Unix 0 0 0))
        [aws.WithClient (stubClient 200 fixtures.callerIdentityReply)] =
      .ok { ARN := "arn:aws:iam::123456789012:user/a&b",
            UserID := "AIDACKCEVSQ6C2EXAMPLE", Account := "123456789012" } :=
  ⟨(identity_verifiers_decode_response (Env.offline (Unix 0 0 0)) fixtures.testVerifyBody
      "GetCallerIdentityResponse"
      "arn:aws:sts::123456789012:assumed-role/test-role/test-session"
      "ABCDEFG12345:user-name" "123456789012"
      [.text "\n  ",
       .elem "GetCallerIdentityResult"
         [.text "\n    ",
          .elem "Arn" [.text "arn:aws:sts::123456789012:assumed-role/test-role/test-session"],
          .text "\n    ",
          .elem "UserId" [.text "ABCDEFG12345:user-name"],
          .text "\n    ",
          .elem "Account" [.text "123456789012"],
          .text "\n  "],
       .text "\n  ",
       .elem "ResponseMetadata"
         [.text "\n    ", .elem "RequestId" [.text "00000"], .text "\n  "],
       .text "\n"]
      [.text "\n    ",
       .elem "Arn" [.text "arn:aws:sts::123456789012:assumed-role/test-role/test-session"],
       .text "\n    ",
       .elem "UserId" [.text "ABCDEFG12345:user-name"],
       .text "\n    ",
       .elem "Account" [.text "123456789012"],
       .text "\n  "]
      ⟨"sig", Unix 0 0 0, "tok"⟩ ⟨stubClient 200 fixtures.testVerifyBody, ""⟩
      ⟨"", Time.zero, ""⟩ [] (by rfl) (by rfl) (by rfl) (by rfl) (by rfl)).1 rfl,
    (identity_verifiers_decode_response (Env.offline (Unix 0 0 0)) fixtures.callerIdentityReply
      "GetCallerIdentityResponse" "arn:aws:iam::123456789012:user/a&b"
      "AIDACKCEVSQ6C2EXAMPLE" "123456789012"
      [.elem "GetCallerIdentityResult"
         [.elem "Account" [.text "123456789012"],
          .elem "UserId" [.text "AIDACKCEVSQ6C2EXAMPLE"],
          .elem "Arn" [.text "arn:aws:iam::123456789012:user/a&b"]],
       .elem "ResponseMetadata"
         [.elem "RequestId" [.text "01234567-89ab-cdef-0123-456789abcdef"]]]
      [.elem "Account" [.text "123456789012"],
       .elem "UserId" [.text "AIDACKCEVSQ6C2EXAMPLE"],
       .elem "Arn" [.text "arn:aws:iam::123456789012:user/a&b"]]
      ⟨"sig", Unix 0 0 0, "tok"⟩ ⟨stubClient 200 "", ""⟩ ⟨"", Time.zero, ""⟩
      [aws.WithClient (stubClient 200 fixtures.callerIdentityReply)]
      (by rfl) (by rfl) (by rfl) (by rfl) (by rfl)).2 rfl⟩

/-- C12: for every status-200 response whose body is a JSON text for an object with one member
`Organization`, an object with one member of each of the names `Arn`, `Id`, `FeatureSet`,
`MasterAccountArn`, `MasterAccountEmail` and `MasterAccountId`, each a string, and one member
`AvailablePolicyTypes`, a list of objects with one `Status` and one `Type` each, both strings,
the organization verifiers `orgproof.OrganizationProof.VerifyWithOpts` and
`aws.OrganisationProof.Verify` return no error and the `Organization` with these values:
`ARN` the `Arn`, `ID` the `Id`, `FeatureSet` the `FeatureSet`, `MainAccountARN` the
`MasterAccountArn`, `MainAccountEmail` the `MasterAccountEmail`, `MainAccountID` the
`MasterAccountId`, and as `AvailablePolicyTypes` the entries of the input list, as many and in
the same order, each with its `Status` and `Type`; whatever the proof is. The members may come
in any order and with members of other names between them; the body is given by the value
that the decoder reads from it. -/
theorem organization_verifiers_decode_response (env : Env) (body arn id fs maa mae mai : String)
    (top ms : List (String × json.Value)) (items : List json.Value)
    (pts : List (String × String))
    (op : orgproof.OrganizationProof) (opts : orgproof.VerifyOpts)
    (aop : aws.OrganisationProof) (aopts : List aws.IdentityVerifyOption)
    (hbody : json.parse body = .ok (.object top))
    (horg : json.valuesOf "Organization" top = [.object ms])
    (harn : json.valuesOf "Arn" ms = [.string arn])
    (hid : json.valuesOf "Id" ms = [.string id])
    (hapt : json.valuesOf "AvailablePolicyTypes" ms = [.array items])
    (hitems : List.Forall₂ (fun item st => ∃ m, item = json.Value.object m ∧
      json.valuesOf "Status" m = [.string st.1] ∧ json.valuesOf "Type" m = [.string st.2])
      items pts)
    (hfs : json.valuesOf "FeatureSet" ms = [.string fs])
    (hmaa : json.valuesOf "MasterAccountArn" ms = [.string maa])
    (hmae : json.valuesOf "MasterAccountEmail" ms = [.string mae])
    (hmai : json.valuesOf "MasterAccountId" ms = [.string mai]) :
    (opts.Client.Do (orgproof.verifyRequest op opts) = .ok ⟨200, .ok body⟩ →
      op.VerifyWithOpts opts = .ok
        { ARN := arn, ID := id,
          AvailablePolicyTypes := pts.map fun st => { Status := st.1, Type_ := st.2 },
          FeatureSet := fs, MainAccountARN := maa, MainAccountEmail := mae,
          MainAccountID := mai }) ∧
    ((aws.verifyOptions env aopts).client.Do
        (aws.orgVerifyRequest aop (aws.verifyOptions env aopts)) = .ok ⟨200, .ok body⟩ →
      aop.Verify env aopts = .ok
        { ARN := arn, ID := id,
          AvailablePolicyTypes := pts.map fun st => { Status := st.1, Type_ := st.2 },
          FeatureSet := fs, MainAccountARN := maa, MainAccountEmail := mae,
          MainAccountID := mai }) := by
  have hd := json.Decode_organization body top ms items arn id fs maa mae mai pts hbody horg
    harn hid hapt hitems hfs hmaa hmae hmai
  constructor
  · intro h
    rw [orgproof.org_VerifyWithOpts_ok op opts _ h rfl]
    simp only [hd, orgproof.org_policyTypes_map, List.map_map]
    rfl
  · intro h
    rw [aws.OrganisationProof.Verify_ok env aop aopts _ h rfl]
    simp only [hd, aws.aws_policyTypes_map, List.map_map]
    rfl

set_option maxRecDepth 1000000 in
/-- C12 (witness): a stub transport that answers 200 with a body in the layout of the service,
for both organization verifiers: the members are in the order of the service, the second policy
type has its `Type` before its `Status`, the e-mail address has a `\u` escape, and there is a
member that the struct does not have. -/
theorem organization_verifiers_decode_response_witness :
    (⟨"sig", Unix 0 0 0, "tok"⟩ : orgproof.OrganizationProof).VerifyWithOpts
        ⟨stubClient 200 fixtures.organizationReply, ""⟩ =
      .ok
        { ARN := "arn:aws:organizations::000000000001:organization/o-abc", ID := "o-abc",
          AvailablePolicyTypes := [⟨"ENABLED", "SERVICE_CONTROL_POLICY"⟩,
            ⟨"PENDING_ENABLE", "TAG_POLICY"⟩],
          FeatureSet := "ALL",
          MainAccountARN := "arn:aws:organizations::000000000001:account/o-abc/000000000001",
          MainAccountEmail := "root@example.org", MainAccountID := "000000000001" } ∧
    (⟨"", Time.zero, ""⟩ : aws.OrganisationProof).Verify (Env.offline (Unix 0 0 0))
        [aws.WithClient (stubClient 200 fixtures.organizationReply)] =
      .ok
        { ARN := "arn:aws:organizations::000000000001:organization/o-abc", ID := "o-abc",
          AvailablePolicyTypes := [⟨"ENABLED", "SERVICE_CONTROL_POLICY"⟩,
            ⟨"PENDING_ENABLE", "TAG_POLICY"⟩],
          FeatureSet := "ALL",
          MainAccountARN := "arn:aws:organizations::000000000001:account/o-abc/000000000001",
          MainAccountEmail := "root@example.org", MainAccountID := "000000000001" } :=
  ⟨(organization_verifiers_decode_response (Env.offline (Unix 0 0 0))
      fixtures.organizationReply
      "arn:aws:organizations::000000000001:organization/o-abc" "o-abc" "ALL"
      "arn:aws:organizations::000000000001:account/o-abc/000000000001" "root@example.org"
      "000000000001"
      [("Organization", .object
        [("Arn", .string "arn:aws:organizations::000000000001:organization/o-abc"),
         ("AvailablePolicyTypes", .array
           [.object [("Status", .string "ENABLED"), ("Type", .string "SERVICE_CONTROL_POLICY")],
            .object [("Type", .string "TAG_POLICY"), ("Status", .string "PENDING_ENABLE")]]),
         ("FeatureSet", .string "ALL"),
         ("Id", .string "o-abc"),
         ("MasterAccountArn",
          .string "arn:aws:organizations::000000000001:account/o-abc/000000000001"),
         ("MasterAccountEmail", .string "root@example.org"),
         ("MasterAccountId", .string "000000000001"),
         ("Extra", .array [.number "1", .bool true, .null])])]
      [("Arn", .string "arn:aws:organizations::000000000001:organization/o-abc"),
       ("AvailablePolicyTypes", .array
         [.object [("Status", .string "ENABLED"), ("Type", .string "SERVICE_CONTROL_POLICY")],
          .object [("Type", .string "TAG_POLICY"), ("Status", .string "PENDING_ENABLE")]]),
       ("FeatureSet", .string "ALL"),
       ("Id", .string "o-abc"),
       ("MasterAccountArn",
        .string "arn:aws:organizations::000000000001:account/o-abc/000000000001"),
       ("MasterAccountEmail", .string "root@example.org"),
       ("MasterAccountId", .string "000000000001"),
       ("Extra", .array [.number "1", .bool true, .null])]
      [.object [("Status", .string "ENABLED"), ("Type", .string "SERVICE_CONTROL_POLICY")],
       .object [("Type", .string "TAG_POLICY"), ("Status", .string "PENDING_ENABLE")]]
      [("ENABLED", "SERVICE_CONTROL_POLICY"), ("PENDING_ENABLE", "TAG_POLICY")]
      ⟨"sig", Unix 0 0 0, "tok"⟩ ⟨stubClient 200 fixtures.organizationReply, ""⟩
      ⟨"", Time.zero, ""⟩ []
      (by rfl) (by rfl) (by rfl) (by rfl) (by rfl)
      (.cons ⟨_, rfl, by rfl, by rfl⟩ (.cons ⟨_, rfl, by rfl, by rfl⟩ .nil))
      (by rfl) (by rfl) (by rfl) (by rfl)).1 rfl,
    (organization_verifiers_decode_response (Env.offline (Unix 0 0 0))
      fixtures.organizationReply
      "arn:aws:organizations::000000000001:organization/o-abc" "o-abc" "ALL"
      "arn:aws:organizations::000000000001:account/o-abc/000000000001" "root@example.org"
      "000000000001"
      [("Organization", .object
        [("Arn", .string "arn:aws:organizations::000000000001:organization/o-abc"),
         ("AvailablePolicyTypes", .array
           [.object [("Status", .string "ENABLED"), ("Type", .string "SERVICE_CONTROL_POLICY")],
            .object [("Type", .string "TAG_POLICY"), ("Status", .string "PENDING_ENABLE")]]),
         ("FeatureSet", .string "ALL"),
         ("Id", .string "o-abc"),
         ("MasterAccountArn",
          .string "arn:aws:organizations::000000000001:account/o-abc/000000000001"),
         ("MasterAccountEmail", .string "root@example.org"),
         ("MasterAccountId", .string "000000000001"),
         ("Extra", .array [.number "1", .bool true, .null])])]
      [("Arn", .string "arn:aws:organizations::000000000001:organization/o-abc"),
       ("AvailablePolicyTypes", .array
         [.object [("Status", .string "ENABLED"), ("Type", .string "SERVICE_CONTROL_POLICY")],
          .object [("Type", .string "TAG_POLICY"), ("Status", .string "PENDING_ENABLE")]]),
       ("FeatureSet", .string "ALL"),
       ("Id", .string "o-abc"),
       ("MasterAccountArn",
        .string "arn:aws:organizations::000000000001:account/o-abc/000000000001"),
       ("MasterAccountEmail", .string "root@example.org"),
       ("MasterAccountId", .string "000000000001"),
       ("Extra", .array [.number "1", .bool true, .null])]
      [.object [("Status", .string "ENABLED"), ("Type", .string "SERVICE_CONTROL_POLICY")],
       .object [("Type", .string "TAG_POLICY"), ("Status", .string "PENDING_ENABLE")]]
      [("ENABLED", "SERVICE_CONTROL_POLICY"), ("PENDING_ENABLE", "TAG_POLICY")]
      ⟨"sig", Unix 0 0 0, "tok"⟩ ⟨stubClient 200 "", ""⟩
      ⟨"", Time.zero, ""⟩ [aws.WithClient (stubClient 200 fixtures.organizationReply)]
      (by rfl) (by rfl) (by rfl) (by rfl) (by rfl)
      (.cons ⟨_, rfl, by rfl, by rfl⟩ (.cons ⟨_, rfl, by rfl, by rfl⟩ .nil))
      (by rfl) (by rfl) (by rfl) (by rfl)).2 rfl⟩

/-- C13: in the identity-lookup variant the body built at signing and at replay is the 43-byte
string `Action=GetCallerIdentity&Version=2011-06-15`, the payload hash handed to the signer is
the hex SHA-256 of that string, and the `Content-Length` header is `43`; in the
organization-lookup variant the body is empty and the payload hash is the hex SHA-256 of the
empty string. -/
theorem request_bodies_and_payload_hashes :
    (stsproof.data.Encode = "Action=GetCallerIdentity&Version=2011-06-15" ∧
      aws.data.Encode = "Action=GetCallerIdentity&Version=2011-06-15" ∧
      byteLen "Action=GetCallerIdentity&Version=2011-06-15" = 43) ∧
    (stsproof.createRequest.Body = "Action=GetCallerIdentity&Version=2011-06-15" ∧
      stsproof.createRequest.ContentLength = 43 ∧
      (∀ o : aws.ProveOptions,
        (aws.identityCreateRequest o).Body = "Action=GetCallerIdentity&Version=2011-06-15" ∧
        (aws.identityCreateRequest o).ContentLength = 43)) ∧
    ((∀ (ip : stsproof.Proof) (opts : stsproof.VerifyOpts),
        (stsproof.verifyRequest ip opts).Body = "Action=GetCallerIdentity&Version=2011-06-15" ∧
        (stsproof.verifyRequest ip opts).ContentLength = 43 ∧
        (stsproof.verifyRequest ip opts).Header.Get "Content-Length" = "43") ∧
      (∀ (ip : aws.IdentityProof) (o : aws.IdentityVerifyOptions),
        (aws.identityVerifyRequest ip o).Body = "Action=GetCallerIdentity&Version=2011-06-15" ∧
        (aws.identityVerifyRequest ip o).ContentLength = 43 ∧
        (aws.identityVerifyRequest ip o).Header.Get "Content-Length" = "43")) ∧
    (stsproof.payloadHash =
        hex.EncodeToString (sha256.Sum256 (bytesOf "Action=GetCallerIdentity&Version=2011-06-15")) ∧
      aws.identityPayloadHash =
        hex.EncodeToString (sha256.Sum256 (bytesOf "Action=GetCallerIdentity&Version=2011-06-15")) ∧
      stsproof.payloadHash = "ab821ae955788b0e33ebd34c208442ccfc2d406e2edc5e7a39bd6458fbb4f843") ∧
    (orgproof.createRequest.Body = "" ∧ orgproof.createRequest.ContentLength = 0 ∧
      (∀ o : aws.ProveOptions,
        (aws.orgCreateRequest o).Body = "" ∧ (aws.orgCreateRequest o).ContentLength = 0) ∧
      (∀ (op : orgproof.OrganizationProof) (opts : orgproof.VerifyOpts),
        (orgproof.verifyRequest op opts).Body = "") ∧
      (∀ (op : aws.OrganisationProof) (o : aws.IdentityVerifyOptions),
        (aws.orgVerifyRequest op o).Body = "")) ∧
    (orgproof.payloadHash = hex.EncodeToString (sha256.Sum256 (bytesOf "")) ∧
      aws.orgPayloadHash = hex.EncodeToString (sha256.Sum256 (bytesOf "")) ∧
      orgproof.payloadHash = "e3b0c44298fc1c149afbf4c8996fb92427ae41e4649b934ca495991b7852b855") := by
  refine ⟨⟨by decide, by decide, by decide⟩, ⟨by decide, by decide, fun o => ⟨rfl, rfl⟩⟩,
    ⟨fun ip opts => ⟨rfl, rfl, ?_⟩, fun ip o => ⟨rfl, rfl, ?_⟩⟩, ⟨by decide, by decide, by decide⟩,
    ⟨by decide, by decide, fun o => ⟨rfl, rfl⟩, fun op opts => rfl, fun op o => rfl⟩,
    ⟨rfl, rfl, by decide⟩⟩
  · simp [stsproof.sts_verifyRequest_header, Header.Get, Header.values, canonicalKey_contentLength]
  · simp [aws.identityVerifyRequest_header, Header.Get, Header.values, canonicalKey_contentLength]

/-- C14: for fixed credentials and a fixed signing time, two invocations of proof creation of
the same variant return the same proof, and so the same `Authorization` value, whatever the
environment of each invocation (its wall clock, its default configuration) and whatever the
other options of each, the user agent among them: so for `aws.NewOrgProof`, for
`stsproof.NewWithOpts` and for `orgproof.NewWithOpts`. Of `aws.NewIdentityProof`, which the
compiler rejects, the entries that its body computes for the proof are the same in the two
invocations. -/
theorem creation_is_deterministic (env1 env2 : Env) (cfg1 cfg2 : awssdk.Config)
    (creds : Credentials) (t : Time) (opts1 opts2 : List aws.ProofOption)
    (c1 c2 : Option awssdk.Config)
    (h1 : cfg1.Credentials = .ok creds) (h2 : cfg2.Credentials = .ok creds) :
    (env1.configOr (aws.proveOptions env1 opts1).cfg = .ok cfg1 →
      env2.configOr (aws.proveOptions env2 opts2).cfg = .ok cfg2 →
      (aws.proveOptions env1 opts1).time = t → (aws.proveOptions env2 opts2).time = t →
      (∃ auth : String,
        aws.NewOrgProof env1 opts1 = .ok ⟨auth, t, creds.SessionToken⟩ ∧
        aws.NewOrgProof env2 opts2 = .ok ⟨auth, t, creds.SessionToken⟩) ∧
      (∃ auth : String,
        aws.identityProofLiteral env1 opts1 = .ok [("Signature", .str auth), ("Time", .time t),
          ("SecurityToken", .str creds.SessionToken)] ∧
        aws.identityProofLiteral env2 opts2 = .ok [("Signature", .str auth), ("Time", .time t),
          ("SecurityToken", .str creds.SessionToken)])) ∧
    (env1.configOr c1 = .ok cfg1 → env2.configOr c2 = .ok cfg2 → t.IsZero = false →
      (∃ auth : String,
        stsproof.NewWithOpts env1 ⟨c1, t⟩ = .ok ⟨auth, t, creds.SessionToken⟩ ∧
        stsproof.NewWithOpts env2 ⟨c2, t⟩ = .ok ⟨auth, t, creds.SessionToken⟩) ∧
      (∃ auth : String,
        orgproof.NewWithOpts env1 ⟨c1, t⟩ = .ok ⟨auth, t, creds.SessionToken⟩ ∧
        orgproof.NewWithOpts env2 ⟨c2, t⟩ = .ok ⟨auth, t, creds.SessionToken⟩)) := by
  constructor
  · intro hc1 hc2 ht1 ht2
    have e1 := aws.identityProofLiteral_ok env1 opts1 cfg1 creds hc1 h1
    have e2 := aws.identityProofLiteral_ok env2 opts2 cfg2 creds hc2 h2
    have o1 := aws.NewOrgProof_ok env1 opts1 cfg1 creds hc1 h1
    have o2 := aws.NewOrgProof_ok env2 opts2 cfg2 creds hc2 h2
    rw [ht1] at e1 o1
    rw [ht2] at e2 o2
    refine ⟨⟨_, o1, ?_⟩, ⟨_, e1, ?_⟩⟩
    · rw [o2, authorization_userAgent creds
        (aws.orgCreateRequest (aws.proveOptions env1 opts1))
        (aws.orgCreateRequest (aws.proveOptions env2 opts2)) aws.orgPayloadHash "organizations"
        "us-east-1" (aws.proveOptions env1 opts1).useragent (aws.proveOptions env2 opts2).useragent
        t.UTC (by rw [aws.orgCreateRequest_eq]; exact org_port)
        (by rw [aws.orgCreateRequest_eq]; show "organizations.us-east-1.amazonaws.com" ≠ ""; decide)
        (by rw [aws.orgCreateRequest_eq])
        (by rw [aws.orgCreateRequest_eq, aws.orgCreateRequest_eq])]
    · rw [e2, authorization_userAgent creds
        (aws.identityCreateRequest (aws.proveOptions env1 opts1))
        (aws.identityCreateRequest (aws.proveOptions env2 opts2)) aws.identityPayloadHash "sts"
        "us-east-1" (aws.proveOptions env1 opts1).useragent (aws.proveOptions env2 opts2).useragent
        t.UTC (by rw [aws.identityCreateRequest_eq]; exact sts_port)
        (by rw [aws.identityCreateRequest_eq]; show "sts.amazonaws.com" ≠ ""; decide)
        (by rw [aws.identityCreateRequest_eq])
        (by rw [aws.identityCreateRequest_eq, aws.identityCreateRequest_eq])]
  · intro hc1 hc2 hz
    have e1 := stsproof.sts_NewWithOpts_ok env1 ⟨c1, t⟩ cfg1 creds hc1 h1
    have e2 := stsproof.sts_NewWithOpts_ok env2 ⟨c2, t⟩ cfg2 creds hc2 h2
    have o1 := orgproof.org_NewWithOpts_ok env1 ⟨c1, t⟩ cfg1 creds hc1 h1
    have o2 := orgproof.org_NewWithOpts_ok env2 ⟨c2, t⟩ cfg2 creds hc2 h2
    simp only [hz, Bool.false_eq_true, if_false] at e1 e2 o1 o2
    exact ⟨⟨_, e1, e2⟩, ⟨_, o1, o2⟩⟩

set_option maxRecDepth 1000000 in
/-- C14 (witness): two invocations of `aws.NewOrgProof` with the stub credentials of `cptest`
and the signing time Unix epoch 0, at different wall-clock times and with different user
agents; and two invocations of `stsproof.NewWithOpts` at different wall-clock times. -/
theorem creation_is_deterministic_witness :
    cptest.Config.Credentials = .ok ⟨"AKID", "SECRET", "SESSION"⟩ ∧
    (∃ auth : String,
      aws.NewOrgProof (Env.offline (Unix 1700000000 0 0))
        [aws.WithTime (Unix 0 0 0), aws.WithConfig cptest.Config, aws.WithUserAgent "first/1.0"] =
          .ok ⟨auth, Unix 0 0 0, "SESSION"⟩ ∧
      aws.NewOrgProof (Env.offline (Unix 1800000000 5 3600))
        [aws.WithUserAgent "second/2.0", aws.WithConfig cptest.Config, aws.WithTime (Unix 0 0 0)] =
          .ok ⟨auth, Unix 0 0 0, "SESSION"⟩) ∧
    (∃ auth : String,
      stsproof.NewWithOpts (Env.offline (Unix 1700000000 0 0)) ⟨some cptest.Config, Unix 0 0 0⟩ =
        .ok ⟨auth, Unix 0 0 0, "SESSION"⟩ ∧
      stsproof.NewWithOpts (Env.offline (Unix 1800000000 5 3600)) ⟨some cptest.Config, Unix 0 0 0⟩ =
        .ok ⟨auth, Unix 0 0 0, "SESSION"⟩) :=
  ⟨rfl,
    ((creation_is_deterministic (Env.offline (Unix 1700000000 0 0))
      (Env.offline (Unix 1800000000 5 3600)) cptest.Config cptest.Config
      ⟨"AKID", "SECRET", "SESSION"⟩ (Unix 0 0 0)
      [aws.WithTime (Unix 0 0 0), aws.WithConfig cptest.Config, aws.WithUserAgent "first/1.0"]
      [aws.WithUserAgent "second/2.0", aws.WithConfig cptest.Config, aws.WithTime (Unix 0 0 0)]
      none none rfl rfl).1 rfl rfl rfl rfl).1,
    ((creation_is_deterministic (Env.offline (Unix 1700000000 0 0))
      (Env.offline (Unix 1800000000 5 3600)) cptest.Config cptest.Config
      ⟨"AKID", "SECRET", "SESSION"⟩ (Unix 0 0 0) [] []
      (some cptest.Config) (some cptest.Config) rfl rfl).2 rfl rfl (by decide)).1⟩

/-- C15 (counterexample): the proof of `stsproof` with the signature `sig`, the time
1970-01-01T00:00:01Z and the session token `tok` serialises to an object whose third key is
`security_token`, which is neither `securityToken` nor `sessionToken`; decoded as an
`aws.OrganisationProof` that object gives a proof whose session token is empty. -/
theorem session_token_lost_across_packages :
    stsproof.Proof.Marshal ⟨"sig", Unix 1 0 0, "tok"⟩ =
      .ok (.object [("signature", .string "sig"), ("time", .string "1970-01-01T00:00:01Z"),
        ("security_token", .string "tok")]) ∧
    aws.OrganisationProof.Unmarshal
        (.object [("signature", .string "sig"), ("time", .string "1970-01-01T00:00:01Z"),
          ("security_token", .string "tok")]) =
      .ok ⟨"sig", Unix 1 0 0, ""⟩ ∧
    ("security_token" : String) ≠ "securityToken" ∧ ("security_token" : String) ≠ "sessionToken" := by
  refine ⟨json.marshalProof_ok _ _ _ _ _ _ (by decide), ?_, by decide, by decide⟩
  simp only [aws.OrganisationProof.Unmarshal,
    json.unmarshalProof_otherToken "signature" "securityToken" "security_token"
    "sig" "tok" "1970-01-01T00:00:01Z" (Unix 1 0 0) (by decide) (by decide) (by decide)
    (by decide) (by decide) (by decide), Except.map]

/-- C15 (amended): a proof whose time has an RFC 3339 text serialises to a JSON object with
exactly three keys: the `Authorization` value under `authHeader` (`aws.IdentityProof`) or
`signature` (the three other types), the time under `time`, and the session token under
`securityToken` (package `aws`) or `security_token` (`stsproof`, `orgproof`). Decoded as another
proof type, the object keeps its session token when both types use the same key for it, and
gives an empty session token when they do not; likewise for the `Authorization` value. -/
theorem proof_json_keys_per_package (sig tok text : String) (t t2 : Time)
    (hm : t.MarshalJSON = .ok text) (hu : Time.UnmarshalJSON text = .ok t2) :
    (stsproof.Proof.Marshal ⟨sig, t, tok⟩ =
        .ok (.object [("signature", .string sig), ("time", .string text),
          ("security_token", .string tok)]) ∧
      orgproof.OrganizationProof.Marshal ⟨sig, t, tok⟩ =
        .ok (.object [("signature", .string sig), ("time", .string text),
          ("security_token", .string tok)]) ∧
      aws.OrganisationProof.Marshal ⟨sig, t, tok⟩ =
        .ok (.object [("signature", .string sig), ("time", .string text),
          ("securityToken", .string tok)]) ∧
      aws.IdentityProof.Marshal ⟨sig, t, tok⟩ =
        .ok (.object [("authHeader", .string sig), ("time", .string text),
          ("securityToken", .string tok)])) ∧
    (stsproof.Proof.Unmarshal (.object [("signature", .string sig), ("time", .string text),
        ("security_token", .string tok)]) = .ok ⟨sig, t2, tok⟩ ∧
      orgproof.OrganizationProof.Unmarshal (.object [("signature", .string sig),
        ("time", .string text), ("security_token", .string tok)]) = .ok ⟨sig, t2, tok⟩ ∧
      aws.OrganisationProof.Unmarshal (.object [("signature", .string sig),
        ("time", .string text), ("security_token", .string tok)]) = .ok ⟨sig, t2, ""⟩ ∧
      aws.IdentityProof.Unmarshal (.object [("signature", .string sig),
        ("time", .string text), ("security_token", .string tok)]) = .ok ⟨"", t2, ""⟩) ∧
    (stsproof.Proof.Unmarshal (.object [("signature", .string sig), ("time", .string text),
        ("securityToken", .string tok)]) = .ok ⟨sig, t2, ""⟩ ∧
      orgproof.OrganizationProof.Unmarshal (.object [("signature", .string sig),
        ("time", .string text), ("securityToken", .string tok)]) = .ok ⟨sig, t2, ""⟩ ∧
      aws.OrganisationProof.Unmarshal (.object [("signature", .string sig),
        ("time", .string text), ("securityToken", .string tok)]) = .ok ⟨sig, t2, tok⟩ ∧
      aws.IdentityProof.Unmarshal (.object [("signature", .string sig),
        ("time", .string text), ("securityToken", .string tok)]) = .ok ⟨"", t2, tok⟩) ∧
    (stsproof.Proof.Unmarshal (.object [("authHeader", .string sig), ("time", .string text),
        ("securityToken", .string tok)]) = .ok ⟨"", t2, ""⟩ ∧
      orgproof.OrganizationProof.Unmarshal (.object [("authHeader", .string sig),
        ("time", .string text), ("securityToken", .string tok)]) = .ok ⟨"", t2, ""⟩ ∧
      aws.OrganisationProof.Unmarshal (.object [("authHeader", .string sig),
        ("time", .string text), ("securityToken", .string tok)]) = .ok ⟨"", t2, tok⟩ ∧
      aws.IdentityProof.Unmarshal (.object [("authHeader", .string sig),
        ("time", .string text), ("securityToken", .string tok)]) = .ok ⟨sig, t2, tok⟩) := by
  refine ⟨⟨?_, ?_, ?_, ?_⟩, ⟨?_, ?_, ?_, ?_⟩, ⟨?_, ?_, ?_, ?_⟩, ⟨?_, ?_, ?_, ?_⟩⟩
  · exact json.marshalProof_ok _ _ sig tok text t hm
  · exact json.marshalProof_ok _ _ sig tok text t hm
  · exact json.marshalProof_ok _ _ sig tok text t hm
  · exact json.marshalProof_ok _ _ sig tok text t hm
  · simp only [stsproof.Proof.Unmarshal, json.unmarshalProof_same "signature" "security_token"
      sig tok text t2 (by decide) (by decide) (by decide) (by decide) (by decide) hu, Except.map]
  · simp only [orgproof.OrganizationProof.Unmarshal,
      json.unmarshalProof_same "signature" "security_token"
      sig tok text t2 (by decide) (by decide) (by decide) (by decide) (by decide) hu, Except.map]
  · simp only [aws.OrganisationProof.Unmarshal,
      json.unmarshalProof_otherToken "signature" "securityToken" "security_token"
      sig tok text t2 (by decide) (by decide) (by decide) (by decide) (by decide) hu, Except.map]
  · simp only [aws.IdentityProof.Unmarshal,
      json.unmarshalProof_otherBoth "authHeader" "securityToken" "signature" "security_token"
      sig tok text t2 (by decide) (by decide) (by decide) (by decide) (by decide) (by decide)
      (by decide) hu, Except.map]
  · simp only [stsproof.Proof.Unmarshal,
      json.unmarshalProof_otherToken "signature" "security_token" "securityToken"
      sig tok text t2 (by decide) (by decide) (by decide) (by decide) (by decide) hu, Except.map]
  · simp only [orgproof.OrganizationProof.Unmarshal,
      json.unmarshalProof_otherToken "signature" "security_token" "securityToken"
      sig tok text t2 (by decide) (by decide) (by decide) (by decide) (by decide) hu, Except.map]
  · simp only [aws.OrganisationProof.Unmarshal,
      json.unmarshalProof_same "signature" "securityToken"
      sig tok text t2 (by decide) (by decide) (by decide) (by decide) (by decide) hu, Except.map]
  · simp only [aws.IdentityProof.Unmarshal,
      json.unmarshalProof_otherSignature "authHeader" "securityToken" "signature"
      sig tok text t2 (by decide) (by decide) (by decide) (by decide) (by decide) (by decide)
      (by decide) hu, Except.map]
  · simp only [stsproof.Proof.Unmarshal,
      json.unmarshalProof_otherBoth "signature" "security_token" "authHeader" "securityToken"
      sig tok text t2 (by decide) (by decide) (by decide) (by decide) (by decide) (by decide)
      (by decide) hu, Except.map]
  · simp only [orgproof.OrganizationProof.Unmarshal,
      json.unmarshalProof_otherBoth "signature" "security_token" "authHeader" "securityToken"
      sig tok text t2 (by decide) (by decide) (by decide) (by decide) (by decide) (by decide)
      (by decide) hu, Except.map]
  · simp only [aws.OrganisationProof.Unmarshal,
      json.unmarshalProof_otherSignature "signature" "securityToken" "authHeader"
      sig tok text t2 (by decide) (by decide) (by decide) (by decide) (by decide) (by decide)
      (by decide) hu, Except.map]
  · simp only [aws.IdentityProof.Unmarshal,
      json.unmarshalProof_same "authHeader" "securityToken"
      sig tok text t2 (by decide) (by decide) (by decide) (by decide) (by decide) hu, Except.map]

/-- C15 (witness): the amended claim at the time 2024-11-04T10:05:11.000005+01:00, where the
proof of `aws.OrganisationProof` decodes in `aws.IdentityProof` with its session token and
without its `Authorization` value. -/
theorem proof_json_keys_per_package_witness :
    (Unix 1730711111 5000 3600).MarshalJSON = .ok "2024-11-04T10:05:11.000005+01:00" ∧
    Time.UnmarshalJSON "2024-11-04T10:05:11.000005+01:00" = .ok (Unix 1730711111 5000 3600) ∧
    aws.IdentityProof.Unmarshal (.object [("signature", .string "sig"),
      ("time", .string "2024-11-04T10:05:11.000005+01:00"), ("securityToken", .string "tok")]) =
        .ok ⟨"", Unix 1730711111 5000 3600, "tok"⟩ :=
  ⟨by decide, by decide,
    (proof_json_keys_per_package "sig" "tok" "2024-11-04T10:05:11.000005+01:00"
      (Unix 1730711111 5000 3600) (Unix 1730711111 5000 3600) (by decide) (by decide)).2.2.1.2.2.2⟩

/-- C16: for every credential set with a non-empty session token and every signing time, the
`Authorization` value that `orgproof.NewWithOpts` and `aws.NewOrgProof` produce has the
signed-header list `host;x-amz-date;x-amz-security-token`. The signed headers are these three:
the request handed to the signer has no `X-Amz-Target` and no `Content-Type` header, its
`User-Agent` header does not change the `Authorization` value, and setting `X-Amz-Target` to any
value after signing leaves the `Authorization` value as it is. -/
theorem org_signature_covers_three_headers (env : Env) (cfg : awssdk.Config) (creds : Credentials)
    (oopts : orgproof.Opts) (aopts : List aws.ProofOption)
    (hcreds : cfg.Credentials = .ok creds) (htok : creds.SessionToken ≠ "") :
    (env.configOr oopts.AWSConfig = .ok cfg →
      ∃ sig : String, sig.length = 64 ∧ (∀ c ∈ sig.toList, hex.isLowerHex c = true) ∧
        orgproof.NewWithOpts env oopts = .ok
          { Signature :=
              "AWS4-HMAC-SHA256 Credential=" ++ creds.AccessKeyID ++ "/" ++
                (if oopts.Time.IsZero then env.Now else oopts.Time).UTC.Format "20060102" ++
                "/us-east-1/organizations/aws4_request, SignedHeaders=" ++
                "host;x-amz-date;x-amz-security-token" ++ ", Signature=" ++ sig,
            Time := if oopts.Time.IsZero then env.Now else oopts.Time,
            SecurityToken := creds.SessionToken }) ∧
    (env.configOr (aws.proveOptions env aopts).cfg = .ok cfg →
      ∃ sig : String, sig.length = 64 ∧ (∀ c ∈ sig.toList, hex.isLowerHex c = true) ∧
        aws.NewOrgProof env aopts = .ok
          { Signature :=
              "AWS4-HMAC-SHA256 Credential=" ++ creds.AccessKeyID ++ "/" ++
                (aws.proveOptions env aopts).time.UTC.Format "20060102" ++
                "/us-east-1/organizations/aws4_request, SignedHeaders=" ++
                "host;x-amz-date;x-amz-security-token" ++ ", Signature=" ++ sig,
            Time := (aws.proveOptions env aopts).time,
            SecurityToken := creds.SessionToken }) ∧
    (∀ T : Time,
      (Build creds orgproof.createRequest orgproof.payloadHash "organizations" "us-east-1"
        T).SignedHeaders.entries.map Prod.fst = ["host", "x-amz-date", "x-amz-security-token"] ∧
      (Build creds (aws.orgCreateRequest (aws.proveOptions env aopts)) aws.orgPayloadHash
        "organizations" "us-east-1" T).SignedHeaders.entries.map Prod.fst =
          ["host", "x-amz-date", "x-amz-security-token"]) ∧
    (orgproof.createRequest.Header.values "X-Amz-Target" = none ∧
      orgproof.createRequest.Header.values "Content-Type" = none ∧
      (aws.orgCreateRequest (aws.proveOptions env aopts)).Header.values "X-Amz-Target" = none ∧
      (aws.orgCreateRequest (aws.proveOptions env aopts)).Header.values "Content-Type" = none) ∧
    (∀ (T : Time) (ua : String),
      (Build creds { orgproof.createRequest with Header := ⟨[("User-Agent", [ua])]⟩ }
        orgproof.payloadHash "organizations" "us-east-1" T).Request.Header.Get "Authorization" =
      (Build creds orgproof.createRequest orgproof.payloadHash "organizations" "us-east-1"
        T).Request.Header.Get "Authorization") ∧
    (∀ (T : Time) (v : String),
      ((Build creds orgproof.createRequest orgproof.payloadHash "organizations" "us-east-1"
        T).Request.Header.Set "X-Amz-Target" v).Get "Authorization" =
      (Build creds orgproof.createRequest orgproof.payloadHash "organizations" "us-east-1"
        T).Request.Header.Get "Authorization" ∧
      ((Build creds (aws.orgCreateRequest (aws.proveOptions env aopts)) aws.orgPayloadHash
        "organizations" "us-east-1" T).Request.Header.Set "X-Amz-Target" v).Get "Authorization" =
      (Build creds (aws.orgCreateRequest (aws.proveOptions env aopts)) aws.orgPayloadHash
        "organizations" "us-east-1" T).Request.Header.Get "Authorization") := by
  have hr := orgproof.org_createRequest_eq
  have ha := aws.orgCreateRequest_eq (aws.proveOptions env aopts)
  refine ⟨fun hcfg => ?_, fun hcfg => ?_, fun T => ⟨?_, ?_⟩, ⟨?_, ?_, ?_, ?_⟩, fun T ua => ?_,
    fun T v => ⟨?_, ?_⟩⟩
  · obtain ⟨sig, h1, h2, h3⟩ := organization_authorization creds orgproof.createRequest
      orgproof.payloadHash "cloudproof-go/0.1.0"
      (if oopts.Time.IsZero then env.Now else oopts.Time).UTC
      (by rw [hr]) (by rw [hr]) (by rw [hr])
    rw [if_neg htok] at h3
    exact ⟨sig, h1, h2, by rw [orgproof.org_NewWithOpts_ok env oopts cfg creds hcfg hcreds, h3]⟩
  · obtain ⟨sig, h1, h2, h3⟩ := organization_authorization creds
      (aws.orgCreateRequest (aws.proveOptions env aopts))
      aws.orgPayloadHash (aws.proveOptions env aopts).useragent
      (aws.proveOptions env aopts).time.UTC
      (by rw [ha]) (by rw [ha]) (by rw [ha])
    rw [if_neg htok] at h3
    exact ⟨sig, h1, h2, by rw [aws.NewOrgProof_ok env aopts cfg creds hcfg hcreds, h3]⟩
  · rw [orgproof.org_signedHeaders_entries, if_neg htok]; rfl
  · rw [aws.orgSignedHeaders_entries, if_neg htok]; rfl
  · rw [hr]; rfl
  · rw [hr]; rfl
  · rw [ha]; rfl
  · rw [ha]; rfl
  · exact (authorization_userAgent creds orgproof.createRequest _ orgproof.payloadHash
      "organizations" "us-east-1" "cloudproof-go/0.1.0" ua T (by rw [hr]; exact org_port)
      (by rw [hr]; decide) (by rw [hr]) rfl).symm
  · exact authorization_after_target creds orgproof.createRequest orgproof.payloadHash
      "organizations" "us-east-1" "cloudproof-go/0.1.0" v T (by rw [hr]; exact org_port)
      (by rw [hr]; decide) (by rw [hr])
  · exact authorization_after_target creds (aws.orgCreateRequest (aws.proveOptions env aopts))
      aws.orgPayloadHash "organizations" "us-east-1" (aws.proveOptions env aopts).useragent v T
      (by rw [ha]; exact org_port)
      (by rw [ha]; show "organizations.us-east-1.amazonaws.com" ≠ ""; decide) (by rw [ha])

/-- C16 (witness): the claim at the stub credentials of `cptest`, with the signing time
1970-01-01T00:00:01Z. -/
theorem org_signature_covers_three_headers_witness :
    cptest.Config.Credentials = .ok ⟨"AKID", "SECRET", "SESSION"⟩ ∧
    ("SESSION" : String) ≠ "" ∧
    (Env.offline (Unix 0 0 0)).configOr (some cptest.Config) = .ok cptest.Config ∧
    ∃ sig : String, sig.length = 64 ∧ (∀ c ∈ sig.toList, hex.isLowerHex c = true) ∧
      orgproof.NewWithOpts (Env.offline (Unix 0 0 0)) ⟨some cptest.Config, Unix 1 0 0⟩ = .ok
        { Signature :=
            "AWS4-HMAC-SHA256 Credential=" ++ "AKID" ++ "/" ++
              (Unix 1 0 0).UTC.Format "20060102" ++
              "/us-east-1/organizations/aws4_request, SignedHeaders=" ++
              "host;x-amz-date;x-amz-security-token" ++ ", Signature=" ++ sig,
          Time := Unix 1 0 0,
          SecurityToken := "SESSION" } :=
  ⟨rfl, by decide, rfl,
    (org_signature_covers_three_headers (Env.offline (Unix 0 0 0)) cptest.Config
      ⟨"AKID", "SECRET", "SESSION"⟩ ⟨some cptest.Config, Unix 1 0 0⟩ [] rfl (by decide)).1 rfl⟩

end Cloudproof
